import Mathlib

/-!
# ASEPRITE undo engine: object registry, frame and flip undoers, history, `SharedPtr`

A shallow embedding of `src/undoers/add_frame.cpp` (the `AddFrame` undoer: constructor,
`dispose` and `revert`) and of the class declared in `src/undoers/flip_image.h`, together with
the collaborators they call.  The collaborators whose sources are not in this source tree
(`undo/objects_container.h`, `undo/undoers_collector.h`, `undoers/remove_frame.*`,
`undoers/flip_image.cpp`, `raster/sprite.h`, `raster/image.h`, `document_event.h`, the history
stack) are modelled from the specification; each such definition says so in its doc comment.
The reference-counted handle of `base/shared_ptr.h` is modelled as the unit tests of
`src/base/shared_ptr_unittest.cpp` exercise it, and the tests are embedded as programs.
The last part embeds the colour accessors of `UISettingsImpl` and the grid snapping of
`UIDocumentSettingsImpl` (`src/settings/ui_settings_impl.cpp`) and the scroll clamping of
`ui::View` (`src/ui/view.cpp`); there every `int` operation wraps around modulo `2^32`.

C++ objects live at addresses (`Ptr`); the registry maps `ObjectId`s to addresses and the
sprite store maps addresses to sprite values.  Stateful code is written in explicit
state-passing style over `World`; a failing call returns the state reached when it failed.
-/

namespace Aseprite

/-- Address of a C++ object (`Document*`, `Sprite*`): object identity. -/
abbrev Ptr := Nat

/-- Modelled from the spec: `undo/object_id.h` is absent; an `ObjectId` is "an opaque,
process-lifetime-unique integer handle". -/
abbrev ObjectId := Nat

/-- Modelled from the spec: `raster/frame_number.h` is absent; a frame index. -/
abbrev FrameNumber := Nat

/-- Modelled from the spec: the reconstructable content of one frame ("content C"). -/
abbrev FrameData := Nat

/-- Failures named by the specification (sections 4.1, 4.3 and 7). -/
inductive Error where
  | DanglingReference
  | NothingToUndo
  | NothingToRedo
  deriving DecidableEq, Repr

/-! ## Object registry -/

/-- Modelled from the spec: `undo/objects_container.h` is absent.  The registry is a table of
`ObjectId ↦ object reference` associations together with the next identifier to issue
(identifiers are "never reused"). -/
structure ObjectsContainer where
  entries : List (ObjectId × Ptr)
  nextId : ObjectId
  deriving DecidableEq, Repr

namespace ObjectsContainer

/-- The registry of a fresh editing session. -/
def empty : ObjectsContainer := { entries := [], nextId := 0 }

/-- Modelled from the spec: `addObject(obj) -> ObjectId` "registers an object if not already
registered; ... returns existing ID on repeat calls for the same object". -/
def addObject (self : ObjectsContainer) (object : Ptr) : ObjectId × ObjectsContainer :=
  match self.entries.find? (fun e => e.2 == object) with
  | some e => (e.1, self)
  | none =>
    (self.nextId,
      { entries := self.entries ++ [(self.nextId, object)], nextId := self.nextId + 1 })

/-- Modelled from the spec: `getObject(id)` "resolves an ID; fails with `DanglingReference` if
the ID was never issued or its object was removed without being replaced". -/
def getObject (self : ObjectsContainer) (id : ObjectId) : Except Error Ptr :=
  match self.entries.find? (fun e => e.1 == id) with
  | some e => .ok e.2
  | none => .error .DanglingReference

/-- Modelled from the spec: `getObjectT<T>(id)` is `getObject(id)` with the result cast to
`T*`; addresses are untyped here, so the cast is the identity. -/
def getObjectT (self : ObjectsContainer) (id : ObjectId) : Except Error Ptr :=
  self.getObject id

/-- Modelled from the spec: `removeObject(id)` "clears the association". -/
def removeObject (self : ObjectsContainer) (id : ObjectId) : ObjectsContainer :=
  { self with entries := self.entries.filter (fun e => !(e.1 == id)) }

/-- Modelled from the spec: re-insertion of a recreated object "under the same ID"
(section 3); the identifier counter never goes back. -/
def insertObject (self : ObjectsContainer) (id : ObjectId) (object : Ptr) : ObjectsContainer :=
  { entries := self.entries ++ [(id, object)], nextId := max self.nextId (id + 1) }

/-- The registry invariant of section 3: the mapping is injective (one identifier per
object), functional (one object per identifier) and every issued identifier is below the
counter. -/
def WF (self : ObjectsContainer) : Prop :=
  (∀ e ∈ self.entries, e.1 < self.nextId) ∧
  (∀ e ∈ self.entries, ∀ e2 ∈ self.entries, e.1 = e2.1 → e = e2) ∧
  (∀ e ∈ self.entries, ∀ e2 ∈ self.entries, e.2 = e2.2 → e = e2)

instance (self : ObjectsContainer) : Decidable self.WF :=
  inferInstanceAs (Decidable (
    (∀ e ∈ self.entries, e.1 < self.nextId) ∧
    (∀ e ∈ self.entries, ∀ e2 ∈ self.entries, e.1 = e2.1 → e = e2) ∧
    (∀ e ∈ self.entries, ∀ e2 ∈ self.entries, e.2 = e2.2 → e = e2)))

end ObjectsContainer

/-! ## Undoers -/

/-- State of `undoers::AddFrame` (the members initialised by its constructor,
`add_frame.cpp` lines 34-39). -/
structure AddFrame where
  m_documentId : ObjectId
  m_spriteId : ObjectId
  m_frame : FrameNumber
  deriving DecidableEq, Repr

/-- Modelled from the spec: `undoers/remove_frame.h` is absent.  A frame-removal undoer keeps
the two identifiers, "the frame index and a reference to the removed frame's reconstructable
data" (`none` when the sprite had no frame at that index). -/
structure RemoveFrame where
  m_documentId : ObjectId
  m_spriteId : ObjectId
  m_frame : FrameNumber
  m_frameData : Option FrameData
  deriving DecidableEq, Repr

/-- Modelled from the spec: `gfx/rect.h` is absent; a rectangle with `int` members. -/
structure Rect where
  x : Int
  y : Int
  w : Int
  h : Int
  deriving DecidableEq, Repr

/-- Modelled from the spec: `raster/algorithm/flip_type.h` is absent; the two flip axes. -/
inductive FlipType where
  | FlipHorizontal
  | FlipVertical
  deriving DecidableEq, Repr

/-- The `uint8_t` code under which a flip axis is stored in `m_flipType`. -/
def FlipType.toCode : FlipType → Nat
  | .FlipHorizontal => 0
  | .FlipVertical => 1

/-- Reading a stored code back as a flip axis; the constructor only stores 0 and 1, any other
code is read as vertical. -/
def FlipType.ofCode (code : Nat) : FlipType :=
  if code = 0 then .FlipHorizontal else .FlipVertical

/-- State of `undoers::FlipImage`, the private members of `flip_image.h` lines 42-46:
`undo::ObjectId m_imageId; uint8_t m_format; uint16_t m_x, m_y, m_w, m_h;
uint8_t m_flipType;`. -/
structure FlipImage where
  m_imageId : ObjectId
  m_format : Nat
  m_x : Nat
  m_y : Nat
  m_w : Nat
  m_h : Nat
  m_flipType : Nat
  deriving DecidableEq, Repr

/-- The method `FlipImage::getMemSize()`, `flip_image.h` line 39: `return sizeof(*this)`.
The size of the record is a compile-time constant of the platform, taken as the parameter
`sizeofFlipImage`. -/
def FlipImage.getMemSize (sizeofFlipImage : Nat) (_self : FlipImage) : Nat :=
  sizeofFlipImage

/-- The closed family of undoer variants (section 9: "a closed tagged-variant set"). -/
inductive Undoer where
  | addFrame (u : AddFrame)
  | removeFrame (u : RemoveFrame)
  | flipImage (u : FlipImage)
  deriving DecidableEq, Repr

/-- Modelled from the spec: `undo/undoers_collector.h` is absent; a collector is the ordered
sequence of undoers pushed so far, oldest first. -/
structure UndoersCollector where
  undoers : List Undoer
  deriving DecidableEq, Repr

/-- Modelled from the spec: `pushUndoer` appends one undoer to the collector. -/
def UndoersCollector.pushUndoer (self : UndoersCollector) (undoer : Undoer) : UndoersCollector :=
  { undoers := self.undoers ++ [undoer] }

/-! ## Document model and notifications -/

/-- Modelled from the spec: `raster/sprite.h` is absent; of a sprite only its ordered frames
matter to the frame undoers. -/
structure Sprite where
  frames : List FrameData
  deriving DecidableEq, Repr

/-- Modelled from the spec: `Sprite::removeFrame(frame)` drops the frame at that index. -/
def Sprite.removeFrame (self : Sprite) (frame : FrameNumber) : Sprite :=
  { frames := self.frames.eraseIdx frame }

/-- Modelled from the spec: a frame is "reconstructed from a minimal descriptor (index +
content)": the content is put back at that index. -/
def Sprite.addFrame (self : Sprite) (frame : FrameNumber) (data : FrameData) : Sprite :=
  { frames := self.frames.take frame ++ data :: self.frames.drop frame }

/-- Modelled from the spec: `raster/image.h` is absent; of an image only its pixel format and
the colour of the pixel at each coordinate matter to the flip undoer. -/
structure Image where
  pixelFormat : Nat
  getpixel : Int → Int → Nat

/-- Whether the pixel `(u, v)` lies in the rectangle. -/
def Rect.contains (r : Rect) (u v : Int) : Bool :=
  decide (r.x ≤ u) && decide (u < r.x + r.w) && decide (r.y ≤ v) && decide (v < r.y + r.h)

/-- Modelled from the spec: the raster flip algorithm is an external collaborator
("flipping twice is its own inverse"): the pixels of `bounds` are mirrored along the axis,
the pixels outside are kept. -/
def Image.flip (self : Image) (bounds : Rect) (flipType : FlipType) : Image :=
  { self with
    getpixel := fun u v =>
      if bounds.contains u v then
        match flipType with
        | .FlipHorizontal => self.getpixel (2 * bounds.x + bounds.w - 1 - u) v
        | .FlipVertical => self.getpixel u (2 * bounds.y + bounds.h - 1 - v)
      else self.getpixel u v }

/-- Modelled from the spec: `document_event.h` is absent.  `DocumentEvent ev(document)` sets
the document; `ev.sprite(..)` and `ev.frame(..)` fill the optional parts. -/
structure DocumentEvent where
  document : Ptr
  sprite : Option Ptr
  frame : Option FrameNumber
  deriving DecidableEq, Repr

/-- The event built by `DocumentEvent ev(document)`. -/
def DocumentEvent.ofDocument (document : Ptr) : DocumentEvent :=
  { document := document, sprite := none, frame := none }

/-- Setter `ev.sprite(sprite)`. -/
def DocumentEvent.setSprite (ev : DocumentEvent) (sprite : Ptr) : DocumentEvent :=
  { ev with sprite := some sprite }

/-- Setter `ev.frame(frame)`. -/
def DocumentEvent.setFrame (ev : DocumentEvent) (frame : FrameNumber) : DocumentEvent :=
  { ev with frame := some frame }

/-- The `DocumentObserver` member functions the frame undoers dispatch to. -/
inductive DocumentObserver where
  | onAddFrame
  | onRemoveFrame
  deriving DecidableEq, Repr

/-- Side effects on the document model and its observers, in the order they happen. -/
inductive Effect where
  | removeFrame (sprite : Ptr) (frame : FrameNumber)
  | addFrame (sprite : Ptr) (frame : FrameNumber) (data : FrameData)
  | notify (document : Ptr) (method : DocumentObserver) (ev : DocumentEvent)
  | flipImage (image : Ptr) (bounds : Rect) (flipType : FlipType)
  deriving DecidableEq, Repr

/-- Whether an effect is a notification dispatch. -/
def Effect.isNotify : Effect → Bool
  | .notify _ _ _ => true
  | _ => false

/-- Whether an effect mutates the document model. -/
def Effect.isMutation : Effect → Bool
  | .notify _ _ _ => false
  | _ => true

/-- Everything `revert(objects, redoers)` can read or write: the registry `objects`, the
opposite collector `redoers`, the sprites and the images of the document model by address,
and the record of document mutations and notification dispatches performed so far. -/
structure World where
  objects : ObjectsContainer
  redoers : UndoersCollector
  sprites : Ptr → Sprite
  trace : List Effect
  images : Ptr → Image

namespace World

/-- The call `redoers->pushUndoer(undoer)`. -/
def pushUndoer (w : World) (undoer : Undoer) : World :=
  { w with redoers := w.redoers.pushUndoer undoer }

/-- The call `sprite->removeFrame(frame)` on the sprite at address `sprite`. -/
def removeFrame (w : World) (sprite : Ptr) (frame : FrameNumber) : World :=
  { w with
    sprites := Function.update w.sprites sprite ((w.sprites sprite).removeFrame frame)
    trace := w.trace ++ [Effect.removeFrame sprite frame] }

/-- The call `sprite->addFrame(..)` putting `data` back at index `frame`. -/
def addFrame (w : World) (sprite : Ptr) (frame : FrameNumber) (data : FrameData) : World :=
  { w with
    sprites := Function.update w.sprites sprite ((w.sprites sprite).addFrame frame data)
    trace := w.trace ++ [Effect.addFrame sprite frame data] }

/-- Modelled from the spec: `document->notifyObservers(method, ev)` is one dispatch to the
external Document Change Notifier; delivery to subscribers is the notifier's concern. -/
def notifyObservers (w : World) (document : Ptr) (method : DocumentObserver)
    (ev : DocumentEvent) : World :=
  { w with trace := w.trace ++ [Effect.notify document method ev] }

/-- The call `flip_image(image, bounds, flipType)` on the image at address `image`. -/
def flipImage (w : World) (image : Ptr) (bounds : Rect) (flipType : FlipType) : World :=
  { w with
    images := Function.update w.images image ((w.images image).flip bounds flipType)
    trace := w.trace ++ [Effect.flipImage image bounds flipType] }

end World

/-- Constructor `AddFrame::AddFrame(objects, document, sprite, frame)`, `add_frame.cpp`
lines 34-39: the members are initialised in order, each identifier by `addObject`. -/
def AddFrame.new (document sprite : Ptr) (frame : FrameNumber) (w : World) : AddFrame × World :=
  let r1 := w.objects.addObject document
  let r2 := r1.2.addObject sprite
  ({ m_documentId := r1.1, m_spriteId := r2.1, m_frame := frame }, { w with objects := r2.2 })

/-- Modelled from the spec: the constructor `RemoveFrame(objects, document, sprite, frame)`
registers the two objects like `AddFrame` does and captures the content of the frame that is
at index `frame` when it runs. -/
def RemoveFrame.new (document sprite : Ptr) (frame : FrameNumber) (w : World) :
    RemoveFrame × World :=
  let r1 := w.objects.addObject document
  let r2 := r1.2.addObject sprite
  ({ m_documentId := r1.1, m_spriteId := r2.1, m_frame := frame,
     m_frameData := (w.sprites sprite).frames[frame]? },
   { w with objects := r2.2 })

/-- The method `AddFrame::revert(objects, redoers)`, `add_frame.cpp` lines 46-62. -/
def AddFrame.revert (self : AddFrame) (w : World) : Except Error Unit × World :=
  match w.objects.getObjectT self.m_documentId with
  | .error e => (.error e, w)
  | .ok document =>
    match w.objects.getObjectT self.m_spriteId with
    | .error e => (.error e, w)
    | .ok sprite =>
      let r := RemoveFrame.new document sprite self.m_frame w
      let w1 := r.2.pushUndoer (Undoer.removeFrame r.1)
      let w2 := w1.removeFrame sprite self.m_frame
      let ev := ((DocumentEvent.ofDocument document).setSprite sprite).setFrame self.m_frame
      (.ok (), w2.notifyObservers document DocumentObserver.onRemoveFrame ev)

/-- Modelled from the spec: `RemoveFrame::revert` mirrors `AddFrame::revert`: it resolves the
identifiers, pushes an `AddFrame` for the same frame, puts the captured frame back and
dispatches `onAddFrame`. -/
def RemoveFrame.revert (self : RemoveFrame) (w : World) : Except Error Unit × World :=
  match w.objects.getObjectT self.m_documentId with
  | .error e => (.error e, w)
  | .ok document =>
    match w.objects.getObjectT self.m_spriteId with
    | .error e => (.error e, w)
    | .ok sprite =>
      let r := AddFrame.new document sprite self.m_frame w
      let w1 := r.2.pushUndoer (Undoer.addFrame r.1)
      let w2 := match self.m_frameData with
        | some data => w1.addFrame sprite self.m_frame data
        | none => w1
      let ev := ((DocumentEvent.ofDocument document).setSprite sprite).setFrame self.m_frame
      (.ok (), w2.notifyObservers document DocumentObserver.onAddFrame ev)

/-- Modelled from the spec: `flip_image.cpp` is absent.  The constructor
`FlipImage(objects, image, bounds, flipType)` declared in `flip_image.h` registers the image
and fills the members from its arguments: the format byte from the image, the four `int`
members of `bounds` converted to `uint16_t`, the flip axis as its `uint8_t` code. -/
def FlipImage.new (image : Ptr) (bounds : Rect) (flipType : FlipType) (w : World) :
    FlipImage × World :=
  let r := w.objects.addObject image
  ({ m_imageId := r.1
     m_format := (w.images image).pixelFormat % 256
     m_x := (bounds.x % 65536).toNat
     m_y := (bounds.y % 65536).toNat
     m_w := (bounds.w % 65536).toNat
     m_h := (bounds.h % 65536).toNat
     m_flipType := flipType.toCode },
   { w with objects := r.2 })

/-- The rectangle recorded by a `FlipImage`. -/
def FlipImage.bounds (self : FlipImage) : Rect :=
  { x := self.m_x, y := self.m_y, w := self.m_w, h := self.m_h }

/-- Modelled from the spec: `FlipImage::revert` resolves the image, constructs and pushes the
inverse, which is the same flip ("flipping twice is its own inverse, only the bounds and axis
are stored"), and flips the recorded rectangle of the image again.  The undoer holds no
document identifier, so no notification is dispatched through a document. -/
def FlipImage.revert (self : FlipImage) (w : World) : Except Error Unit × World :=
  match w.objects.getObjectT self.m_imageId with
  | .error e => (.error e, w)
  | .ok image =>
    let r := FlipImage.new image self.bounds (FlipType.ofCode self.m_flipType) w
    let w1 := r.2.pushUndoer (Undoer.flipImage r.1)
    (.ok (), w1.flipImage image self.bounds (FlipType.ofCode self.m_flipType))

/-- Virtual dispatch of `revert` over the undoer variants. -/
def Undoer.revert : Undoer → World → Except Error Unit × World
  | .addFrame u, w => u.revert w
  | .removeFrame u, w => u.revert w
  | .flipImage u, w => u.revert w

/-! ## History stack and transactions -/

/-- Modelled from the spec: a history entry is the labelled, ordered sequence of undoers
recorded during one transaction (recording order). -/
structure Entry where
  label : String
  undoers : List Undoer
  deriving DecidableEq, Repr

/-- Modelled from the spec: a transaction is "a mutable accumulator of Undoers plus a
human-readable label". -/
structure Transaction where
  label : String
  undoers : List Undoer
  deriving DecidableEq, Repr

/-- Modelled from the spec: `beginTransaction(label)` "creates an empty accumulator". -/
def beginTransaction (label : String) : Transaction :=
  { label := label, undoers := [] }

/-- Modelled from the spec: `recordUndoer(tx, undoer)` appends to the accumulator. -/
def recordUndoer (tx : Transaction) (undoer : Undoer) : Transaction :=
  { tx with undoers := tx.undoers ++ [undoer] }

/-- Modelled from the spec: the history stack code is absent.  An editing session owns the
world the undoers act on (its collector is empty between dispatches), the two stacks (oldest
entry first), the memory budget with the per-undoer size estimate, and the undoers disposed
so far (what a dispose-counting test double would see). -/
structure Session where
  world : World
  undoHistory : List Entry
  redoHistory : List Entry
  budget : Nat
  estimateSize : Undoer → Nat
  disposed : List Undoer

/-- All undoers held by a list of entries, oldest entry first. -/
def Entry.allUndoers : List Entry → List Undoer
  | [] => []
  | e :: es => e.undoers ++ Entry.allUndoers es

/-- Sum of `estimateSize()` over all undoers of a list of entries. -/
def Entry.totalSize (estimateSize : Undoer → Nat) (es : List Entry) : Nat :=
  ((Entry.allUndoers es).map estimateSize).sum

/-- Modelled from the spec: eviction at commit: "the oldest entries in `undoHistory` are
evicted ... until the budget is satisfied or only the newest entry remains".  Returns the
entries kept and the undoers of the evicted entries (to be disposed). -/
def Entry.evict (estimateSize : Undoer → Nat) (budget : Nat) :
    List Entry → List Entry × List Undoer
  | [] => ([], [])
  | [e] => ([e], [])
  | e :: e2 :: es =>
    if Entry.totalSize estimateSize (e :: e2 :: es) ≤ budget then (e :: e2 :: es, [])
    else
      let r := Entry.evict estimateSize budget (e2 :: es)
      (r.1, e.undoers ++ r.2)

namespace Session

/-- Modelled from the spec: `commitTransaction(tx)`: "if accumulator non-empty, pushes it as
one entry onto `undoHistory` and clears `redoHistory` (discarding and disposing every Undoer
it held)"; an empty transaction is a no-op.  Eviction keeps the budget. -/
def commitTransaction (s : Session) (tx : Transaction) : Session :=
  if tx.undoers.isEmpty then s
  else
    let r := Entry.evict s.estimateSize s.budget
      (s.undoHistory ++ [{ label := tx.label, undoers := tx.undoers }])
    { s with
      undoHistory := r.1
      redoHistory := []
      disposed := s.disposed ++ Entry.allUndoers s.redoHistory ++ r.2 }

/-- Modelled from the spec: `discardTransaction(tx)` "disposes every accumulated Undoer
without touching either stack". -/
def discardTransaction (s : Session) (tx : Transaction) : Session :=
  { s with disposed := s.disposed ++ tx.undoers }

/-- Modelled from the spec: reverting the undoers of one entry in the given order; a failing
revert aborts the dispatch and leaves the remaining undoers un-reverted. -/
def revertAll : List Undoer → World → Except Error Unit × World
  | [], w => (.ok (), w)
  | u :: us, w =>
    match u.revert w with
    | (.error e, w1) => (.error e, w1)
    | (.ok _, w1) => revertAll us w1

/-- Modelled from the spec: undo dispatch: reports `NothingToUndo` on an empty stack;
otherwise pops the newest entry, reverts its undoers in reverse recording order with a fresh
collector, and pushes the collected inverses onto `redoHistory` as one entry. -/
def undo (s : Session) : Except Error Unit × Session :=
  match s.undoHistory.getLast? with
  | none => (.error .NothingToUndo, s)
  | some entry =>
    let r := revertAll entry.undoers.reverse { s.world with redoers := { undoers := [] } }
    match r.1 with
    | .error e =>
      (.error e,
        { s with
          world := { r.2 with redoers := { undoers := [] } }
          undoHistory := s.undoHistory.dropLast })
    | .ok _ =>
      (.ok (),
        { s with
          world := { r.2 with redoers := { undoers := [] } }
          undoHistory := s.undoHistory.dropLast
          redoHistory := s.redoHistory ++
            [{ label := entry.label, undoers := r.2.redoers.undoers }] })

/-- Modelled from the spec: "Redo dispatch is the exact mirror, consuming `redoHistory` and
rebuilding an entry on `undoHistory`". -/
def redo (s : Session) : Except Error Unit × Session :=
  match s.redoHistory.getLast? with
  | none => (.error .NothingToRedo, s)
  | some entry =>
    let r := revertAll entry.undoers.reverse { s.world with redoers := { undoers := [] } }
    match r.1 with
    | .error e =>
      (.error e,
        { s with
          world := { r.2 with redoers := { undoers := [] } }
          redoHistory := s.redoHistory.dropLast })
    | .ok _ =>
      (.ok (),
        { s with
          world := { r.2 with redoers := { undoers := [] } }
          redoHistory := s.redoHistory.dropLast
          undoHistory := s.undoHistory ++
            [{ label := entry.label, undoers := r.2.redoers.undoers }] })

/-- Modelled from the spec: `canUndo()`. -/
def canUndo (s : Session) : Bool := !s.undoHistory.isEmpty

/-- Modelled from the spec: `canRedo()`. -/
def canRedo (s : Session) : Bool := !s.redoHistory.isEmpty

/-- Modelled from the spec: `currentUndoLabel()`, the label of the newest undo entry. -/
def currentUndoLabel (s : Session) : Option String :=
  s.undoHistory.getLast?.map (fun e => e.label)

/-- Modelled from the spec: `setMemoryBudget(bytes)`. -/
def setMemoryBudget (s : Session) (bytes : Nat) : Session :=
  { s with budget := bytes }

end Session

/-! ## Disposal -/

/-- The method `AddFrame::dispose()`, `add_frame.cpp` lines 41-44: `delete this` releases the
undoer object itself; the session's record of disposed undoers grows by this undoer. -/
def AddFrame.dispose (self : AddFrame) (s : Session) : Session :=
  { s with disposed := s.disposed ++ [Undoer.addFrame self] }

/-- Modelled from the spec: `RemoveFrame::dispose()` releases the undoer and the frame data it
owns "without reverting anything". -/
def RemoveFrame.dispose (self : RemoveFrame) (s : Session) : Session :=
  { s with disposed := s.disposed ++ [Undoer.removeFrame self] }

/-- Modelled from the spec: `FlipImage::dispose()` (declared in `flip_image.h`, body absent)
releases the undoer "without reverting anything". -/
def FlipImage.dispose (self : FlipImage) (s : Session) : Session :=
  { s with disposed := s.disposed ++ [Undoer.flipImage self] }

/-- Virtual dispatch of `dispose` over the undoer variants. -/
def Undoer.dispose : Undoer → Session → Session
  | .addFrame u, s => u.dispose s
  | .removeFrame u, s => u.dispose s
  | .flipImage u, s => u.dispose s

/-- The recording step of the flip scenario of section 8: begin transaction `label`, record
the `FlipImage` constructed for `(image, bounds, flipType)`, flip the region, commit. -/
def Session.commitFlipImage (s : Session) (label : String) (image : Ptr) (bounds : Rect)
    (flipType : FlipType) : Session :=
  let c := FlipImage.new image bounds flipType s.world
  { s with world := c.2.flipImage image bounds flipType }.commitTransaction
    (recordUndoer (beginTransaction label) (Undoer.flipImage c.1))

/-- Disposing the undoers of a list one after the other, as eviction, redo clearing and
transaction discard do. -/
def Session.disposeAll : List Undoer → Session → Session
  | [], s => s
  | u :: us, s => Session.disposeAll us (u.dispose s)

/-! ## `SharedPtr` -/

/-- Name of a handle variable of a program (`a`, `b`, `c` of the unit tests). -/
abbrev Var := Nat

/-- Modelled from the spec: `base/shared_ptr.h` is absent; this is the reference-counted
handle that `shared_ptr_unittest.cpp` exercises.  A handle holds the address of the object it
manages, or nothing when it is empty. -/
structure SharedPtr where
  m_ptr : Option Ptr
  deriving DecidableEq, Repr

/-- Modelled from the spec: `operator==` on handles compares the managed pointers. -/
def SharedPtr.eq (a b : SharedPtr) : Bool := a.m_ptr == b.m_ptr

/-- Modelled from the spec: `operator!=` on handles. -/
def SharedPtr.ne (a b : SharedPtr) : Bool := !(a.eq b)

/-- The live handles of a program, by variable name. -/
abbrev Handles := List (Var × SharedPtr)

/-- The handle bound to a variable, if the variable is live. -/
def Handles.get : Handles → Var → Option SharedPtr
  | [], _ => none
  | (k, h) :: rest, v => if k = v then some h else Handles.get rest v

/-- Rebinding a live variable to another handle value. -/
def Handles.set : Handles → Var → SharedPtr → Handles
  | [], _, _ => []
  | (k, h) :: rest, v, x => if k = v then (k, x) :: rest else (k, h) :: Handles.set rest v x

/-- Removing a variable that goes out of scope. -/
def Handles.remove : Handles → Var → Handles
  | [], _ => []
  | (k, h) :: rest, v => if k = v then rest else (k, h) :: Handles.remove rest v

/-- Number of live handles managing the object at address `p`. -/
def Handles.sharers : Handles → Ptr → Nat
  | [], _ => 0
  | (_, h) :: rest, p => (if h.m_ptr = some p then 1 else 0) + Handles.sharers rest p

/-- Modelled from the spec: the memory the handles act on: the value of the object at each
address, the reference counter shared by the handles managing it, the objects deleted so far
(in order), the next fresh address, and the live handles. -/
structure Memory where
  value : Ptr → Int
  refCount : Ptr → Nat
  deleted : List Ptr
  next : Ptr
  handles : Handles

namespace Memory

/-- The memory of a program that has not created any handle yet. -/
def init : Memory :=
  { value := fun _ => 0, refCount := fun _ => 0, deleted := [], next := 0, handles := [] }

/-- Modelled from the spec: taking a reference: the counter of the managed object grows by
one; nothing happens for an empty handle. -/
def ref (m : Memory) (h : SharedPtr) : Memory :=
  match h.m_ptr with
  | none => m
  | some q => { m with refCount := Function.update m.refCount q (m.refCount q + 1) }

/-- Modelled from the spec: dropping a reference: the counter of the managed object goes down
by one and the object is deleted when it reaches zero; nothing happens for an empty handle. -/
def unref (m : Memory) (h : SharedPtr) : Memory :=
  match h.m_ptr with
  | none => m
  | some q =>
    { m with
      refCount := Function.update m.refCount q (m.refCount q - 1)
      deleted := if m.refCount q - 1 = 0 then m.deleted ++ [q] else m.deleted }

/-- Declaration `SharedPtr<T> v(new T(x))`: a fresh object holding `x`, managed by the new
handle `v` alone. -/
def construct (m : Memory) (v : Var) (x : Int) : Memory :=
  match m.handles.get v with
  | some _ => m
  | none =>
    ref
      { m with
        value := Function.update m.value m.next x
        refCount := Function.update m.refCount m.next 0
        next := m.next + 1
        handles := (v, { m_ptr := some m.next }) :: m.handles }
      { m_ptr := some m.next }

/-- Declaration `SharedPtr<T> v(src)` (also between `SharedPtr<Base>` and
`SharedPtr<Derived>`): the new handle `v` shares what `src` manages. -/
def copy (m : Memory) (v src : Var) : Memory :=
  match m.handles.get v, m.handles.get src with
  | none, some h => ref { m with handles := (v, h) :: m.handles } h
  | _, _ => m

/-- Assignment `v = src`: nothing when both already manage the same pointer; otherwise `v`
drops its reference and takes one on what `src` manages. -/
def assign (m : Memory) (v src : Var) : Memory :=
  match m.handles.get v, m.handles.get src with
  | some hv, some hs =>
    if hv.m_ptr = hs.m_ptr then m
    else
      let m1 := m.unref hv
      ref { m1 with handles := m1.handles.set v hs } hs
  | _, _ => m

/-- The call `v.reset()`: `v` drops its reference and becomes empty. -/
def reset (m : Memory) (v : Var) : Memory :=
  match m.handles.get v with
  | none => m
  | some hv =>
    let m1 := m.unref hv
    { m1 with handles := m1.handles.set v { m_ptr := none } }

/-- End of the scope of `v`: the destructor drops its reference and the handle is gone. -/
def destroy (m : Memory) (v : Var) : Memory :=
  match m.handles.get v with
  | none => m
  | some hv =>
    let m1 := m.unref hv
    { m1 with handles := m1.handles.remove v }

/-- The assignment `*v = x` through a handle. -/
def write (m : Memory) (v : Var) (x : Int) : Memory :=
  match m.handles.get v with
  | some { m_ptr := some p } => { m with value := Function.update m.value p x }
  | _ => m

/-- The value `*v` read through a handle (`none` for a dead or empty handle). -/
def read (m : Memory) (v : Var) : Option Int :=
  match m.handles.get v with
  | some { m_ptr := some p } => some (m.value p)
  | _ => none

/-- The call `v.getRefCount()`: the counter of the managed object, 0 for an empty handle. -/
def getRefCount (m : Memory) (v : Var) : Nat :=
  match m.handles.get v with
  | some { m_ptr := some p } => m.refCount p
  | _ => 0

end Memory

/-- One statement of a program over handles. -/
inductive Op where
  | construct (v : Var) (x : Int)
  | copy (v src : Var)
  | assign (v src : Var)
  | reset (v : Var)
  | destroy (v : Var)
  | write (v : Var) (x : Int)
  deriving DecidableEq, Repr

/-- Executing one statement. -/
def Memory.step (m : Memory) : Op → Memory
  | .construct v x => m.construct v x
  | .copy v src => m.copy v src
  | .assign v src => m.assign v src
  | .reset v => m.reset v
  | .destroy v => m.destroy v
  | .write v x => m.write v x

/-- Executing the statements of a program in order. -/
def Memory.run (m : Memory) : List Op → Memory
  | [] => m
  | op :: ops => Memory.run (m.step op) ops

/-- The statements of `TEST(SharedPtr, RefCount)`, `shared_ptr_unittest.cpp` lines 17-38,
with `a`, `b`, `c` named 0, 1, 2; the inner scope ends with the destruction of `c`. -/
def testRefCount : List Op :=
  [.construct 0 5, .reset 0, .construct 1 5, .copy 2 1, .assign 0 2, .reset 0, .destroy 2]

/-- The statements of `TEST(SharedPtr, DeleteIsCalled)`, lines 40-56: one handle created and
destroyed at the end of its scope. -/
def testDeleteIsCalled : List Op :=
  [.construct 0 0, .destroy 0]

/-- The statements of `TEST(SharedPtr, Hierarchy)`, lines 58-67, with `a`, `b`, `c`, `d`
named 0 to 3. -/
def testHierarchy : List Op :=
  [.construct 0 0, .copy 1 0, .copy 2 0, .copy 3 1]

/-- The statements of `TEST(SharedPtr, Compare)`, lines 69-98, with `a`, `b`, `c` named
0, 1, 2. -/
def testCompare : List Op :=
  [.construct 0 0, .copy 1 0, .construct 2 0, .assign 0 2, .assign 2 1, .write 0 2, .write 1 5]

/-- The invariant of the handles: every counter equals the number of live handles managing
the object, no handle manages an address not yet allocated, an allocated object is deleted
exactly when its counter is zero, and no object is deleted twice. -/
def Memory.Inv (m : Memory) : Prop :=
  (∀ p, m.refCount p = m.handles.sharers p) ∧
  (∀ p, m.next ≤ p → m.handles.sharers p = 0) ∧
  (∀ p, p ∈ m.deleted ↔ p < m.next ∧ m.refCount p = 0) ∧
  m.deleted.Nodup

/-- The memories a program can reach from the initial one. -/
def Memory.Reachable (m : Memory) : Prop := ∃ ops : List Op, Memory.init.run ops = m

/-! ## General settings: `UISettingsImpl` -/

/-- Modelled from the spec: `app/color.h` is absent; a colour value. -/
abbrev app.Color := Nat

/-- Modelled from the spec: `widgets/color_bar.h` is absent.  The colour bar, reached through
`ColorBar::instance()`, keeps the current foreground and background colour; its accessors
read and write them. -/
structure ColorBar where
  m_fgColor : app.Color
  m_bgColor : app.Color
  deriving DecidableEq, Repr

/-- Modelled from the spec: `ColorBar::getFgColor()`. -/
def ColorBar.getFgColor (self : ColorBar) : app.Color := self.m_fgColor

/-- Modelled from the spec: `ColorBar::getBgColor()`. -/
def ColorBar.getBgColor (self : ColorBar) : app.Color := self.m_bgColor

/-- Modelled from the spec: `ColorBar::setFgColor(color)`. -/
def ColorBar.setFgColor (self : ColorBar) (color : app.Color) : ColorBar :=
  { self with m_fgColor := color }

/-- Modelled from the spec: `ColorBar::setBgColor(color)`. -/
def ColorBar.setBgColor (self : ColorBar) (color : app.Color) : ColorBar :=
  { self with m_bgColor := color }

/-- The method `UISettingsImpl::getFgColor()`, `ui_settings_impl.cpp` lines 160-163; `bar` is
the colour bar singleton. -/
def UISettingsImpl.getFgColor (bar : ColorBar) : app.Color :=
  bar.getFgColor

/-- The method `UISettingsImpl::getBgColor()`, lines 165-168. -/
def UISettingsImpl.getBgColor (bar : ColorBar) : app.Color :=
  bar.getBgColor

/-- The method `UISettingsImpl::setFgColor(color)`, lines 178-181. -/
def UISettingsImpl.setFgColor (color : app.Color) (bar : ColorBar) : ColorBar :=
  bar.setFgColor color

/-- The method `UISettingsImpl::setBgColor(color)`, lines 183-186; its body is
`ColorBar::instance()->setFgColor(color);`. -/
def UISettingsImpl.setBgColor (color : app.Color) (bar : ColorBar) : ColorBar :=
  bar.setFgColor color

/-! ## Scrolling: `ui::View` -/

/-- The smallest value of a 32-bit `int`. -/
def INT_MIN : Int := -2147483648

/-- The largest value of a 32-bit `int`. -/
def INT_MAX : Int := 2147483647

/-- Whether a mathematical result is representable as an `int`. -/
def isInt (x : Int) : Prop := INT_MIN ≤ x ∧ x ≤ INT_MAX

instance (x : Int) : Decidable (isInt x) :=
  inferInstanceAs (Decidable (INT_MIN ≤ x ∧ x ≤ INT_MAX))

/-- The value an `int` holds after an operation whose mathematical result is `x`: the result
is reduced modulo `2^32` into the range of `int` (two's complement wrap-around, what the
compiled code computes when a signed operation overflows). -/
def wrapInt (x : Int) : Int := (x + 2147483648) % 4294967296 - 2147483648

/-- Modelled from the spec: `gfx/point.h` is absent; a point with `int` members. -/
structure Point where
  x : Int
  y : Int
  deriving DecidableEq, Repr

/-- Modelled from the spec: `gfx/size.h` is absent; a size with `int` members. -/
structure Size where
  w : Int
  h : Int
  deriving DecidableEq, Repr

/-- Modelled from the spec: the macro `MAX` is not defined in this source tree; the larger of
two values. -/
def MAX (x y : Int) : Int := if x > y then x else y

/-- Modelled from the spec: the macro `MIN` is not defined in this source tree; the smaller of
two values. -/
def MIN (x y : Int) : Int := if x < y then x else y

/-- Modelled from the spec: the macro `MID` is not defined in this source tree; `MID(x, y, z)`
clamps `y` between the lower limit `x` and the upper limit `z`: `MAX(x, MIN(y, z))`. -/
def MID (x y z : Int) : Int := MAX x (MIN y z)

/-- Modelled from the spec: `ui/rect.h` is absent; a `jrect` with corners `(x1, y1)` and
`(x2, y2)`. -/
structure JRect where
  x1 : Int
  y1 : Int
  x2 : Int
  y2 : Int
  deriving DecidableEq, Repr

/-- Modelled from the spec: the macro `jrect_w(r)`, the width `x2 - x1`. -/
def jrect_w (r : JRect) : Int := wrapInt (r.x2 - r.x1)

/-- Modelled from the spec: the macro `jrect_h(r)`, the height `y2 - y1`. -/
def jrect_h (r : JRect) : Int := wrapInt (r.y2 - r.y1)

/-- Modelled from the spec: the `border_width` member of a widget. -/
structure BorderWidth where
  l : Int
  t : Int
  r : Int
  b : Int
  deriving DecidableEq, Repr

/-- Modelled from the spec: `ui/scroll_bar.h` is absent; a scroll bar keeps its position and
its size, read by `getPos`/`getSize` and written by `setPos`/`setSize`. -/
structure ScrollBar where
  m_pos : Int
  m_size : Int
  deriving DecidableEq, Repr

/-- Modelled from the spec: `ScrollBar::getPos()`. -/
def ScrollBar.getPos (self : ScrollBar) : Int := self.m_pos

/-- Modelled from the spec: `ScrollBar::getSize()`. -/
def ScrollBar.getSize (self : ScrollBar) : Int := self.m_size

/-- Modelled from the spec: `ScrollBar::setPos(pos)`. -/
def ScrollBar.setPos (self : ScrollBar) (pos : Int) : ScrollBar := { self with m_pos := pos }

/-- Modelled from the spec: of the viewport widget, the rectangle `rc` and the border. -/
structure Viewport where
  rc : JRect
  border_width : BorderWidth
  deriving DecidableEq, Repr

/-- The members of `ui::View` that `setViewScroll` reads and writes, with the number of times
the viewport was given its rectangle again (`jwidget_set_rect`) and the view was invalidated
(`invalidate`). -/
structure View where
  m_scrollbar_h : ScrollBar
  m_scrollbar_v : ScrollBar
  m_viewport : Viewport
  viewportLayouts : Nat
  invalidations : Nat
  deriving DecidableEq, Repr

namespace View

/-- The method `View::getScrollableSize()`, `view.cpp` lines 75-79. -/
def getScrollableSize (self : View) : Size :=
  { w := self.m_scrollbar_h.getSize, h := self.m_scrollbar_v.getSize }

/-- The method `View::getVisibleSize()`, `view.cpp` lines 163-167. -/
def getVisibleSize (self : View) : Size :=
  { w := wrapInt (wrapInt (jrect_w self.m_viewport.rc - self.m_viewport.border_width.l) -
      self.m_viewport.border_width.r)
    h := wrapInt (wrapInt (jrect_h self.m_viewport.rc - self.m_viewport.border_width.t) -
      self.m_viewport.border_width.b) }

/-- The method `View::getViewScroll()`, `view.cpp` lines 169-173. -/
def getViewScroll (self : View) : Point :=
  { x := self.m_scrollbar_h.getPos, y := self.m_scrollbar_v.getPos }

/-- The method `View::setViewScroll(pt)`, `view.cpp` lines 175-191; the two `int`
subtractions of line 180-181 wrap around. -/
def setViewScroll (self : View) (pt : Point) : View :=
  let oldScroll := self.getViewScroll
  let maxsize := self.getScrollableSize
  let visible := self.getVisibleSize
  let newScroll : Point :=
    { x := MID 0 pt.x (MAX 0 (wrapInt (maxsize.w - visible.w)))
      y := MID 0 pt.y (MAX 0 (wrapInt (maxsize.h - visible.h))) }
  if newScroll = oldScroll then self
  else
    { self with
      m_scrollbar_h := self.m_scrollbar_h.setPos newScroll.x
      m_scrollbar_v := self.m_scrollbar_v.setPos newScroll.y
      viewportLayouts := self.viewportLayouts + 1
      invalidations := self.invalidations + 1 }

end View

/-! ## Grid snapping: `UIDocumentSettingsImpl` -/

/-- The result of the C library function `div`: quotient and remainder. -/
structure div_t where
  quot : Int
  rem : Int
  deriving DecidableEq, Repr

/-- The C library function `div(numer, denom)`: the quotient is truncated toward zero and the
remainder has the sign of the numerator. -/
def div (numer denom : Int) : div_t :=
  { quot := numer.tdiv denom, rem := numer.tmod denom }

/-- Modelled from the spec: `settings/document_settings.h` is absent; `SnapBehavior` is a set
of flags. -/
abbrev SnapBehavior := Nat

/-- Modelled from the spec: the flag value `NormalSnap`. -/
def NormalSnap : SnapBehavior := 0

/-- Modelled from the spec: the flag value `SnapInRightBottom`. -/
def SnapInRightBottom : SnapBehavior := 1

/-- The grid members of `UIDocumentSettingsImpl`, `ui_settings_impl.cpp` lines 130-132. -/
structure UIDocumentSettingsImpl where
  m_snapToGrid : Bool
  m_gridVisible : Bool
  m_gridBounds : Rect
  deriving DecidableEq, Repr

/-- The method `UIDocumentSettingsImpl::snapToGrid(point, snapBehavior)`, lines 263-278; the
point passed by reference is returned.  Every `int` subtraction, multiplication and addition
wraps around. -/
def UIDocumentSettingsImpl.snapToGrid (self : UIDocumentSettingsImpl) (point : Point)
    (snapBehavior : SnapBehavior) : Point :=
  let w := self.m_gridBounds.w
  let h := self.m_gridBounds.h
  let adjust : Int := if snapBehavior &&& SnapInRightBottom ≠ 0 then 1 else 0
  let dx := div self.m_gridBounds.x w
  let dy := div self.m_gridBounds.y h
  let d := div (wrapInt (point.x - dx.rem)) w
  let x := wrapInt (wrapInt (dx.rem + wrapInt (d.quot * w)) +
    (if d.rem > w.tdiv 2 then wrapInt (w - adjust) else 0))
  let d2 := div (wrapInt (point.y - dy.rem)) h
  let y := wrapInt (wrapInt (dy.rem + wrapInt (d2.quot * h)) +
    (if d2.rem > h.tdiv 2 then wrapInt (h - adjust) else 0))
  { x := x, y := y }

/-- The expression `snapToGrid` computes for one coordinate `p`, for a grid of origin `origin`
and cell size `cell`: `dx.rem + d.quot*w + ((d.rem > w/2)? w-adjust: 0)` with
`d = div(p - dx.rem, w)`, every `int` operation wrapping around. -/
def snapAxis (origin cell adjust p : Int) : Int :=
  wrapInt (wrapInt ((div origin cell).rem +
      wrapInt ((div (wrapInt (p - (div origin cell).rem)) cell).quot * cell)) +
    (if (div (wrapInt (p - (div origin cell).rem)) cell).rem > cell.tdiv 2
      then wrapInt (cell - adjust) else 0))

/-- The value of `snapAxis origin cell 0 p` on the integers, without wrap-around. -/
def snapAxisExact (origin cell p : Int) : Int :=
  origin.tmod cell + (p - origin.tmod cell).tdiv cell * cell +
    (if (p - origin.tmod cell).tmod cell > cell.tdiv 2 then cell else 0)

/-- No `int` operation of the computation of `snapAxis origin cell 0 p` overflows: the
subtraction of the grid offset, the product with the cell size and the two additions all have
results representable as `int`. -/
def snapAxis.NoOverflow (origin cell p : Int) : Prop :=
  isInt cell ∧
  isInt (p - origin.tmod cell) ∧
  isInt ((p - origin.tmod cell).tdiv cell * cell) ∧
  isInt (origin.tmod cell + (p - origin.tmod cell).tdiv cell * cell) ∧
  isInt (origin.tmod cell + (p - origin.tmod cell).tdiv cell * cell +
    (if (p - origin.tmod cell).tmod cell > cell.tdiv 2 then cell else 0))

instance (origin cell p : Int) : Decidable (snapAxis.NoOverflow origin cell p) :=
  inferInstanceAs (Decidable (
    isInt cell ∧
    isInt (p - origin.tmod cell) ∧
    isInt ((p - origin.tmod cell).tdiv cell * cell) ∧
    isInt (origin.tmod cell + (p - origin.tmod cell).tdiv cell * cell) ∧
    isInt (origin.tmod cell + (p - origin.tmod cell).tdiv cell * cell +
      (if (p - origin.tmod cell).tmod cell > cell.tdiv 2 then cell else 0))))

/-! ## A concrete scene used to exercise the theorems -/

/-- A registry holding a document (address 100, id 0) and a sprite (address 200, id 1). -/
def sampleObjects : ObjectsContainer :=
  { entries := [(0, 100), (1, 200)], nextId := 2 }

/-- The sprite at address 200 has five frames; every other address holds an empty sprite. -/
def sampleSprites : Ptr → Sprite :=
  fun p => if p = 200 then { frames := [10, 11, 12, 13, 14] } else { frames := [] }

/-- Every address holds an image of format 0 whose pixel `(u, v)` has colour `u + 10 * v`
(0 at negative positions). -/
def sampleImages : Ptr → Image :=
  fun _ => { pixelFormat := 0, getpixel := fun u v => (u + 10 * v).toNat }

/-- A world in which frame 3 (content 13) has just been added to the sprite. -/
def sampleWorld : World :=
  { objects := sampleObjects, redoers := { undoers := [] }, sprites := sampleSprites,
    trace := [], images := sampleImages }

/-- The undoer recorded for that addition. -/
def sampleAddFrame : AddFrame :=
  { m_documentId := 0, m_spriteId := 1, m_frame := 3 }

/-- The sample scene after the sprite was destroyed and recreated at address 300, the new
object being re-inserted under the old id 1. -/
def sampleRecreatedWorld : World :=
  { objects := (sampleObjects.removeObject 1).insertObject 1 300
    redoers := { undoers := [] }
    sprites := fun p => if p = 300 then { frames := [10, 11, 12, 13, 14] } else { frames := [] }
    trace := []
    images := sampleImages }

/-- A fresh session over the sample scene: empty stacks, a budget of 1000 bytes and 16 bytes
estimated per undoer. -/
def sampleSession : Session :=
  { world := sampleWorld, undoHistory := [], redoHistory := [], budget := 1000,
    estimateSize := fun _ => 16, disposed := [] }

/-- The recording step of the scenario of section 8: begin transaction `label`, record the
`AddFrame` constructed for `(document, sprite, frame)` (the frame has just been added to the
sprite), commit. -/
def Session.commitAddFrame (s : Session) (label : String) (document sprite : Ptr)
    (frame : FrameNumber) : Session :=
  let c := AddFrame.new document sprite frame s.world
  { s with world := c.2 }.commitTransaction
    (recordUndoer (beginTransaction label) (Undoer.addFrame c.1))

/-- The scenario of section 8: transaction "Add Frame 3" records the `AddFrame` for the
document at 100, the sprite at 200 and frame 3, and is committed. -/
def sampleCommitted : Session :=
  sampleSession.commitAddFrame "Add Frame 3" 100 200 3

/-- The scenario continued: `undo()` is called once. -/
def sampleUndone : Session := sampleCommitted.undo.2

/-- A rectangle inside the 16-bit range, used for the flip scenario. -/
def sampleBounds : Rect := { x := 1, y := 0, w := 3, h := 2 }

/-- A rectangle whose left edge, 65536, does not fit a `uint16_t`. -/
def sampleWideBounds : Rect := { x := 65536, y := 0, w := 2, h := 1 }

/-- The flip scenario of section 8 on the image at address 400 with the wide rectangle: two
committed horizontal flips, then one `undo()`. -/
def sampleWideFlipUndone : Session :=
  ((sampleSession.commitFlipImage "Flip" 400 sampleWideBounds .FlipHorizontal).commitFlipImage
    "Flip" 400 sampleWideBounds .FlipHorizontal).undo.2

/-- A colour bar with foreground colour 1 and background colour 2. -/
def sampleColorBar : ColorBar := { m_fgColor := 1, m_bgColor := 2 }

/-- A view scrolled to (10, 20) over a 300 x 400 scrollable area, whose viewport is the
rectangle (0, 0)-(104, 84) with a border of 2 on every side: 100 x 80 are visible. -/
def sampleView : View :=
  { m_scrollbar_h := { m_pos := 10, m_size := 300 }
    m_scrollbar_v := { m_pos := 20, m_size := 400 }
    m_viewport :=
      { rc := { x1 := 0, y1 := 0, x2 := 104, y2 := 84 }
        border_width := { l := 2, t := 2, r := 2, b := 2 } }
    viewportLayouts := 0
    invalidations := 0 }

/-- The default grid of the constructor, `Rect(0, 0, 16, 16)`. -/
def sampleGridSettings : UIDocumentSettingsImpl :=
  { m_snapToGrid := true, m_gridVisible := false,
    m_gridBounds := { x := 0, y := 0, w := 16, h := 16 } }

/-- A grid with origin (3, -5) and cells of 16 x 8. -/
def sampleOffsetGridSettings : UIDocumentSettingsImpl :=
  { m_snapToGrid := true, m_gridVisible := false,
    m_gridBounds := { x := 3, y := -5, w := 16, h := 8 } }

/-- A view whose scrollable width is `INT_MAX` and whose viewport has width 0 with a border of
2 on each side, so that the visible width is -4 (heights: 400 scrollable, 80 visible). -/
def sampleWideView : View :=
  { m_scrollbar_h := { m_pos := 0, m_size := 2147483647 }
    m_scrollbar_v := { m_pos := 0, m_size := 400 }
    m_viewport :=
      { rc := { x1 := 0, y1 := 0, x2 := 0, y2 := 84 }
        border_width := { l := 2, t := 2, r := 2, b := 2 } }
    viewportLayouts := 0
    invalidations := 0 }

/-- A grid `Rect(0, 0, 10, 10)`. -/
def sampleTenGridSettings : UIDocumentSettingsImpl :=
  { m_snapToGrid := true, m_gridVisible := false,
    m_gridBounds := { x := 0, y := 0, w := 10, h := 10 } }

/-! ## Registry lemmas -/

namespace ObjectsContainer

theorem getObject_error_eq (c : ObjectsContainer) (id : ObjectId) (e : Error)
    (h : c.getObject id = .error e) : e = Error.DanglingReference := by
  unfold getObject at h
  split at h
  · cases h
  · cases h; rfl

theorem mem_of_getObject (c : ObjectsContainer) (id : ObjectId) (p : Ptr)
    (h : c.getObject id = .ok p) : (id, p) ∈ c.entries := by
  unfold getObject at h
  split at h
  · rename_i e he
    have h1 := List.find?_some he
    have h2 := List.mem_of_find?_eq_some he
    simp only [beq_iff_eq] at h1
    cases h
    rcases e with ⟨a, b⟩
    simp only at h1
    subst h1
    exact h2
  · cases h

theorem getObject_of_mem (c : ObjectsContainer) (hwf : c.WF) (id : ObjectId) (p : Ptr)
    (h : (id, p) ∈ c.entries) : c.getObject id = .ok p := by
  unfold getObject
  split
  · rename_i e he
    have h1 := List.find?_some he
    have h2 := List.mem_of_find?_eq_some he
    simp only [beq_iff_eq] at h1
    have := hwf.2.1 e h2 (id, p) h h1
    subst this
    rfl
  · rename_i he
    rw [List.find?_eq_none] at he
    exact absurd (by simp) (he (id, p) h)

theorem addObject_of_mem_wf (c : ObjectsContainer) (hwf : c.WF) (id : ObjectId) (p : Ptr)
    (h : (id, p) ∈ c.entries) : c.addObject p = (id, c) := by
  unfold addObject
  split
  · rename_i e he
    have h1 := List.find?_some he
    have h2 := List.mem_of_find?_eq_some he
    simp only [beq_iff_eq] at h1
    have := hwf.2.2 e h2 (id, p) h h1
    subst this
    rfl
  · rename_i he
    rw [List.find?_eq_none] at he
    exact absurd (by simp) (he (id, p) h)

theorem addObject_snd_of_mem (c : ObjectsContainer) (id : ObjectId) (p : Ptr)
    (h : (id, p) ∈ c.entries) : (c.addObject p).2 = c := by
  unfold addObject
  split
  · rfl
  · rename_i he
    rw [List.find?_eq_none] at he
    exact absurd (by simp) (he (id, p) h)

theorem addObject_mem (c : ObjectsContainer) (p : Ptr) :
    ((c.addObject p).1, p) ∈ (c.addObject p).2.entries := by
  unfold addObject
  split
  · rename_i e he
    have h1 := List.find?_some he
    have h2 := List.mem_of_find?_eq_some he
    simp only [beq_iff_eq] at h1
    rcases e with ⟨a, b⟩
    simp only at h1
    subst h1
    exact h2
  · simp

theorem addObject_entries_subset (c : ObjectsContainer) (p : Ptr) (e : ObjectId × Ptr)
    (h : e ∈ c.entries) : e ∈ (c.addObject p).2.entries := by
  unfold addObject
  split
  · exact h
  · simp [h]

theorem addObject_of_find_some (c : ObjectsContainer) (p : Ptr) (e : ObjectId × Ptr)
    (h : c.entries.find? (fun e => e.2 == p) = some e) : c.addObject p = (e.1, c) := by
  simp only [addObject, h]

theorem addObject_of_find_none (c : ObjectsContainer) (p : Ptr)
    (h : c.entries.find? (fun e => e.2 == p) = none) :
    c.addObject p =
      (c.nextId, { entries := c.entries ++ [(c.nextId, p)], nextId := c.nextId + 1 }) := by
  simp only [addObject, h]

theorem addObject_idem (c : ObjectsContainer) (p : Ptr) :
    (c.addObject p).2.addObject p = ((c.addObject p).1, (c.addObject p).2) := by
  cases h : c.entries.find? (fun e => e.2 == p) with
  | some e =>
    rw [addObject_of_find_some c p e h]
    exact addObject_of_find_some c p e h
  | none =>
    rw [addObject_of_find_none c p h]
    exact addObject_of_find_some _ p (c.nextId, p) (by simp [List.find?_append, h])

theorem WF_empty : empty.WF := by
  simp [WF, empty]

theorem WF_addObject (c : ObjectsContainer) (hwf : c.WF) (p : Ptr) : (c.addObject p).2.WF := by
  unfold addObject
  split
  · exact hwf
  · rename_i he
    rw [List.find?_eq_none] at he
    obtain ⟨h1, h2, h3⟩ := hwf
    refine ⟨?_, ?_, ?_⟩
    · intro e hm
      simp only [List.mem_append, List.mem_singleton] at hm
      rcases hm with hm | hm
      · exact Nat.lt_succ_of_lt (h1 e hm)
      · subst hm; exact Nat.lt_succ_self _
    · intro e hm e2 hm2 heq
      simp only [List.mem_append, List.mem_singleton] at hm hm2
      rcases hm with hm | hm <;> rcases hm2 with hm2 | hm2
      · exact h2 e hm e2 hm2 heq
      · subst hm2; exact absurd heq (Nat.ne_of_lt (h1 e hm))
      · subst hm; exact absurd heq.symm (Nat.ne_of_lt (h1 e2 hm2))
      · rw [hm, hm2]
    · intro e hm e2 hm2 heq
      simp only [List.mem_append, List.mem_singleton] at hm hm2
      rcases hm with hm | hm <;> rcases hm2 with hm2 | hm2
      · exact h3 e hm e2 hm2 heq
      · subst hm2; exact absurd (by simpa using heq) (he e hm)
      · subst hm; exact absurd (by simpa using heq.symm) (he e2 hm2)
      · rw [hm, hm2]

theorem WF_removeObject (c : ObjectsContainer) (hwf : c.WF) (id : ObjectId) :
    (c.removeObject id).WF := by
  obtain ⟨h1, h2, h3⟩ := hwf
  refine ⟨?_, ?_, ?_⟩
  · intro e hm
    exact h1 e (List.mem_of_mem_filter hm)
  · intro e hm e2 hm2 heq
    exact h2 e (List.mem_of_mem_filter hm) e2 (List.mem_of_mem_filter hm2) heq
  · intro e hm e2 hm2 heq
    exact h3 e (List.mem_of_mem_filter hm) e2 (List.mem_of_mem_filter hm2) heq

theorem WF_insertObject (c : ObjectsContainer) (hwf : c.WF) (id : ObjectId) (p : Ptr)
    (hid : ∀ e ∈ c.entries, e.1 ≠ id) (hp : ∀ e ∈ c.entries, e.2 ≠ p) :
    (c.insertObject id p).WF := by
  obtain ⟨h1, h2, h3⟩ := hwf
  refine ⟨?_, ?_, ?_⟩
  · intro e hm
    simp only [insertObject, List.mem_append, List.mem_singleton] at hm
    rcases hm with hm | hm
    · exact Nat.lt_of_lt_of_le (h1 e hm) (Nat.le_max_left _ _)
    · subst hm
      exact Nat.lt_of_lt_of_le (Nat.lt_succ_self id) (Nat.le_max_right _ _)
  · intro e hm e2 hm2 heq
    simp only [insertObject, List.mem_append, List.mem_singleton] at hm hm2
    rcases hm with hm | hm <;> rcases hm2 with hm2 | hm2
    · exact h2 e hm e2 hm2 heq
    · subst hm2; exact absurd heq (hid e hm)
    · subst hm; exact absurd heq.symm (hid e2 hm2)
    · rw [hm, hm2]
  · intro e hm e2 hm2 heq
    simp only [insertObject, List.mem_append, List.mem_singleton] at hm hm2
    rcases hm with hm | hm <;> rcases hm2 with hm2 | hm2
    · exact h3 e hm e2 hm2 heq
    · subst hm2; exact absurd heq (hp e hm)
    · subst hm; exact absurd heq.symm (hp e2 hm2)
    · rw [hm, hm2]

end ObjectsContainer

/-! ## `AddFrame::revert` -/

theorem RemoveFrame.new_objects (document sprite : Ptr) (frame : FrameNumber) (w : World)
    (did sid : ObjectId) (hd : (did, document) ∈ w.objects.entries)
    (hs : (sid, sprite) ∈ w.objects.entries) :
    (RemoveFrame.new document sprite frame w).2 = w := by
  have h1 : (w.objects.addObject document).2 = w.objects :=
    ObjectsContainer.addObject_snd_of_mem _ did document hd
  have h2 : (w.objects.addObject sprite).2 = w.objects :=
    ObjectsContainer.addObject_snd_of_mem _ sid sprite hs
  simp only [RemoveFrame.new, h1, h2]

theorem AddFrame.revert_of_resolved (u : AddFrame) (w : World) (document sprite : Ptr)
    (hd : w.objects.getObjectT u.m_documentId = .ok document)
    (hs : w.objects.getObjectT u.m_spriteId = .ok sprite) :
    u.revert w =
      (.ok (),
        { objects := w.objects
          redoers :=
            { undoers := w.redoers.undoers ++
                [Undoer.removeFrame (RemoveFrame.new document sprite u.m_frame w).1] }
          sprites := Function.update w.sprites sprite ((w.sprites sprite).removeFrame u.m_frame)
          trace := w.trace ++
            [Effect.removeFrame sprite u.m_frame,
             Effect.notify document DocumentObserver.onRemoveFrame
               { document := document, sprite := some sprite, frame := some u.m_frame }]
          images := w.images }) := by
  have hw := RemoveFrame.new_objects document sprite u.m_frame w _ _
    (ObjectsContainer.mem_of_getObject _ _ _ hd) (ObjectsContainer.mem_of_getObject _ _ _ hs)
  simp only [AddFrame.revert, hd, hs, hw, World.pushUndoer, World.removeFrame,
    World.notifyObservers, UndoersCollector.pushUndoer, DocumentEvent.ofDocument,
    DocumentEvent.setSprite, DocumentEvent.setFrame, List.append_assoc, List.singleton_append]

theorem AddFrame.revert_of_unresolved (u : AddFrame) (w : World)
    (h : (∃ e, w.objects.getObjectT u.m_documentId = .error e) ∨
         (∃ e, w.objects.getObjectT u.m_spriteId = .error e)) :
    u.revert w = (.error Error.DanglingReference, w) := by
  unfold AddFrame.revert
  cases hd : w.objects.getObjectT u.m_documentId with
  | error e =>
    have := ObjectsContainer.getObject_error_eq _ _ _ hd
    subst this
    rfl
  | ok document =>
    rcases h with ⟨e, he⟩ | ⟨e, he⟩
    · rw [hd] at he; cases he
    · have := ObjectsContainer.getObject_error_eq _ _ _ he
      subst this
      simp only [he]

/-- C1: when both ObjectIds of an `AddFrame` resolve, `AddFrame::revert` succeeds and pushes
exactly one undoer onto the opposite collector: the `RemoveFrame` constructed for the
resolved document, the resolved sprite and the undoer's own frame index (whose identifiers
are registered for exactly that document and that sprite). -/
theorem AddFrame.revert_pushes_one_RemoveFrame (u : AddFrame) (w : World)
    (document sprite : Ptr)
    (hd : w.objects.getObjectT u.m_documentId = .ok document)
    (hs : w.objects.getObjectT u.m_spriteId = .ok sprite) :
    (u.revert w).1 = .ok () ∧
    (u.revert w).2.redoers.undoers =
      w.redoers.undoers ++
        [Undoer.removeFrame (RemoveFrame.new document sprite u.m_frame w).1] ∧
    (u.revert w).2.redoers.undoers.length = w.redoers.undoers.length + 1 ∧
    (RemoveFrame.new document sprite u.m_frame w).1.m_frame = u.m_frame ∧
    ((RemoveFrame.new document sprite u.m_frame w).1.m_documentId, document) ∈
      (u.revert w).2.objects.entries ∧
    ((RemoveFrame.new document sprite u.m_frame w).1.m_spriteId, sprite) ∈
      (u.revert w).2.objects.entries := by
  rw [AddFrame.revert_of_resolved u w document sprite hd hs]
  refine ⟨rfl, rfl, by simp, rfl, ?_, ?_⟩
  · have h1 := ObjectsContainer.addObject_mem w.objects document
    rw [ObjectsContainer.addObject_snd_of_mem _ _ _
      (ObjectsContainer.mem_of_getObject _ _ _ hd)] at h1
    exact h1
  · have h0 : (w.objects.addObject document).2 = w.objects :=
      ObjectsContainer.addObject_snd_of_mem _ _ _ (ObjectsContainer.mem_of_getObject _ _ _ hd)
    have h1 := ObjectsContainer.addObject_mem w.objects sprite
    rw [ObjectsContainer.addObject_snd_of_mem _ _ _
      (ObjectsContainer.mem_of_getObject _ _ _ hs)] at h1
    simp only [RemoveFrame.new, h0]
    exact h1

/-- Witness for C1 on the sample scene: ids 0 and 1 resolve to the document at 100 and the
sprite at 200. -/
theorem AddFrame.revert_pushes_one_RemoveFrame_witness :
    (sampleWorld.objects.getObjectT sampleAddFrame.m_documentId = .ok 100 ∧
      sampleWorld.objects.getObjectT sampleAddFrame.m_spriteId = .ok 200) ∧
    (sampleAddFrame.revert sampleWorld).1 = .ok () ∧
    (sampleAddFrame.revert sampleWorld).2.redoers.undoers =
      sampleWorld.redoers.undoers ++
        [Undoer.removeFrame (RemoveFrame.new 100 200 sampleAddFrame.m_frame sampleWorld).1] ∧
    (sampleAddFrame.revert sampleWorld).2.redoers.undoers.length =
      sampleWorld.redoers.undoers.length + 1 ∧
    (RemoveFrame.new 100 200 sampleAddFrame.m_frame sampleWorld).1.m_frame =
      sampleAddFrame.m_frame ∧
    ((RemoveFrame.new 100 200 sampleAddFrame.m_frame sampleWorld).1.m_documentId, 100) ∈
      (sampleAddFrame.revert sampleWorld).2.objects.entries ∧
    ((RemoveFrame.new 100 200 sampleAddFrame.m_frame sampleWorld).1.m_spriteId, 200) ∈
      (sampleAddFrame.revert sampleWorld).2.objects.entries :=
  ⟨⟨rfl, rfl⟩,
    AddFrame.revert_pushes_one_RemoveFrame sampleAddFrame sampleWorld 100 200 rfl rfl⟩

/-- C3: when both ObjectIds resolve, `AddFrame::revert` changes the document model by exactly
one `removeFrame(m_frame)` on the resolved sprite: that sprite loses the frame at the recorded
index, every other sprite is untouched, and the only mutation performed is that one call; if
the sprite had a frame at that index it now has one frame fewer. -/
theorem AddFrame.revert_removes_frame (u : AddFrame) (w : World) (document sprite : Ptr)
    (hd : w.objects.getObjectT u.m_documentId = .ok document)
    (hs : w.objects.getObjectT u.m_spriteId = .ok sprite) :
    (u.revert w).2.sprites =
      Function.update w.sprites sprite ((w.sprites sprite).removeFrame u.m_frame) ∧
    ((u.revert w).2.sprites sprite).frames = (w.sprites sprite).frames.eraseIdx u.m_frame ∧
    (∀ p, p ≠ sprite → (u.revert w).2.sprites p = w.sprites p) ∧
    (((u.revert w).2.trace.drop w.trace.length).filter Effect.isMutation =
      [Effect.removeFrame sprite u.m_frame]) ∧
    (u.m_frame < (w.sprites sprite).frames.length →
      ((u.revert w).2.sprites sprite).frames.length + 1 =
        (w.sprites sprite).frames.length) := by
  rw [AddFrame.revert_of_resolved u w document sprite hd hs]
  refine ⟨rfl, by simp [Sprite.removeFrame], ?_, ?_, ?_⟩
  · intro p hp
    simp [Function.update, hp]
  · simp [Effect.isMutation]
  · intro hlt
    have hpos : 0 < (w.sprites sprite).frames.length := Nat.lt_of_le_of_lt (Nat.zero_le _) hlt
    simp only [Function.update_same, Sprite.removeFrame]
    rw [List.length_eraseIdx]
    simp only [hlt, if_true]
    exact Nat.sub_add_cancel hpos

/-- Witness for C3 on the sample scene: frame 3 of the five-frame sprite at 200. -/
theorem AddFrame.revert_removes_frame_witness :
    (sampleWorld.objects.getObjectT sampleAddFrame.m_documentId = .ok 100 ∧
      sampleWorld.objects.getObjectT sampleAddFrame.m_spriteId = .ok 200) ∧
    ((sampleAddFrame.revert sampleWorld).2.sprites =
      Function.update sampleWorld.sprites 200
        ((sampleWorld.sprites 200).removeFrame sampleAddFrame.m_frame) ∧
    ((sampleAddFrame.revert sampleWorld).2.sprites 200).frames =
      (sampleWorld.sprites 200).frames.eraseIdx sampleAddFrame.m_frame ∧
    (∀ p, p ≠ 200 →
      (sampleAddFrame.revert sampleWorld).2.sprites p = sampleWorld.sprites p) ∧
    (((sampleAddFrame.revert sampleWorld).2.trace.drop sampleWorld.trace.length).filter
        Effect.isMutation = [Effect.removeFrame 200 sampleAddFrame.m_frame]) ∧
    (sampleAddFrame.m_frame < (sampleWorld.sprites 200).frames.length →
      ((sampleAddFrame.revert sampleWorld).2.sprites 200).frames.length + 1 =
        (sampleWorld.sprites 200).frames.length)) :=
  ⟨⟨rfl, rfl⟩, AddFrame.revert_removes_frame sampleAddFrame sampleWorld 100 200 rfl rfl⟩

/-- C6: if the registry cannot resolve the document ObjectId or the sprite ObjectId,
`AddFrame::revert` fails with `DanglingReference` and the whole world (registry, opposite
collector, sprites, record of mutations and notifications) is exactly as before the call. -/
theorem AddFrame.revert_dangling_no_effect (u : AddFrame) (w : World)
    (h : (∃ e, w.objects.getObjectT u.m_documentId = .error e) ∨
         (∃ e, w.objects.getObjectT u.m_spriteId = .error e)) :
    (u.revert w).1 = .error Error.DanglingReference ∧
    (u.revert w).2 = w ∧
    (u.revert w).2.redoers = w.redoers ∧
    (u.revert w).2.sprites = w.sprites ∧
    (u.revert w).2.trace = w.trace := by
  rw [AddFrame.revert_of_unresolved u w h]
  exact ⟨rfl, rfl, rfl, rfl, rfl⟩

/-- Witness for C6: in the sample scene the sprite id 7 was never issued. -/
theorem AddFrame.revert_dangling_no_effect_witness :
    ((∃ e, sampleWorld.objects.getObjectT 0 = .error e) ∨
      (∃ e, sampleWorld.objects.getObjectT 7 = .error e)) ∧
    ((({ m_documentId := 0, m_spriteId := 7, m_frame := 3 } : AddFrame).revert sampleWorld).1 =
        .error Error.DanglingReference ∧
     (({ m_documentId := 0, m_spriteId := 7, m_frame := 3 } : AddFrame).revert sampleWorld).2 =
        sampleWorld ∧
     (({ m_documentId := 0, m_spriteId := 7, m_frame := 3 } : AddFrame).revert
        sampleWorld).2.redoers = sampleWorld.redoers ∧
     (({ m_documentId := 0, m_spriteId := 7, m_frame := 3 } : AddFrame).revert
        sampleWorld).2.sprites = sampleWorld.sprites ∧
     (({ m_documentId := 0, m_spriteId := 7, m_frame := 3 } : AddFrame).revert
        sampleWorld).2.trace = sampleWorld.trace) :=
  ⟨Or.inr ⟨Error.DanglingReference, rfl⟩,
    AddFrame.revert_dangling_no_effect { m_documentId := 0, m_spriteId := 7, m_frame := 3 }
      sampleWorld (Or.inr ⟨Error.DanglingReference, rfl⟩)⟩

theorem AddFrame.resolved_of_revert_ok (u : AddFrame) (w : World)
    (hok : (u.revert w).1 = .ok ()) :
    ∃ document sprite, w.objects.getObjectT u.m_documentId = .ok document ∧
      w.objects.getObjectT u.m_spriteId = .ok sprite := by
  cases hd : w.objects.getObjectT u.m_documentId with
  | error e =>
    rw [AddFrame.revert_of_unresolved u w (Or.inl ⟨e, hd⟩)] at hok
    cases hok
  | ok document =>
    cases hs : w.objects.getObjectT u.m_spriteId with
    | error e =>
      rw [AddFrame.revert_of_unresolved u w (Or.inr ⟨e, hs⟩)] at hok
      cases hok
    | ok sprite => exact ⟨document, sprite, rfl, rfl⟩

/-- C10: every successful `AddFrame::revert` dispatches exactly one notification; it is
`onRemoveFrame`, sent through the resolved document with an event carrying that document, the
resolved sprite and the undoer's frame index; it comes right after the `removeFrame` call, so
at dispatch time the sprite has already lost the frame. -/
theorem AddFrame.revert_notifies_once (u : AddFrame) (w : World)
    (hok : (u.revert w).1 = .ok ()) :
    ∃ document sprite,
      w.objects.getObjectT u.m_documentId = .ok document ∧
      w.objects.getObjectT u.m_spriteId = .ok sprite ∧
      (u.revert w).2.trace = w.trace ++
        [Effect.removeFrame sprite u.m_frame,
         Effect.notify document DocumentObserver.onRemoveFrame
           { document := document, sprite := some sprite, frame := some u.m_frame }] ∧
      (((u.revert w).2.trace.drop w.trace.length).filter Effect.isNotify).length = 1 ∧
      (u.revert w).2.sprites sprite = (w.sprites sprite).removeFrame u.m_frame := by
  obtain ⟨document, sprite, hd, hs⟩ := AddFrame.resolved_of_revert_ok u w hok
  refine ⟨document, sprite, hd, hs, ?_⟩
  rw [AddFrame.revert_of_resolved u w document sprite hd hs]
  refine ⟨rfl, by simp [Effect.isNotify], by simp⟩

/-- Witness for C10 on the sample scene, where the revert succeeds. -/
theorem AddFrame.revert_notifies_once_witness :
    (sampleAddFrame.revert sampleWorld).1 = .ok () ∧
    ∃ document sprite,
      sampleWorld.objects.getObjectT sampleAddFrame.m_documentId = .ok document ∧
      sampleWorld.objects.getObjectT sampleAddFrame.m_spriteId = .ok sprite ∧
      (sampleAddFrame.revert sampleWorld).2.trace = sampleWorld.trace ++
        [Effect.removeFrame sprite sampleAddFrame.m_frame,
         Effect.notify document DocumentObserver.onRemoveFrame
           { document := document, sprite := some sprite,
             frame := some sampleAddFrame.m_frame }] ∧
      (((sampleAddFrame.revert sampleWorld).2.trace.drop sampleWorld.trace.length).filter
        Effect.isNotify).length = 1 ∧
      (sampleAddFrame.revert sampleWorld).2.sprites sprite =
        (sampleWorld.sprites sprite).removeFrame sampleAddFrame.m_frame :=
  ⟨rfl, AddFrame.revert_notifies_once sampleAddFrame sampleWorld rfl⟩

/-! ## Construction and identifier stability -/

theorem AddFrame.new_registers_fields (document sprite : Ptr) (frame : FrameNumber)
    (w : World) :
    (AddFrame.new document sprite frame w).1 =
      { m_documentId := (w.objects.addObject document).1
        m_spriteId := ((w.objects.addObject document).2.addObject sprite).1
        m_frame := frame } ∧
    (AddFrame.new document sprite frame w).2.objects =
      ((w.objects.addObject document).2.addObject sprite).2 ∧
    ((AddFrame.new document sprite frame w).1.m_documentId, document) ∈
      (AddFrame.new document sprite frame w).2.objects.entries ∧
    ((AddFrame.new document sprite frame w).1.m_spriteId, sprite) ∈
      (AddFrame.new document sprite frame w).2.objects.entries ∧
    (AddFrame.new document sprite frame w).2.sprites = w.sprites ∧
    (AddFrame.new document sprite frame w).2.redoers = w.redoers ∧
    (AddFrame.new document sprite frame w).2.trace = w.trace := by
  refine ⟨rfl, rfl, ?_, ?_, rfl, rfl, rfl⟩
  · exact ObjectsContainer.addObject_entries_subset _ sprite _
      (ObjectsContainer.addObject_mem w.objects document)
  · exact ObjectsContainer.addObject_mem _ sprite

/-- C7: constructing an `AddFrame` calls `addObject` for the document and then for the sprite,
stores exactly the two identifiers returned together with the given frame number, leaves both
objects registered under those identifiers, and changes nothing but the registry: sprites,
collector and the record of mutations and notifications are untouched. -/
theorem AddFrame.new_registers_and_stores (document sprite : Ptr) (frame : FrameNumber)
    (w : World) :
    (AddFrame.new document sprite frame w).1 =
      { m_documentId := (w.objects.addObject document).1
        m_spriteId := ((w.objects.addObject document).2.addObject sprite).1
        m_frame := frame } ∧
    (AddFrame.new document sprite frame w).2.objects =
      ((w.objects.addObject document).2.addObject sprite).2 ∧
    ((AddFrame.new document sprite frame w).1.m_documentId, document) ∈
      (AddFrame.new document sprite frame w).2.objects.entries ∧
    ((AddFrame.new document sprite frame w).1.m_spriteId, sprite) ∈
      (AddFrame.new document sprite frame w).2.objects.entries ∧
    (AddFrame.new document sprite frame w).2.sprites = w.sprites ∧
    (AddFrame.new document sprite frame w).2.redoers = w.redoers ∧
    (AddFrame.new document sprite frame w).2.trace = w.trace :=
  AddFrame.new_registers_fields document sprite frame w

/-- C8: `addObject` is idempotent per object: on every registry, a second `addObject` of the
same object returns the identifier of the first call and leaves the registry as the first
call left it.  Consequently, on a registry satisfying the injectivity invariant, the
`RemoveFrame` that `AddFrame::revert` constructs for the resolved document and sprite carries
the same two ObjectIds as the `AddFrame` being reverted. -/
theorem ObjectsContainer.addObject_idempotent_revert_same_ids :
    (∀ (c : ObjectsContainer) (object : Ptr),
      ((c.addObject object).2.addObject object).1 = (c.addObject object).1 ∧
      ((c.addObject object).2.addObject object).2 = (c.addObject object).2) ∧
    (∀ (u : AddFrame) (w : World) (document sprite : Ptr),
      w.objects.WF →
      w.objects.getObjectT u.m_documentId = .ok document →
      w.objects.getObjectT u.m_spriteId = .ok sprite →
      ∃ r : RemoveFrame,
        (u.revert w).2.redoers.undoers = w.redoers.undoers ++ [Undoer.removeFrame r] ∧
        r.m_documentId = u.m_documentId ∧ r.m_spriteId = u.m_spriteId) := by
  constructor
  · intro c object
    rw [ObjectsContainer.addObject_idem]
    exact ⟨rfl, rfl⟩
  · intro u w document sprite hwf hd hs
    refine ⟨(RemoveFrame.new document sprite u.m_frame w).1, ?_, ?_, ?_⟩
    · rw [AddFrame.revert_of_resolved u w document sprite hd hs]
    · simp only [RemoveFrame.new]
      rw [ObjectsContainer.addObject_of_mem_wf _ hwf _ _
        (ObjectsContainer.mem_of_getObject _ _ _ hd)]
    · simp only [RemoveFrame.new]
      rw [ObjectsContainer.addObject_of_mem_wf _ hwf _ _
        (ObjectsContainer.mem_of_getObject _ _ _ hd)]
      rw [ObjectsContainer.addObject_of_mem_wf _ hwf _ _
        (ObjectsContainer.mem_of_getObject _ _ _ hs)]

/-- Witness for C8: the sample registry is well formed and resolves ids 0 and 1; the pushed
`RemoveFrame` carries ids 0 and 1. -/
theorem ObjectsContainer.addObject_idempotent_revert_same_ids_witness :
    (sampleWorld.objects.WF ∧
      sampleWorld.objects.getObjectT sampleAddFrame.m_documentId = .ok 100 ∧
      sampleWorld.objects.getObjectT sampleAddFrame.m_spriteId = .ok 200) ∧
    (((sampleObjects.addObject 300).2.addObject 300).1 = (sampleObjects.addObject 300).1 ∧
      ((sampleObjects.addObject 300).2.addObject 300).2 = (sampleObjects.addObject 300).2) ∧
    ∃ r : RemoveFrame,
      (sampleAddFrame.revert sampleWorld).2.redoers.undoers =
        sampleWorld.redoers.undoers ++ [Undoer.removeFrame r] ∧
      r.m_documentId = sampleAddFrame.m_documentId ∧
      r.m_spriteId = sampleAddFrame.m_spriteId :=
  ⟨⟨by decide, rfl, rfl⟩,
    ObjectsContainer.addObject_idempotent_revert_same_ids.1 sampleObjects 300,
    ObjectsContainer.addObject_idempotent_revert_same_ids.2 sampleAddFrame sampleWorld 100 200
      (by decide) rfl rfl⟩

/-- C5: an `AddFrame` is nothing but its two ObjectIds and its frame number, and
`AddFrame::revert` acts on the objects the registry maps those identifiers to when it runs:
whatever document and sprite the undoer was constructed from, if at revert time its
identifiers resolve to `document2` and `sprite2` then the frame is removed from `sprite2`, the
inverse is built for and the notification names `document2` and `sprite2`, and the sprite seen
at construction, when it is a different object, is left alone. -/
theorem AddFrame.revert_acts_on_current_resolution (document sprite : Ptr)
    (frame : FrameNumber) (w0 w : World) (document2 sprite2 : Ptr)
    (hd : w.objects.getObjectT (AddFrame.new document sprite frame w0).1.m_documentId =
      .ok document2)
    (hs : w.objects.getObjectT (AddFrame.new document sprite frame w0).1.m_spriteId =
      .ok sprite2) :
    (∀ u : AddFrame,
      u = { m_documentId := u.m_documentId, m_spriteId := u.m_spriteId, m_frame := u.m_frame }) ∧
    (AddFrame.new document sprite frame w0).1.m_frame = frame ∧
    ((AddFrame.new document sprite frame w0).1.revert w).1 = .ok () ∧
    ((AddFrame.new document sprite frame w0).1.revert w).2.sprites =
      Function.update w.sprites sprite2 ((w.sprites sprite2).removeFrame frame) ∧
    (sprite ≠ sprite2 →
      ((AddFrame.new document sprite frame w0).1.revert w).2.sprites sprite = w.sprites sprite) ∧
    ((AddFrame.new document sprite frame w0).1.revert w).2.redoers.undoers =
      w.redoers.undoers ++ [Undoer.removeFrame (RemoveFrame.new document2 sprite2 frame w).1] ∧
    ((AddFrame.new document sprite frame w0).1.revert w).2.trace = w.trace ++
      [Effect.removeFrame sprite2 frame,
       Effect.notify document2 DocumentObserver.onRemoveFrame
         { document := document2, sprite := some sprite2, frame := some frame }] := by
  rw [AddFrame.revert_of_resolved _ w document2 sprite2 hd hs]
  refine ⟨fun u => rfl, rfl, rfl, rfl, ?_, rfl, rfl⟩
  intro hne
  simp [Function.update, hne]

/-- Witness for C5: the undoer is recorded in the sample scene for the sprite at address 200
(id 1); the sprite is then destroyed and recreated at address 300 under id 1; the revert
removes frame 3 from the sprite at 300. -/
theorem AddFrame.revert_acts_on_current_resolution_witness :
    (sampleRecreatedWorld.objects.getObjectT
        (AddFrame.new 100 200 3 sampleWorld).1.m_documentId = .ok 100 ∧
      sampleRecreatedWorld.objects.getObjectT
        (AddFrame.new 100 200 3 sampleWorld).1.m_spriteId = .ok 300) ∧
    ((∀ u : AddFrame,
      u = { m_documentId := u.m_documentId, m_spriteId := u.m_spriteId, m_frame := u.m_frame }) ∧
    (AddFrame.new 100 200 3 sampleWorld).1.m_frame = 3 ∧
    ((AddFrame.new 100 200 3 sampleWorld).1.revert sampleRecreatedWorld).1 = .ok () ∧
    ((AddFrame.new 100 200 3 sampleWorld).1.revert sampleRecreatedWorld).2.sprites =
      Function.update sampleRecreatedWorld.sprites 300
        ((sampleRecreatedWorld.sprites 300).removeFrame 3) ∧
    ((200 : Ptr) ≠ 300 →
      ((AddFrame.new 100 200 3 sampleWorld).1.revert sampleRecreatedWorld).2.sprites 200 =
        sampleRecreatedWorld.sprites 200) ∧
    ((AddFrame.new 100 200 3 sampleWorld).1.revert sampleRecreatedWorld).2.redoers.undoers =
      sampleRecreatedWorld.redoers.undoers ++
        [Undoer.removeFrame (RemoveFrame.new 100 300 3 sampleRecreatedWorld).1] ∧
    ((AddFrame.new 100 200 3 sampleWorld).1.revert sampleRecreatedWorld).2.trace =
      sampleRecreatedWorld.trace ++
        [Effect.removeFrame 300 3,
         Effect.notify 100 DocumentObserver.onRemoveFrame
           { document := 100, sprite := some 300, frame := some 3 }]) :=
  ⟨⟨rfl, rfl⟩,
    AddFrame.revert_acts_on_current_resolution 100 200 3 sampleWorld sampleRecreatedWorld
      100 300 rfl rfl⟩

/-! ## Round trip and history -/

theorem List.take_eraseIdx_append_drop {α : Type} (l : List α) (i : Nat) (a : α)
    (h : l[i]? = some a) :
    (l.eraseIdx i).take i ++ a :: (l.eraseIdx i).drop i = l := by
  induction l generalizing i with
  | nil => simp at h
  | cons x xs ih =>
    cases i with
    | zero =>
      simp only [List.getElem?_cons_zero, Option.some.injEq] at h
      simp [h]
    | succ j =>
      simp only [List.getElem?_cons_succ] at h
      simp only [List.eraseIdx_cons_succ, List.take_succ_cons, List.drop_succ_cons,
        List.cons_append, ih j h]

theorem AddFrame.new_ids_of_mem (document sprite : Ptr) (frame : FrameNumber) (w : World)
    (hwf : w.objects.WF) (did sid : ObjectId) (hd : (did, document) ∈ w.objects.entries)
    (hs : (sid, sprite) ∈ w.objects.entries) :
    AddFrame.new document sprite frame w =
      ({ m_documentId := did, m_spriteId := sid, m_frame := frame }, w) := by
  simp only [AddFrame.new, ObjectsContainer.addObject_of_mem_wf _ hwf _ _ hd,
    ObjectsContainer.addObject_of_mem_wf _ hwf _ _ hs]

theorem RemoveFrame.new_captures_of_mem (document sprite : Ptr) (frame : FrameNumber)
    (w : World)
    (hwf : w.objects.WF) (did sid : ObjectId) (hd : (did, document) ∈ w.objects.entries)
    (hs : (sid, sprite) ∈ w.objects.entries) :
    RemoveFrame.new document sprite frame w =
      ({ m_documentId := did, m_spriteId := sid, m_frame := frame,
         m_frameData := (w.sprites sprite).frames[frame]? }, w) := by
  simp only [RemoveFrame.new, ObjectsContainer.addObject_of_mem_wf _ hwf _ _ hd,
    ObjectsContainer.addObject_of_mem_wf _ hwf _ _ hs]

theorem RemoveFrame.revert_restores_of_resolved (r : RemoveFrame) (w : World)
    (document sprite : Ptr) (data : FrameData) (hwf : w.objects.WF)
    (hd : w.objects.getObjectT r.m_documentId = .ok document)
    (hs : w.objects.getObjectT r.m_spriteId = .ok sprite)
    (hdata : r.m_frameData = some data) :
    r.revert w =
      (.ok (),
        { objects := w.objects
          redoers :=
            { undoers := w.redoers.undoers ++
                [Undoer.addFrame
                  { m_documentId := r.m_documentId, m_spriteId := r.m_spriteId,
                    m_frame := r.m_frame }] }
          sprites := Function.update w.sprites sprite ((w.sprites sprite).addFrame r.m_frame data)
          trace := w.trace ++
            [Effect.addFrame sprite r.m_frame data,
             Effect.notify document DocumentObserver.onAddFrame
               { document := document, sprite := some sprite, frame := some r.m_frame }]
          images := w.images }) := by
  have hn := AddFrame.new_ids_of_mem document sprite r.m_frame w hwf _ _
    (ObjectsContainer.mem_of_getObject _ _ _ hd) (ObjectsContainer.mem_of_getObject _ _ _ hs)
  simp only [RemoveFrame.revert, hd, hs, hn, hdata, World.pushUndoer, World.addFrame,
    World.notifyObservers, UndoersCollector.pushUndoer, DocumentEvent.ofDocument,
    DocumentEvent.setSprite, DocumentEvent.setFrame, List.append_assoc, List.singleton_append]

theorem Sprite.addFrame_removeFrame (sp : Sprite) (frame : FrameNumber) (data : FrameData)
    (h : sp.frames[frame]? = some data) :
    (sp.removeFrame frame).addFrame frame data = sp := by
  cases sp with
  | mk frames =>
    simp only [Sprite.removeFrame, Sprite.addFrame]
    congr 1
    exact List.take_eraseIdx_append_drop frames frame data h

/-- C2: round trip of the add-frame operation.  On a well-formed registry resolving the
undoer's identifiers, when the sprite has a frame at the recorded index, the undo
(`AddFrame::revert`) succeeds and pushes one `RemoveFrame`; reverting that `RemoveFrame`
(the redo, into any collector) succeeds, puts every sprite and the registry back to the state
before the undo, and pushes back the very `AddFrame` that was undone. -/
theorem AddFrame.undo_redo_round_trip (u : AddFrame) (w : World) (document sprite : Ptr)
    (hwf : w.objects.WF)
    (hd : w.objects.getObjectT u.m_documentId = .ok document)
    (hs : w.objects.getObjectT u.m_spriteId = .ok sprite)
    (hf : u.m_frame < (w.sprites sprite).frames.length) :
    ∃ r : RemoveFrame,
      (u.revert w).1 = .ok () ∧
      (u.revert w).2.redoers.undoers = w.redoers.undoers ++ [Undoer.removeFrame r] ∧
      ((u.revert w).2.sprites sprite).frames = (w.sprites sprite).frames.eraseIdx u.m_frame ∧
      ∀ undoers : UndoersCollector,
        ((Undoer.removeFrame r).revert { (u.revert w).2 with redoers := undoers }).1 = .ok () ∧
        ((Undoer.removeFrame r).revert { (u.revert w).2 with redoers := undoers }).2.sprites =
          w.sprites ∧
        ((Undoer.removeFrame r).revert { (u.revert w).2 with redoers := undoers }).2.objects =
          w.objects ∧
        ((Undoer.removeFrame r).revert
          { (u.revert w).2 with redoers := undoers }).2.redoers.undoers =
          undoers.undoers ++ [Undoer.addFrame u] := by
  have hmd := ObjectsContainer.mem_of_getObject _ _ _ hd
  have hms := ObjectsContainer.mem_of_getObject _ _ _ hs
  have hdata : (w.sprites sprite).frames[u.m_frame]? =
      some ((w.sprites sprite).frames[u.m_frame]) := List.getElem?_eq_getElem hf
  refine ⟨{ m_documentId := u.m_documentId, m_spriteId := u.m_spriteId, m_frame := u.m_frame,
            m_frameData := some ((w.sprites sprite).frames[u.m_frame]) }, ?_⟩
  rw [AddFrame.revert_of_resolved u w document sprite hd hs,
    RemoveFrame.new_captures_of_mem document sprite u.m_frame w hwf _ _ hmd hms, hdata]
  refine ⟨rfl, rfl, by simp [Sprite.removeFrame], ?_⟩
  intro undoers
  simp only [Undoer.revert]
  rw [RemoveFrame.revert_restores_of_resolved _ ⟨w.objects, undoers, _, _, _⟩ document sprite
    ((w.sprites sprite).frames[u.m_frame]) hwf hd hs rfl]
  refine ⟨rfl, ?_, rfl, rfl⟩
  simp only [Function.update_same, Function.update_idem]
  rw [Sprite.addFrame_removeFrame _ _ _ hdata]
  exact Function.update_eq_self sprite w.sprites

/-- Witness for C2 on the sample scene (frame 3 of five). -/
theorem AddFrame.undo_redo_round_trip_witness :
    (sampleWorld.objects.WF ∧
      sampleWorld.objects.getObjectT sampleAddFrame.m_documentId = .ok 100 ∧
      sampleWorld.objects.getObjectT sampleAddFrame.m_spriteId = .ok 200 ∧
      sampleAddFrame.m_frame < (sampleWorld.sprites 200).frames.length) ∧
    ∃ r : RemoveFrame,
      (sampleAddFrame.revert sampleWorld).1 = .ok () ∧
      (sampleAddFrame.revert sampleWorld).2.redoers.undoers =
        sampleWorld.redoers.undoers ++ [Undoer.removeFrame r] ∧
      ((sampleAddFrame.revert sampleWorld).2.sprites 200).frames =
        (sampleWorld.sprites 200).frames.eraseIdx sampleAddFrame.m_frame ∧
      ∀ undoers : UndoersCollector,
        ((Undoer.removeFrame r).revert
          { (sampleAddFrame.revert sampleWorld).2 with redoers := undoers }).1 = .ok () ∧
        ((Undoer.removeFrame r).revert
          { (sampleAddFrame.revert sampleWorld).2 with redoers := undoers }).2.sprites =
          sampleWorld.sprites ∧
        ((Undoer.removeFrame r).revert
          { (sampleAddFrame.revert sampleWorld).2 with redoers := undoers }).2.objects =
          sampleWorld.objects ∧
        ((Undoer.removeFrame r).revert
          { (sampleAddFrame.revert sampleWorld).2 with redoers := undoers }).2.redoers.undoers =
          undoers.undoers ++ [Undoer.addFrame sampleAddFrame] :=
  ⟨⟨by decide, rfl, rfl, by decide⟩,
    AddFrame.undo_redo_round_trip sampleAddFrame sampleWorld 100 200 (by decide) rfl rfl
      (by decide)⟩

theorem Entry.evict_getLast? (estimateSize : Undoer → Nat) (budget : Nat) (l : List Entry) :
    (Entry.evict estimateSize budget l).1.getLast? = l.getLast? := by
  induction l with
  | nil => rfl
  | cons e t ih =>
    cases t with
    | nil => rfl
    | cons e2 es =>
      unfold Entry.evict
      split
      · rfl
      · simp only [ih, List.getLast?_cons_cons]

theorem Session.commitTransaction_of_ne (s : Session) (tx : Transaction)
    (hne : tx.undoers ≠ []) :
    s.commitTransaction tx =
      { s with
        undoHistory := (Entry.evict s.estimateSize s.budget
          (s.undoHistory ++ [{ label := tx.label, undoers := tx.undoers }])).1
        redoHistory := []
        disposed := s.disposed ++ Entry.allUndoers s.redoHistory ++
          (Entry.evict s.estimateSize s.budget
            (s.undoHistory ++ [{ label := tx.label, undoers := tx.undoers }])).2 } := by
  have h : tx.undoers.isEmpty = false := by
    cases hu : tx.undoers with
    | nil => exact absurd hu hne
    | cons a l => rfl
  simp only [Session.commitTransaction, h, Bool.false_eq_true, if_false]

theorem Session.undo_of_ok (s : Session) (entry : Entry) (w1 : World)
    (hl : s.undoHistory.getLast? = some entry)
    (hr : Session.revertAll entry.undoers.reverse { s.world with redoers := { undoers := [] } } =
      (.ok (), w1)) :
    s.undo =
      (.ok (),
        { s with
          world := { w1 with redoers := { undoers := [] } }
          undoHistory := s.undoHistory.dropLast
          redoHistory := s.redoHistory ++
            [{ label := entry.label, undoers := w1.redoers.undoers }] }) := by
  simp only [Session.undo, hl, hr]

theorem Session.redo_of_ok (s : Session) (entry : Entry) (w1 : World)
    (hl : s.redoHistory.getLast? = some entry)
    (hr : Session.revertAll entry.undoers.reverse { s.world with redoers := { undoers := [] } } =
      (.ok (), w1)) :
    s.redo =
      (.ok (),
        { s with
          world := { w1 with redoers := { undoers := [] } }
          redoHistory := s.redoHistory.dropLast
          undoHistory := s.undoHistory ++
            [{ label := entry.label, undoers := w1.redoers.undoers }] }) := by
  simp only [Session.redo, hl, hr]

theorem Session.revertAll_singleton_ok (u : Undoer) (w w1 : World)
    (h : u.revert w = (.ok (), w1)) : Session.revertAll [u] w = (.ok (), w1) := by
  simp only [Session.revertAll, h]

theorem Session.redo_of_empty (s : Session) (h : s.redoHistory = []) :
    s.redo = (.error Error.NothingToRedo, s) := by
  simp only [Session.redo, h, List.getLast?_nil]

/-- C9: committing a non-empty transaction empties the redo history of any session state (in
particular of every state reached by an undo, whose redo history is not empty), so `canRedo`
is false and a following `redo()` returns `NothingToRedo` and leaves the session unchanged. -/
theorem Session.commit_clears_redoHistory (s : Session) (tx : Transaction)
    (hne : tx.undoers ≠ []) :
    (s.commitTransaction tx).redoHistory = [] ∧
    (s.commitTransaction tx).canRedo = false ∧
    (s.commitTransaction tx).redo.1 = .error Error.NothingToRedo ∧
    (s.commitTransaction tx).redo.2 = s.commitTransaction tx := by
  have h : (s.commitTransaction tx).redoHistory = [] := by
    rw [Session.commitTransaction_of_ne s tx hne]
  refine ⟨h, ?_, ?_, ?_⟩
  · simp [Session.canRedo, h]
  · rw [Session.redo_of_empty _ h]
  · rw [Session.redo_of_empty _ h]

/-- Witness for C9: the sample session after one undo has a redo entry; committing a
transaction holding one undoer clears it. -/
theorem Session.commit_clears_redoHistory_witness :
    (sampleUndone.redoHistory ≠ [] ∧
      (recordUndoer (beginTransaction "Add Frame 0") (Undoer.addFrame sampleAddFrame)).undoers
        ≠ []) ∧
    (sampleUndone.commitTransaction
      (recordUndoer (beginTransaction "Add Frame 0")
        (Undoer.addFrame sampleAddFrame))).redoHistory = [] ∧
    (sampleUndone.commitTransaction
      (recordUndoer (beginTransaction "Add Frame 0")
        (Undoer.addFrame sampleAddFrame))).canRedo = false ∧
    (sampleUndone.commitTransaction
      (recordUndoer (beginTransaction "Add Frame 0")
        (Undoer.addFrame sampleAddFrame))).redo.1 = .error Error.NothingToRedo ∧
    (sampleUndone.commitTransaction
      (recordUndoer (beginTransaction "Add Frame 0")
        (Undoer.addFrame sampleAddFrame))).redo.2 =
      sampleUndone.commitTransaction
        (recordUndoer (beginTransaction "Add Frame 0") (Undoer.addFrame sampleAddFrame)) :=
  ⟨⟨by decide, by decide⟩,
    Session.commit_clears_redoHistory sampleUndone
      (recordUndoer (beginTransaction "Add Frame 0") (Undoer.addFrame sampleAddFrame))
      (by decide)⟩

theorem Session.commitAddFrame_eq (s : Session) (label : String) (document sprite : Ptr)
    (frame : FrameNumber) :
    s.commitAddFrame label document sprite frame =
      { world := (AddFrame.new document sprite frame s.world).2,
        undoHistory := (Entry.evict s.estimateSize s.budget
          (s.undoHistory ++ [⟨label,
            [Undoer.addFrame (AddFrame.new document sprite frame s.world).1]⟩])).1,
        redoHistory := [],
        budget := s.budget,
        estimateSize := s.estimateSize,
        disposed := s.disposed ++ Entry.allUndoers s.redoHistory ++
          (Entry.evict s.estimateSize s.budget
            (s.undoHistory ++ [⟨label,
              [Undoer.addFrame (AddFrame.new document sprite frame s.world).1]⟩])).2 } := by
  unfold Session.commitAddFrame
  rw [Session.commitTransaction_of_ne _ _ (by simp [recordUndoer, beginTransaction])]
  simp [recordUndoer, beginTransaction]

/-- C4 as stated fails: in the scenario of section 8 the single redo entry left by the undo
holds a `RemoveFrame`, so it is not an entry whose undoer is an `AddFrame`. -/
theorem Session.undo_AddFrame_redo_entry_not_AddFrame :
    sampleUndone.redoHistory =
      [{ label := "Add Frame 3",
         undoers := [Undoer.removeFrame
           { m_documentId := 0, m_spriteId := 1, m_frame := 3, m_frameData := some 13 }] }] ∧
    ¬ ∃ (label : String) (a : AddFrame),
      sampleUndone.redoHistory = [{ label := label, undoers := [Undoer.addFrame a] }] := by
  have h : sampleUndone.redoHistory =
      [{ label := "Add Frame 3",
         undoers := [Undoer.removeFrame
           { m_documentId := 0, m_spriteId := 1, m_frame := 3, m_frameData := some 13 }] }] := by
    decide
  refine ⟨h, ?_⟩
  rintro ⟨label, a, ha⟩
  rw [h] at ha
  simp at ha

/-- C4, amended: after the committed transaction that recorded an `AddFrame` for a frame
index holding content `data` is undone, the undo succeeds, the sprite has lost that frame and
the redo history holds exactly one entry, labelled like the transaction, whose only undoer is
a `RemoveFrame` with the identifiers of the recorded `AddFrame`, the same frame index and the
captured content `data`; redoing it puts the frame back with that content (every sprite is as
before the undo) and returns the `AddFrame` entry to the undo history. -/
theorem Session.undo_AddFrame_leaves_RemoveFrame (s : Session) (label : String)
    (document sprite : Ptr) (frame : FrameNumber) (data : FrameData)
    (hwf : s.world.objects.WF)
    (hdata : (s.world.sprites sprite).frames[frame]? = some data) :
    (s.commitAddFrame label document sprite frame).undo.1 = .ok () ∧
    (s.commitAddFrame label document sprite frame).undo.2.redoHistory =
      [{ label := label,
         undoers := [Undoer.removeFrame
           { m_documentId := (AddFrame.new document sprite frame s.world).1.m_documentId
             m_spriteId := (AddFrame.new document sprite frame s.world).1.m_spriteId
             m_frame := frame
             m_frameData := some data }] }] ∧
    ((s.commitAddFrame label document sprite frame).undo.2.world.sprites sprite).frames =
      (s.world.sprites sprite).frames.eraseIdx frame ∧
    (s.commitAddFrame label document sprite frame).undo.2.redo.1 = .ok () ∧
    (s.commitAddFrame label document sprite frame).undo.2.redo.2.world.sprites =
      s.world.sprites ∧
    (s.commitAddFrame label document sprite frame).undo.2.redo.2.undoHistory.getLast? =
      some { label := label,
             undoers := [Undoer.addFrame (AddFrame.new document sprite frame s.world).1] } ∧
    (s.commitAddFrame label document sprite frame).undo.2.redo.2.redoHistory = [] := by
  -- the registry after construction
  have hwf1 : (AddFrame.new document sprite frame s.world).2.objects.WF :=
    ObjectsContainer.WF_addObject _ (ObjectsContainer.WF_addObject _ hwf document) sprite
  obtain ⟨hu, -, hmd, hms, hsp, -, -⟩ :=
    AddFrame.new_registers_fields document sprite frame s.world
  have hd := ObjectsContainer.getObject_of_mem _ hwf1 _ _ hmd
  have hs := ObjectsContainer.getObject_of_mem _ hwf1 _ _ hms
  generalize hc : AddFrame.new document sprite frame s.world = c at *
  obtain ⟨u, ⟨o0, r0, sp0, t0, im0⟩⟩ := c
  simp only at hwf1 hu hmd hms hsp hd hs
  subst hsp
  have hfr : u.m_frame = frame := by rw [hu]
  -- the undo
  have hnew := RemoveFrame.new_captures_of_mem document sprite u.m_frame
    ⟨o0, { undoers := [] }, s.world.sprites, t0, im0⟩ hwf1 _ _ hmd hms
  have hrev := AddFrame.revert_of_resolved u
    ⟨o0, { undoers := [] }, s.world.sprites, t0, im0⟩ document sprite hd hs
  rw [hnew] at hrev
  simp only [hfr, hdata, List.nil_append] at hrev
  have hundo := Session.undo_of_ok (s.commitAddFrame label document sprite frame)
    { label := label, undoers := [Undoer.addFrame u] } _
    (by rw [Session.commitAddFrame_eq, hc]; simp [Entry.evict_getLast?])
    (by
      rw [Session.commitAddFrame_eq, hc]
      exact Session.revertAll_singleton_ok _ _ _ hrev)
  rw [hundo]
  -- the redo
  have hrev2 := RemoveFrame.revert_restores_of_resolved
    { m_documentId := u.m_documentId, m_spriteId := u.m_spriteId, m_frame := frame,
      m_frameData := some data }
    ⟨o0, { undoers := [] },
      Function.update s.world.sprites sprite ((s.world.sprites sprite).removeFrame frame),
      t0 ++
        [Effect.removeFrame sprite frame,
         Effect.notify document DocumentObserver.onRemoveFrame
           { document := document, sprite := some sprite, frame := some frame }],
      im0⟩
    document sprite data hwf1 hd hs rfl
  have hredo := Session.redo_of_ok
    { s.commitAddFrame label document sprite frame with
      world :=
        ⟨o0, { undoers := [] },
          Function.update s.world.sprites sprite ((s.world.sprites sprite).removeFrame frame),
          t0 ++
            [Effect.removeFrame sprite frame,
             Effect.notify document DocumentObserver.onRemoveFrame
               { document := document, sprite := some sprite, frame := some frame }],
          im0⟩
      undoHistory := (s.commitAddFrame label document sprite frame).undoHistory.dropLast
      redoHistory := (s.commitAddFrame label document sprite frame).redoHistory ++
        [{ label := label,
           undoers := [Undoer.removeFrame
             { m_documentId := u.m_documentId, m_spriteId := u.m_spriteId, m_frame := frame,
               m_frameData := some data }] }] }
    { label := label,
      undoers := [Undoer.removeFrame
        { m_documentId := u.m_documentId, m_spriteId := u.m_spriteId, m_frame := frame,
          m_frameData := some data }] } _
    (by simp)
    (Session.revertAll_singleton_ok _ _ _ hrev2)
  have hredoH : (s.commitAddFrame label document sprite frame).redoHistory = [] := by
    rw [Session.commitAddFrame_eq]
  refine ⟨rfl, ?_, ?_, ?_⟩
  · simp only [hredoH, List.nil_append]
  · simp [Sprite.removeFrame]
  · rw [hredo]
    refine ⟨rfl, ?_, ?_, ?_⟩
    · simp only [Function.update_same, Function.update_idem]
      rw [Sprite.addFrame_removeFrame _ _ _ hdata]
      exact Function.update_eq_self sprite s.world.sprites
    · simp [hu]
    · simp [hredoH]

/-- Witness for C4 (amended) on the sample session: frame 3 holds content 13. -/
theorem Session.undo_AddFrame_leaves_RemoveFrame_witness :
    (sampleSession.world.objects.WF ∧
      (sampleSession.world.sprites 200).frames[3]? = some 13) ∧
    (sampleSession.commitAddFrame "Add Frame 3" 100 200 3).undo.1 = .ok () ∧
    (sampleSession.commitAddFrame "Add Frame 3" 100 200 3).undo.2.redoHistory =
      [{ label := "Add Frame 3",
         undoers := [Undoer.removeFrame
           { m_documentId := (AddFrame.new 100 200 3 sampleSession.world).1.m_documentId
             m_spriteId := (AddFrame.new 100 200 3 sampleSession.world).1.m_spriteId
             m_frame := 3
             m_frameData := some 13 }] }] ∧
    ((sampleSession.commitAddFrame "Add Frame 3" 100 200 3).undo.2.world.sprites 200).frames =
      (sampleSession.world.sprites 200).frames.eraseIdx 3 ∧
    (sampleSession.commitAddFrame "Add Frame 3" 100 200 3).undo.2.redo.1 = .ok () ∧
    (sampleSession.commitAddFrame "Add Frame 3" 100 200 3).undo.2.redo.2.world.sprites =
      sampleSession.world.sprites ∧
    (sampleSession.commitAddFrame "Add Frame 3" 100 200 3).undo.2.redo.2.undoHistory.getLast? =
      some { label := "Add Frame 3",
             undoers := [Undoer.addFrame (AddFrame.new 100 200 3 sampleSession.world).1] } ∧
    (sampleSession.commitAddFrame "Add Frame 3" 100 200 3).undo.2.redo.2.redoHistory = [] :=
  ⟨⟨by decide, by decide⟩,
    Session.undo_AddFrame_leaves_RemoveFrame sampleSession "Add Frame 3" 100 200 3 13
      (by decide) (by decide)⟩

/-! ## Disposal and order of construction -/

theorem Session.disposeAll_eq (us : List Undoer) (s : Session) :
    Session.disposeAll us s = { s with disposed := s.disposed ++ us } := by
  induction us generalizing s with
  | nil => simp [Session.disposeAll]
  | cons u us ih =>
    cases u <;>
      simp [Session.disposeAll, ih, Undoer.dispose, AddFrame.dispose, RemoveFrame.dispose,
        FlipImage.dispose]

theorem Session.discardTransaction_eq_disposeAll (s : Session) (tx : Transaction) :
    s.discardTransaction tx = Session.disposeAll tx.undoers s := by
  rw [Session.disposeAll_eq]
  rfl

/-- C11: `AddFrame::dispose` reverts nothing: it releases exactly the undoer itself (the
record of disposed undoers grows by this one undoer) and leaves the world (registry, sprites
and their frames, in-progress collector, record of mutations and notifications), the undo
history, the redo history and the budget unchanged. -/
theorem AddFrame.dispose_releases_only_itself (u : AddFrame) (s : Session) :
    (u.dispose s).disposed = s.disposed ++ [Undoer.addFrame u] ∧
    (u.dispose s).world = s.world ∧
    (u.dispose s).world.sprites = s.world.sprites ∧
    (u.dispose s).world.objects = s.world.objects ∧
    (u.dispose s).world.redoers = s.world.redoers ∧
    (u.dispose s).world.trace = s.world.trace ∧
    (u.dispose s).undoHistory = s.undoHistory ∧
    (u.dispose s).redoHistory = s.redoHistory ∧
    (u.dispose s).budget = s.budget ∧
    (Undoer.addFrame u).dispose s = u.dispose s :=
  ⟨rfl, rfl, rfl, rfl, rfl, rfl, rfl, rfl, rfl, rfl⟩

/-- C20: in `AddFrame::revert` the inverse `RemoveFrame` is constructed at revert time from
the resolved document and sprite and pushed before `sprite->removeFrame` runs: the revert is
the construction on the incoming world, then the push, then the removal, then the
notification; at the push the sprites are still those of the incoming world, and the content
captured by the constructor is the frame at the recorded index of the sprite as it was before
the removal (present whenever the sprite has such a frame). -/
theorem AddFrame.revert_builds_inverse_before_removal (u : AddFrame) (w : World)
    (document sprite : Ptr)
    (hd : w.objects.getObjectT u.m_documentId = .ok document)
    (hs : w.objects.getObjectT u.m_spriteId = .ok sprite) :
    u.revert w =
      (.ok (),
        ((((RemoveFrame.new document sprite u.m_frame w).2.pushUndoer
            (Undoer.removeFrame (RemoveFrame.new document sprite u.m_frame w).1)).removeFrame
              sprite u.m_frame).notifyObservers document DocumentObserver.onRemoveFrame
                { document := document, sprite := some sprite, frame := some u.m_frame })) ∧
    ((RemoveFrame.new document sprite u.m_frame w).2.pushUndoer
        (Undoer.removeFrame (RemoveFrame.new document sprite u.m_frame w).1)).sprites =
      w.sprites ∧
    ((RemoveFrame.new document sprite u.m_frame w).2.pushUndoer
        (Undoer.removeFrame (RemoveFrame.new document sprite u.m_frame w).1)).trace =
      w.trace ∧
    ((RemoveFrame.new document sprite u.m_frame w).2.pushUndoer
        (Undoer.removeFrame (RemoveFrame.new document sprite u.m_frame w).1)).redoers.undoers =
      w.redoers.undoers ++
        [Undoer.removeFrame (RemoveFrame.new document sprite u.m_frame w).1] ∧
    (RemoveFrame.new document sprite u.m_frame w).1.m_frameData =
      (w.sprites sprite).frames[u.m_frame]? ∧
    (∀ hf : u.m_frame < (w.sprites sprite).frames.length,
      (RemoveFrame.new document sprite u.m_frame w).1.m_frameData =
        some ((w.sprites sprite).frames[u.m_frame]) ∧
      ((u.revert w).2.sprites sprite).frames.length + 1 =
        (w.sprites sprite).frames.length) := by
  refine ⟨?_, rfl, rfl, rfl, rfl, ?_⟩
  · simp only [AddFrame.revert, hd, hs, DocumentEvent.ofDocument, DocumentEvent.setSprite,
      DocumentEvent.setFrame]
  · intro hf
    refine ⟨?_, ?_⟩
    · simp only [RemoveFrame.new]
      exact List.getElem?_eq_getElem hf
    · rw [AddFrame.revert_of_resolved u w document sprite hd hs]
      have hpos : 0 < (w.sprites sprite).frames.length :=
        Nat.lt_of_le_of_lt (Nat.zero_le _) hf
      simp only [Function.update_same, Sprite.removeFrame]
      rw [List.length_eraseIdx]
      simp only [hf, if_true]
      exact Nat.sub_add_cancel hpos

/-- Witness for C20 on the sample scene: the pushed `RemoveFrame` captured content 13, the
frame 3 that the revert then removes. -/
theorem AddFrame.revert_builds_inverse_before_removal_witness :
    (sampleWorld.objects.getObjectT sampleAddFrame.m_documentId = .ok 100 ∧
      sampleWorld.objects.getObjectT sampleAddFrame.m_spriteId = .ok 200) ∧
    (RemoveFrame.new 100 200 sampleAddFrame.m_frame sampleWorld).1.m_frameData = some 13 ∧
    ((sampleAddFrame.revert sampleWorld).2.sprites 200).frames = [10, 11, 12, 14] ∧
    (RemoveFrame.new 100 200 sampleAddFrame.m_frame sampleWorld).1.m_frameData =
      (sampleWorld.sprites 200).frames[sampleAddFrame.m_frame]? :=
  ⟨⟨rfl, rfl⟩, by decide, by decide,
    (AddFrame.revert_builds_inverse_before_removal sampleAddFrame sampleWorld 100 200
      rfl rfl).2.2.2.2.1⟩

/-! ## `FlipImage` -/

/-- C12: `FlipImage::getMemSize` returns the size of the record, the same fixed value for
every `FlipImage` undoer whatever its image id, format, bounds and flip type; being a pure
function of the record it returns that value on every call and changes nothing. -/
theorem FlipImage.getMemSize_constant (sizeofFlipImage : Nat) (a b : FlipImage) :
    a.getMemSize sizeofFlipImage = sizeofFlipImage ∧
    a.getMemSize sizeofFlipImage = b.getMemSize sizeofFlipImage :=
  ⟨rfl, rfl⟩

/-- C13 as stated fails: two `FlipImage` records with the same image id, the same bounds and
the same flip axis can differ, because the record also stores the format byte `m_format`. -/
theorem FlipImage.state_not_determined_by_id_bounds_axis :
    ({ m_imageId := 2, m_format := 0, m_x := 1, m_y := 0, m_w := 3, m_h := 2,
       m_flipType := 0 } : FlipImage).m_imageId =
      ({ m_imageId := 2, m_format := 1, m_x := 1, m_y := 0, m_w := 3, m_h := 2,
         m_flipType := 0 } : FlipImage).m_imageId ∧
    ({ m_imageId := 2, m_format := 0, m_x := 1, m_y := 0, m_w := 3, m_h := 2,
       m_flipType := 0 } : FlipImage).bounds =
      ({ m_imageId := 2, m_format := 1, m_x := 1, m_y := 0, m_w := 3, m_h := 2,
         m_flipType := 0 } : FlipImage).bounds ∧
    ({ m_imageId := 2, m_format := 0, m_x := 1, m_y := 0, m_w := 3, m_h := 2,
       m_flipType := 0 } : FlipImage).m_flipType =
      ({ m_imageId := 2, m_format := 1, m_x := 1, m_y := 0, m_w := 3, m_h := 2,
         m_flipType := 0 } : FlipImage).m_flipType ∧
    ({ m_imageId := 2, m_format := 0, m_x := 1, m_y := 0, m_w := 3, m_h := 2,
       m_flipType := 0 } : FlipImage) ≠
      { m_imageId := 2, m_format := 1, m_x := 1, m_y := 0, m_w := 3, m_h := 2,
        m_flipType := 0 } := by
  decide

/-- C13, amended: a `FlipImage` undoer stores, besides the ObjectId of the image, the format
byte of the image, the bounds rectangle and the flip axis, and nothing else (no pixel
snapshot): two records that agree on image id, format, bounds and axis are equal. -/
theorem FlipImage.state_determined_by_id_format_bounds_axis (a b : FlipImage)
    (hid : a.m_imageId = b.m_imageId) (hformat : a.m_format = b.m_format)
    (hbounds : a.bounds = b.bounds) (haxis : a.m_flipType = b.m_flipType) :
    a = b := by
  cases a
  cases b
  simp only [FlipImage.bounds, Rect.mk.injEq, Nat.cast_inj] at hbounds
  simp only at hid hformat haxis
  obtain ⟨hx, hy, hw, hh⟩ := hbounds
  subst hid hformat haxis hx hy hw hh
  rfl

/-- Witness for C13 (amended): the record the constructor builds in the sample scene. -/
theorem FlipImage.state_determined_by_id_format_bounds_axis_witness :
    ((FlipImage.new 400 ⟨1, 0, 3, 2⟩ .FlipHorizontal sampleWorld).1.m_imageId =
        ({ m_imageId := 2, m_format := 0, m_x := 1, m_y := 0, m_w := 3, m_h := 2,
           m_flipType := 0 } : FlipImage).m_imageId ∧
      (FlipImage.new 400 ⟨1, 0, 3, 2⟩ .FlipHorizontal sampleWorld).1.m_format =
        ({ m_imageId := 2, m_format := 0, m_x := 1, m_y := 0, m_w := 3, m_h := 2,
           m_flipType := 0 } : FlipImage).m_format ∧
      (FlipImage.new 400 ⟨1, 0, 3, 2⟩ .FlipHorizontal sampleWorld).1.bounds =
        ({ m_imageId := 2, m_format := 0, m_x := 1, m_y := 0, m_w := 3, m_h := 2,
           m_flipType := 0 } : FlipImage).bounds ∧
      (FlipImage.new 400 ⟨1, 0, 3, 2⟩ .FlipHorizontal sampleWorld).1.m_flipType =
        ({ m_imageId := 2, m_format := 0, m_x := 1, m_y := 0, m_w := 3, m_h := 2,
           m_flipType := 0 } : FlipImage).m_flipType) ∧
    (FlipImage.new 400 ⟨1, 0, 3, 2⟩ .FlipHorizontal sampleWorld).1 =
      { m_imageId := 2, m_format := 0, m_x := 1, m_y := 0, m_w := 3, m_h := 2,
        m_flipType := 0 } :=
  ⟨⟨by decide, by decide, by decide, by decide⟩,
    FlipImage.state_determined_by_id_format_bounds_axis _ _
      (by decide) (by decide) (by decide) (by decide)⟩

theorem Rect.contains_iff (r : Rect) (u v : Int) :
    r.contains u v = true ↔ r.x ≤ u ∧ u < r.x + r.w ∧ r.y ≤ v ∧ v < r.y + r.h := by
  simp only [Rect.contains, Bool.and_eq_true, decide_eq_true_eq]
  constructor
  · rintro ⟨⟨⟨h1, h2⟩, h3⟩, h4⟩
    exact ⟨h1, h2, h3, h4⟩
  · rintro ⟨h1, h2, h3, h4⟩
    exact ⟨⟨⟨h1, h2⟩, h3⟩, h4⟩

theorem Image.flip_flip (img : Image) (bounds : Rect) (flipType : FlipType) :
    (img.flip bounds flipType).flip bounds flipType = img := by
  cases img with
  | mk fmt px =>
    simp only [Image.flip, Image.mk.injEq, true_and]
    funext u v
    by_cases hc : bounds.contains u v = true
    · have h := (Rect.contains_iff bounds u v).1 hc
      cases flipType with
      | FlipHorizontal =>
        have hm : bounds.contains (2 * bounds.x + bounds.w - 1 - u) v = true :=
          (Rect.contains_iff _ _ _).2 ⟨by omega, by omega, h.2.2.1, h.2.2.2⟩
        have he : 2 * bounds.x + bounds.w - 1 - (2 * bounds.x + bounds.w - 1 - u) = u := by
          omega
        simp only [hc, hm, if_true, he]
      | FlipVertical =>
        have hm : bounds.contains u (2 * bounds.y + bounds.h - 1 - v) = true :=
          (Rect.contains_iff _ _ _).2 ⟨h.1, h.2.1, by omega, by omega⟩
        have he : 2 * bounds.y + bounds.h - 1 - (2 * bounds.y + bounds.h - 1 - v) = v := by
          omega
        simp only [hc, hm, if_true, he]
    · simp only [hc, Bool.false_eq_true, if_false]

theorem FlipType.ofCode_toCode (flipType : FlipType) :
    FlipType.ofCode flipType.toCode = flipType := by
  cases flipType <;> rfl

theorem Int.toNat_emod_of_uint16 (x : Int) (h0 : 0 ≤ x) (h1 : x < 65536) :
    (((x % 65536).toNat : Nat) : Int) = x := by
  rw [Int.emod_eq_of_lt h0 h1]
  exact Int.toNat_of_nonneg h0

theorem FlipImage.new_bounds_of_uint16 (image : Ptr) (bounds : Rect) (flipType : FlipType)
    (w : World)
    (hx : 0 ≤ bounds.x ∧ bounds.x < 65536) (hy : 0 ≤ bounds.y ∧ bounds.y < 65536)
    (hw : 0 ≤ bounds.w ∧ bounds.w < 65536) (hh : 0 ≤ bounds.h ∧ bounds.h < 65536) :
    (FlipImage.new image bounds flipType w).1.bounds = bounds := by
  cases bounds with
  | mk x y bw bh =>
    simp only [FlipImage.new, FlipImage.bounds, Rect.mk.injEq]
    exact ⟨Int.toNat_emod_of_uint16 x hx.1 hx.2, Int.toNat_emod_of_uint16 y hy.1 hy.2,
      Int.toNat_emod_of_uint16 bw hw.1 hw.2, Int.toNat_emod_of_uint16 bh hh.1 hh.2⟩

theorem FlipImage.revert_flips_of_resolved (u : FlipImage) (w : World) (image : Ptr)
    (h : w.objects.getObjectT u.m_imageId = .ok image) :
    u.revert w =
      (.ok (),
        { objects := w.objects
          redoers :=
            { undoers := w.redoers.undoers ++
                [Undoer.flipImage
                  (FlipImage.new image u.bounds (FlipType.ofCode u.m_flipType) w).1] }
          sprites := w.sprites
          trace := w.trace ++
            [Effect.flipImage image u.bounds (FlipType.ofCode u.m_flipType)]
          images := Function.update w.images image
            ((w.images image).flip u.bounds (FlipType.ofCode u.m_flipType)) }) := by
  have ho : (w.objects.addObject image).2 = w.objects :=
    ObjectsContainer.addObject_snd_of_mem _ _ _ (ObjectsContainer.mem_of_getObject _ _ _ h)
  have hn : (FlipImage.new image u.bounds (FlipType.ofCode u.m_flipType) w).2 = w := by
    simp only [FlipImage.new, ho]
  simp only [FlipImage.revert, h, hn, World.pushUndoer, World.flipImage,
    UndoersCollector.pushUndoer]

theorem Session.commitFlipImage_eq (s : Session) (label : String) (image : Ptr)
    (bounds : Rect) (flipType : FlipType) :
    s.commitFlipImage label image bounds flipType =
      { world :=
          { objects := (s.world.objects.addObject image).2,
            redoers := s.world.redoers,
            sprites := s.world.sprites,
            trace := s.world.trace ++ [Effect.flipImage image bounds flipType],
            images := Function.update s.world.images image
              ((s.world.images image).flip bounds flipType) },
        undoHistory := (Entry.evict s.estimateSize s.budget
          (s.undoHistory ++ [⟨label,
            [Undoer.flipImage (FlipImage.new image bounds flipType s.world).1]⟩])).1,
        redoHistory := [],
        budget := s.budget,
        estimateSize := s.estimateSize,
        disposed := s.disposed ++ Entry.allUndoers s.redoHistory ++
          (Entry.evict s.estimateSize s.budget
            (s.undoHistory ++ [⟨label,
              [Undoer.flipImage (FlipImage.new image bounds flipType s.world).1]⟩])).2 } := by
  unfold Session.commitFlipImage
  rw [Session.commitTransaction_of_ne _ _ (by simp [recordUndoer, beginTransaction])]
  simp [recordUndoer, beginTransaction, FlipImage.new, World.flipImage]

theorem Session.undo_commitFlipImage (s : Session) (label : String) (image : Ptr)
    (bounds : Rect) (flipType : FlipType) (hwf : s.world.objects.WF)
    (hx : 0 ≤ bounds.x ∧ bounds.x < 65536) (hy : 0 ≤ bounds.y ∧ bounds.y < 65536)
    (hw : 0 ≤ bounds.w ∧ bounds.w < 65536) (hh : 0 ≤ bounds.h ∧ bounds.h < 65536) :
    (s.commitFlipImage label image bounds flipType).undo.1 = .ok () ∧
    (s.commitFlipImage label image bounds flipType).undo.2.world.images = s.world.images ∧
    (s.commitFlipImage label image bounds flipType).undo.2.redoHistory.length = 1 := by
  have hwf1 : (s.world.objects.addObject image).2.WF :=
    ObjectsContainer.WF_addObject _ hwf image
  have hres : (s.world.objects.addObject image).2.getObjectT
      (FlipImage.new image bounds flipType s.world).1.m_imageId = .ok image :=
    ObjectsContainer.getObject_of_mem _ hwf1 _ _ (ObjectsContainer.addObject_mem _ image)
  have hb := FlipImage.new_bounds_of_uint16 image bounds flipType s.world hx hy hw hh
  have hc : FlipType.ofCode (FlipImage.new image bounds flipType s.world).1.m_flipType =
      flipType := FlipType.ofCode_toCode flipType
  have hrev := FlipImage.revert_flips_of_resolved
    (FlipImage.new image bounds flipType s.world).1
    ⟨(s.world.objects.addObject image).2, { undoers := [] }, s.world.sprites,
      s.world.trace ++ [Effect.flipImage image bounds flipType],
      Function.update s.world.images image ((s.world.images image).flip bounds flipType)⟩
    image hres
  simp only [hb, hc, Function.update_same, Function.update_idem, Image.flip_flip,
    Function.update_eq_self] at hrev
  have hundo := Session.undo_of_ok (s.commitFlipImage label image bounds flipType)
    { label := label,
      undoers := [Undoer.flipImage (FlipImage.new image bounds flipType s.world).1] } _
    (by rw [Session.commitFlipImage_eq]; simp [Entry.evict_getLast?])
    (by
      rw [Session.commitFlipImage_eq]
      exact Session.revertAll_singleton_ok _ _ _ hrev)
  rw [hundo]
  refine ⟨rfl, rfl, ?_⟩
  rw [Session.commitFlipImage_eq]
  rfl

/-- C14 as stated fails for a region outside the 16-bit range: with the left edge at 65536
the undoer records the left edge 0, so after two committed flips and one undo the image is
not the single-flip state (pixel (0, 0) has colour 1 instead of 0). -/
theorem Session.undo_after_two_wide_flips_differs :
    (sampleWideFlipUndone.world.images 400).getpixel 0 0 = 1 ∧
    ((sampleSession.world.images 400).flip sampleWideBounds .FlipHorizontal).getpixel 0 0 = 0 ∧
    sampleWideFlipUndone.world.images 400 ≠
      (sampleSession.world.images 400).flip sampleWideBounds .FlipHorizontal := by
  have h1 : (sampleWideFlipUndone.world.images 400).getpixel 0 0 = 1 := by decide
  have h2 : ((sampleSession.world.images 400).flip sampleWideBounds
      .FlipHorizontal).getpixel 0 0 = 0 := by decide
  refine ⟨h1, h2, ?_⟩
  intro h
  rw [h, h2] at h1
  exact absurd h1 (by decide)

/-- C14, amended: for every image, every flip axis and every region whose four members fit a
`uint16_t` (on a well-formed registry): after flipping the region twice through two committed
transactions, each recording a `FlipImage` for the region and the axis, the image is back to
the original; undoing once succeeds and leaves the image in the state after the first flip
(all images are as after the first transaction), which differs from the double-flip state and
from the original whenever the single flip changes the image. -/
theorem Session.undo_after_two_flips (s : Session) (l1 l2 : String) (image : Ptr)
    (bounds : Rect) (flipType : FlipType) (hwf : s.world.objects.WF)
    (hx : 0 ≤ bounds.x ∧ bounds.x < 65536) (hy : 0 ≤ bounds.y ∧ bounds.y < 65536)
    (hw : 0 ≤ bounds.w ∧ bounds.w < 65536) (hh : 0 ≤ bounds.h ∧ bounds.h < 65536) :
    ((s.commitFlipImage l1 image bounds flipType).commitFlipImage
      l2 image bounds flipType).undo.1 = .ok () ∧
    (s.commitFlipImage l1 image bounds flipType).world.images image =
      (s.world.images image).flip bounds flipType ∧
    ((s.commitFlipImage l1 image bounds flipType).commitFlipImage
      l2 image bounds flipType).world.images image = s.world.images image ∧
    ((s.commitFlipImage l1 image bounds flipType).commitFlipImage
      l2 image bounds flipType).undo.2.world.images image =
      (s.world.images image).flip bounds flipType ∧
    ((s.commitFlipImage l1 image bounds flipType).commitFlipImage
      l2 image bounds flipType).undo.2.world.images =
      (s.commitFlipImage l1 image bounds flipType).world.images ∧
    ((s.world.images image).flip bounds flipType ≠ s.world.images image →
      ((s.commitFlipImage l1 image bounds flipType).commitFlipImage
        l2 image bounds flipType).undo.2.world.images image ≠
        ((s.commitFlipImage l1 image bounds flipType).commitFlipImage
          l2 image bounds flipType).world.images image ∧
      ((s.commitFlipImage l1 image bounds flipType).commitFlipImage
        l2 image bounds flipType).undo.2.world.images image ≠ s.world.images image) := by
  have h1 : (s.commitFlipImage l1 image bounds flipType).world.images image =
      (s.world.images image).flip bounds flipType := by
    rw [Session.commitFlipImage_eq]
    simp
  have hwf1 : (s.commitFlipImage l1 image bounds flipType).world.objects.WF := by
    rw [Session.commitFlipImage_eq]
    exact ObjectsContainer.WF_addObject _ hwf image
  have h2 : ((s.commitFlipImage l1 image bounds flipType).commitFlipImage
      l2 image bounds flipType).world.images image = s.world.images image := by
    rw [Session.commitFlipImage_eq]
    simp only [Function.update_same, h1, Image.flip_flip]
  obtain ⟨hok, himg, -⟩ := Session.undo_commitFlipImage
    (s.commitFlipImage l1 image bounds flipType) l2 image bounds flipType hwf1 hx hy hw hh
  have h3 : ((s.commitFlipImage l1 image bounds flipType).commitFlipImage
      l2 image bounds flipType).undo.2.world.images image =
      (s.world.images image).flip bounds flipType := by
    rw [himg, h1]
  refine ⟨hok, h1, h2, h3, himg, ?_⟩
  intro hne
  rw [h3, h2]
  exact ⟨hne, hne⟩

/-- Witness for C14 (amended) on the sample session: the region (1, 0, 3, 2) flipped
horizontally on the image at address 400. -/
theorem Session.undo_after_two_flips_witness :
    (sampleSession.world.objects.WF ∧
      (0 ≤ sampleBounds.x ∧ sampleBounds.x < 65536) ∧
      (0 ≤ sampleBounds.y ∧ sampleBounds.y < 65536) ∧
      (0 ≤ sampleBounds.w ∧ sampleBounds.w < 65536) ∧
      (0 ≤ sampleBounds.h ∧ sampleBounds.h < 65536)) ∧
    ((sampleSession.commitFlipImage "Flip" 400 sampleBounds .FlipHorizontal).commitFlipImage
      "Flip again" 400 sampleBounds .FlipHorizontal).undo.1 = .ok () ∧
    ((sampleSession.commitFlipImage "Flip" 400 sampleBounds .FlipHorizontal).commitFlipImage
      "Flip again" 400 sampleBounds .FlipHorizontal).undo.2.world.images 400 =
      (sampleSession.world.images 400).flip sampleBounds .FlipHorizontal ∧
    ((sampleSession.world.images 400).flip sampleBounds .FlipHorizontal).getpixel 1 0 ≠
      (sampleSession.world.images 400).getpixel 1 0 :=
  ⟨⟨by decide, by decide, by decide, by decide, by decide⟩,
    (Session.undo_after_two_flips sampleSession "Flip" "Flip again" 400 sampleBounds
      .FlipHorizontal (by decide) (by decide) (by decide) (by decide) (by decide)).1,
    (Session.undo_after_two_flips sampleSession "Flip" "Flip again" 400 sampleBounds
      .FlipHorizontal (by decide) (by decide) (by decide) (by decide) (by decide)).2.2.2.1,
    by decide⟩

/-! ## `SharedPtr`: handles and counters -/

theorem Handles.sharers_set (l : Handles) (v : Var) (old x : SharedPtr) (p : Ptr)
    (h : Handles.get l v = some old) :
    Handles.sharers (Handles.set l v x) p + (if old.m_ptr = some p then 1 else 0) =
      Handles.sharers l p + (if x.m_ptr = some p then 1 else 0) := by
  induction l with
  | nil => simp [Handles.get] at h
  | cons e rest ih =>
    obtain ⟨k, hk⟩ := e
    by_cases hkv : k = v
    · simp only [Handles.get, hkv, if_true, Option.some.injEq] at h
      subst h
      simp only [Handles.set, hkv, if_true, Handles.sharers]
      omega
    · simp only [Handles.get, hkv, if_false] at h
      have := ih h
      simp only [Handles.set, hkv, if_false, Handles.sharers]
      omega

theorem Handles.sharers_remove (l : Handles) (v : Var) (old : SharedPtr) (p : Ptr)
    (h : Handles.get l v = some old) :
    Handles.sharers (Handles.remove l v) p + (if old.m_ptr = some p then 1 else 0) =
      Handles.sharers l p := by
  induction l with
  | nil => simp [Handles.get] at h
  | cons e rest ih =>
    obtain ⟨k, hk⟩ := e
    by_cases hkv : k = v
    · simp only [Handles.get, hkv, if_true, Option.some.injEq] at h
      subst h
      simp only [Handles.remove, hkv, if_true, Handles.sharers]
      omega
    · simp only [Handles.get, hkv, if_false] at h
      have := ih h
      simp only [Handles.remove, hkv, if_false, Handles.sharers]
      omega

theorem Handles.sharers_pos_of_get (l : Handles) (v : Var) (h : SharedPtr) (p : Ptr)
    (hg : Handles.get l v = some h) (hp : h.m_ptr = some p) : 1 ≤ Handles.sharers l p := by
  induction l with
  | nil => simp [Handles.get] at hg
  | cons e rest ih =>
    obtain ⟨k, hk⟩ := e
    by_cases hkv : k = v
    · simp only [Handles.get, hkv, if_true, Option.some.injEq] at hg
      subst hg
      simp only [Handles.sharers, hp, if_true]
      omega
    · simp only [Handles.get, hkv, if_false] at hg
      have := ih hg
      simp only [Handles.sharers]
      omega

theorem Handles.get_set_self (l : Handles) (v : Var) (old x : SharedPtr)
    (h : Handles.get l v = some old) : Handles.get (Handles.set l v x) v = some x := by
  induction l with
  | nil => simp [Handles.get] at h
  | cons e rest ih =>
    obtain ⟨k, hk⟩ := e
    by_cases hkv : k = v
    · simp only [Handles.set, hkv, if_true, Handles.get]
    · simp only [Handles.get, hkv, if_false] at h
      simp only [Handles.set, hkv, if_false, Handles.get, ih h]

theorem Handles.get_set_other (l : Handles) (v w : Var) (x : SharedPtr) (hne : w ≠ v) :
    Handles.get (Handles.set l v x) w = Handles.get l w := by
  induction l with
  | nil => rfl
  | cons e rest ih =>
    obtain ⟨k, hk⟩ := e
    by_cases hkv : k = v
    · have hkw : ¬ k = w := fun h => hne (h.symm.trans hkv)
      simp only [Handles.set, hkv, if_true, Handles.get]
      rw [← hkv]
      simp only [hkw, if_false]
    · by_cases hkw : k = w
      · subst hkw
        simp only [Handles.set, hkv, if_false, Handles.get, if_true]
      · simp only [Handles.set, hkv, if_false, Handles.get, hkw, ih]

theorem Handles.get_remove_other (l : Handles) (v w : Var) (hne : w ≠ v) :
    Handles.get (Handles.remove l v) w = Handles.get l w := by
  induction l with
  | nil => rfl
  | cons e rest ih =>
    obtain ⟨k, hk⟩ := e
    by_cases hkv : k = v
    · have hkw : ¬ k = w := fun h => hne (h.symm.trans hkv)
      simp only [Handles.remove, hkv, if_true, Handles.get]
      rw [← hkv]
      simp only [hkw, if_false]
    · by_cases hkw : k = w
      · subst hkw
        simp only [Handles.remove, hkv, if_false, Handles.get, if_true]
      · simp only [Handles.remove, hkv, if_false, Handles.get, hkw, ih]

theorem Memory.ref_refCount (m : Memory) (h : SharedPtr) (p : Ptr) :
    (m.ref h).refCount p = m.refCount p + (if h.m_ptr = some p then 1 else 0) := by
  unfold Memory.ref
  cases hq : h.m_ptr with
  | none => simp
  | some q =>
    by_cases hqp : q = p
    · subst hqp; simp
    · simp [Function.update, hqp, Ne.symm hqp]

theorem Memory.ref_frame (m : Memory) (h : SharedPtr) :
    (m.ref h).handles = m.handles ∧ (m.ref h).next = m.next ∧
    (m.ref h).deleted = m.deleted ∧ (m.ref h).value = m.value := by
  unfold Memory.ref
  cases h.m_ptr <;> exact ⟨rfl, rfl, rfl, rfl⟩

theorem Memory.unref_refCount (m : Memory) (h : SharedPtr) (p : Ptr) :
    (m.unref h).refCount p = m.refCount p - (if h.m_ptr = some p then 1 else 0) := by
  unfold Memory.unref
  cases hq : h.m_ptr with
  | none => simp
  | some q =>
    by_cases hqp : q = p
    · subst hqp; simp
    · simp [Function.update, hqp, Ne.symm hqp]

theorem Memory.unref_frame (m : Memory) (h : SharedPtr) :
    (m.unref h).handles = m.handles ∧ (m.unref h).next = m.next ∧
    (m.unref h).value = m.value := by
  unfold Memory.unref
  cases h.m_ptr <;> exact ⟨rfl, rfl, rfl⟩

theorem Memory.unref_deleted (m : Memory) (h : SharedPtr) (p : Ptr) :
    p ∈ (m.unref h).deleted ↔
      p ∈ m.deleted ∨ (h.m_ptr = some p ∧ m.refCount p - 1 = 0) := by
  unfold Memory.unref
  cases hq : h.m_ptr with
  | none => simp
  | some q =>
    by_cases hz : m.refCount q - 1 = 0
    · simp only [hz, if_true, List.mem_append, List.mem_singleton, Option.some.injEq]
      constructor
      · rintro (h1 | h1)
        · exact Or.inl h1
        · subst h1; exact Or.inr ⟨rfl, hz⟩
      · rintro (h1 | ⟨h1, -⟩)
        · exact Or.inl h1
        · exact Or.inr h1.symm
    · simp only [hz, if_false, Option.some.injEq]
      constructor
      · intro h1; exact Or.inl h1
      · rintro (h1 | ⟨h1, h2⟩)
        · exact h1
        · subst h1; exact absurd h2 hz

theorem Memory.unref_deleted_nodup (m : Memory) (h : SharedPtr) (hnd : m.deleted.Nodup)
    (hfresh : ∀ q, h.m_ptr = some q → q ∉ m.deleted) : (m.unref h).deleted.Nodup := by
  unfold Memory.unref
  cases hq : h.m_ptr with
  | none => exact hnd
  | some q =>
    by_cases hz : m.refCount q - 1 = 0
    · simp only [hz, if_true]
      rw [List.nodup_append]
      refine ⟨hnd, List.nodup_singleton q, ?_⟩
      intro a ha hb
      rw [List.mem_singleton] at hb
      subst hb
      exact hfresh a hq ha
    · simp only [hz, if_false]
      exact hnd

theorem Memory.Inv_init : Memory.init.Inv := by
  refine ⟨fun p => rfl, fun p _ => rfl, ?_, List.nodup_nil⟩
  intro p
  simp [Memory.init]

theorem Memory.Inv_construct (m : Memory) (hinv : m.Inv) (v : Var) (x : Int) :
    (m.construct v x).Inv := by
  unfold Memory.construct
  cases hg : Handles.get m.handles v with
  | some h => exact hinv
  | none =>
    obtain ⟨h1, h2, h3, h4⟩ := hinv
    have hs0 : Handles.sharers m.handles m.next = 0 := h2 _ (Nat.le_refl _)
    simp only [Memory.ref]
    refine ⟨?_, ?_, ?_, h4⟩
    · intro p
      by_cases hp : p = m.next
      · subst hp
        simp [Handles.sharers, hs0]
      · have hp2 : ¬ m.next = p := fun h => hp h.symm
        simp [Handles.sharers, Function.update, hp, hp2, h1 p]
    · intro p hle
      dsimp only at hle ⊢
      have hlt : m.next < p := Nat.lt_of_succ_le hle
      have hp2 : ¬ m.next = p := Nat.ne_of_lt hlt
      simp only [Handles.sharers, Option.some.injEq, hp2, if_false, Nat.zero_add]
      exact h2 p (Nat.le_of_lt hlt)
    · intro p
      dsimp only
      by_cases hp : p = m.next
      · subst hp
        have hnot : m.next ∉ m.deleted := fun hmem =>
          absurd ((h3 m.next).1 hmem).1 (Nat.lt_irrefl _)
        simp [hnot]
      · simp only [Function.update, hp, dite_false, h3 p]
        constructor
        · rintro ⟨ha, hb⟩
          exact ⟨Nat.lt_succ_of_lt ha, hb⟩
        · rintro ⟨ha, hb⟩
          exact ⟨Nat.lt_of_le_of_ne (Nat.le_of_lt_succ ha) hp, hb⟩

theorem Memory.Inv_copy (m : Memory) (hinv : m.Inv) (v src : Var) : (m.copy v src).Inv := by
  unfold Memory.copy
  cases hgv : Handles.get m.handles v with
  | some h => exact hinv
  | none =>
    cases hgs : Handles.get m.handles src with
    | none => exact hinv
    | some h =>
      obtain ⟨h1, h2, h3, h4⟩ := hinv
      simp only
      refine ⟨?_, ?_, ?_, ?_⟩
      · intro p
        rw [Memory.ref_refCount, (Memory.ref_frame _ _).1]
        simp only [Handles.sharers, h1 p]
        omega
      · intro p hle
        rw [(Memory.ref_frame _ _).1]
        rw [(Memory.ref_frame _ _).2.1] at hle
        have hz := h2 p hle
        simp only [Handles.sharers, hz, Nat.add_zero]
        by_cases hp : h.m_ptr = some p
        · have := Handles.sharers_pos_of_get _ _ _ _ hgs hp
          omega
        · simp [hp]
      · intro p
        rw [Memory.ref_refCount, (Memory.ref_frame _ _).2.1, (Memory.ref_frame _ _).2.2.1]
        simp only [h3 p]
        by_cases hp : h.m_ptr = some p
        · have hpos := Handles.sharers_pos_of_get _ _ _ _ hgs hp
          have := h1 p
          simp only [hp, if_true]
          constructor
          · rintro ⟨_, hb⟩; omega
          · rintro ⟨_, hb⟩; omega
        · simp [hp]
      · rw [(Memory.ref_frame _ _).2.2.1]
        exact h4

theorem Memory.Inv_of_exchange (m m2 : Memory) (hinv : m.Inv) (old new : SharedPtr)
    (hnext : m2.next = m.next)
    (hrc : ∀ p, m2.refCount p =
      m.refCount p - (if old.m_ptr = some p then 1 else 0) +
        (if new.m_ptr = some p then 1 else 0))
    (hsh : ∀ p, Handles.sharers m2.handles p + (if old.m_ptr = some p then 1 else 0) =
      Handles.sharers m.handles p + (if new.m_ptr = some p then 1 else 0))
    (hold : ∀ p, old.m_ptr = some p → 1 ≤ Handles.sharers m.handles p)
    (hnew : ∀ p, new.m_ptr = some p → 1 ≤ Handles.sharers m.handles p)
    (hdiff : ∀ p, old.m_ptr = some p → new.m_ptr ≠ some p)
    (hdel : ∀ p, p ∈ m2.deleted ↔
      p ∈ m.deleted ∨ (old.m_ptr = some p ∧ m.refCount p - 1 = 0))
    (hnd : m2.deleted.Nodup) : m2.Inv := by
  obtain ⟨h1, h2, h3, -⟩ := hinv
  refine ⟨?_, ?_, ?_, hnd⟩
  · intro p
    have e1 := hrc p
    have e2 := hsh p
    have e3 := h1 p
    by_cases ho : old.m_ptr = some p
    · have := hold p ho
      have hn := hdiff p ho
      simp only [ho, hn, if_true, if_false] at e1 e2
      omega
    · simp only [ho, if_false] at e1 e2
      omega
  · intro p hle
    rw [hnext] at hle
    have hz := h2 p hle
    have e2 := hsh p
    by_cases ho : old.m_ptr = some p
    · have := hold p ho
      omega
    · by_cases hn : new.m_ptr = some p
      · have := hnew p hn
        omega
      · simp only [ho, hn, if_false] at e2
        omega
  · intro p
    rw [hdel p, hnext, hrc p, h3 p]
    have e3 := h1 p
    by_cases ho : old.m_ptr = some p
    · have hpos := hold p ho
      have hn := hdiff p ho
      have hlt : p < m.next := by
        by_contra hcon
        have := h2 p (Nat.le_of_not_lt hcon)
        omega
      simp only [ho, hn, if_true, if_false, true_and, Nat.add_zero]
      constructor
      · rintro (⟨_, hb⟩ | hb)
        · omega
        · exact ⟨hlt, hb⟩
      · rintro ⟨_, hb⟩
        exact Or.inr hb
    · by_cases hn : new.m_ptr = some p
      · have hpos := hnew p hn
        simp only [ho, hn, if_true, if_false, false_and, or_false]
        constructor
        · rintro ⟨_, hb⟩; omega
        · rintro ⟨_, hb⟩; omega
      · simp only [ho, hn, if_false, false_and, or_false, Nat.sub_zero, Nat.add_zero]

theorem Memory.not_deleted_of_get (m : Memory) (hinv : m.Inv) (v : Var) (h : SharedPtr)
    (p : Ptr) (hg : Handles.get m.handles v = some h) (hp : h.m_ptr = some p) :
    p ∉ m.deleted := by
  intro hmem
  have h0 := ((hinv.2.2.1 p).1 hmem).2
  have h1 := hinv.1 p
  have h2 := Handles.sharers_pos_of_get _ _ _ _ hg hp
  omega

theorem Memory.Inv_reset (m : Memory) (hinv : m.Inv) (v : Var) : (m.reset v).Inv := by
  unfold Memory.reset
  cases hg : Handles.get m.handles v with
  | none => exact hinv
  | some hv =>
    simp only
    refine Memory.Inv_of_exchange m _ hinv hv { m_ptr := none } ?_ ?_ ?_ ?_ ?_ ?_ ?_ ?_
    · exact (Memory.unref_frame m hv).2.1
    · intro p
      simp [Memory.unref_refCount]
    · intro p
      simp only [(Memory.unref_frame m hv).1]
      exact Handles.sharers_set _ _ _ _ _ hg
    · intro p hp
      exact Handles.sharers_pos_of_get _ _ _ _ hg hp
    · intro p hp
      simp at hp
    · intro p _
      simp
    · intro p
      exact Memory.unref_deleted m hv p
    · exact Memory.unref_deleted_nodup m hv hinv.2.2.2
        (fun q hq => Memory.not_deleted_of_get m hinv v hv q hg hq)

theorem Memory.Inv_destroy (m : Memory) (hinv : m.Inv) (v : Var) : (m.destroy v).Inv := by
  unfold Memory.destroy
  cases hg : Handles.get m.handles v with
  | none => exact hinv
  | some hv =>
    simp only
    refine Memory.Inv_of_exchange m _ hinv hv { m_ptr := none } ?_ ?_ ?_ ?_ ?_ ?_ ?_ ?_
    · exact (Memory.unref_frame m hv).2.1
    · intro p
      simp [Memory.unref_refCount]
    · intro p
      simp only [(Memory.unref_frame m hv).1]
      have := Handles.sharers_remove _ _ _ p hg
      simp only [if_false, reduceCtorEq, Nat.add_zero]
      exact this
    · intro p hp
      exact Handles.sharers_pos_of_get _ _ _ _ hg hp
    · intro p hp
      simp at hp
    · intro p _
      simp
    · intro p
      exact Memory.unref_deleted m hv p
    · exact Memory.unref_deleted_nodup m hv hinv.2.2.2
        (fun q hq => Memory.not_deleted_of_get m hinv v hv q hg hq)

theorem Memory.Inv_assign (m : Memory) (hinv : m.Inv) (v src : Var) :
    (m.assign v src).Inv := by
  unfold Memory.assign
  cases hgv : Handles.get m.handles v with
  | none => exact hinv
  | some hv =>
    cases hgs : Handles.get m.handles src with
    | none => exact hinv
    | some hs =>
      simp only
      by_cases heq : hv.m_ptr = hs.m_ptr
      · simp only [heq, if_true]
        exact hinv
      · simp only [heq, if_false]
        refine Memory.Inv_of_exchange m _ hinv hv hs ?_ ?_ ?_ ?_ ?_ ?_ ?_ ?_
        · rw [(Memory.ref_frame _ _).2.1]
          exact (Memory.unref_frame m hv).2.1
        · intro p
          rw [Memory.ref_refCount]
          simp only [Memory.unref_refCount]
        · intro p
          rw [(Memory.ref_frame _ _).1]
          simp only [(Memory.unref_frame m hv).1]
          exact Handles.sharers_set _ _ _ _ _ hgv
        · intro p hp
          exact Handles.sharers_pos_of_get _ _ _ _ hgv hp
        · intro p hp
          exact Handles.sharers_pos_of_get _ _ _ _ hgs hp
        · intro p hp hq
          exact heq (hp.trans hq.symm)
        · intro p
          rw [(Memory.ref_frame _ _).2.2.1]
          exact Memory.unref_deleted m hv p
        · rw [(Memory.ref_frame _ _).2.2.1]
          exact Memory.unref_deleted_nodup m hv hinv.2.2.2
            (fun q hq => Memory.not_deleted_of_get m hinv v hv q hgv hq)

theorem Memory.Inv_write (m : Memory) (hinv : m.Inv) (v : Var) (x : Int) :
    (m.write v x).Inv := by
  unfold Memory.write
  split
  · exact hinv
  · exact hinv

theorem Memory.Inv_step (m : Memory) (hinv : m.Inv) (op : Op) : (m.step op).Inv := by
  cases op with
  | construct v x => exact Memory.Inv_construct m hinv v x
  | copy v src => exact Memory.Inv_copy m hinv v src
  | assign v src => exact Memory.Inv_assign m hinv v src
  | reset v => exact Memory.Inv_reset m hinv v
  | destroy v => exact Memory.Inv_destroy m hinv v
  | write v x => exact Memory.Inv_write m hinv v x

theorem Memory.Inv_run (ops : List Op) (m : Memory) (hinv : m.Inv) : (m.run ops).Inv := by
  induction ops generalizing m with
  | nil => exact hinv
  | cons op ops ih => exact ih _ (Memory.Inv_step m hinv op)

/-! ## `SharedPtr`: the unit tests and the effect of each statement -/

/-- The expectations of `TEST(SharedPtr, IntPtr)` and `TEST(SharedPtr, RefCount)`. -/
theorem Memory.testRefCount_expectations :
    (Memory.init.construct 0 5).read 0 = some 5 ∧
    (Memory.init.run (testRefCount.take 1)).getRefCount 0 = 1 ∧
    (Memory.init.run (testRefCount.take 2)).getRefCount 0 = 0 ∧
    (Memory.init.run (testRefCount.take 4)).getRefCount 1 = 2 ∧
    (Memory.init.run (testRefCount.take 4)).getRefCount 2 = 2 ∧
    (Memory.init.run (testRefCount.take 5)).getRefCount 0 = 3 ∧
    (Memory.init.run (testRefCount.take 5)).getRefCount 1 = 3 ∧
    (Memory.init.run (testRefCount.take 5)).getRefCount 2 = 3 ∧
    (Memory.init.run (testRefCount.take 6)).getRefCount 1 = 2 ∧
    (Memory.init.run (testRefCount.take 6)).getRefCount 2 = 2 ∧
    (Memory.init.run testRefCount).getRefCount 1 = 1 := by
  decide

/-- The expectations of `TEST(SharedPtr, DeleteIsCalled)` and `TEST(SharedPtr, Hierarchy)`:
the object is deleted when its only handle goes out of scope; four handles share a count
of 4. -/
theorem Memory.testDelete_testHierarchy_expectations :
    (Memory.init.run (testDeleteIsCalled.take 1)).deleted = [] ∧
    (Memory.init.run testDeleteIsCalled).deleted = [0] ∧
    (Memory.init.run testHierarchy).getRefCount 0 = 4 := by
  decide

/-- The expectations of `TEST(SharedPtr, Compare)`, with `==` and `!=` taken on the handles
bound to the variables. -/
theorem Memory.testCompare_expectations :
    (Memory.init.run (testCompare.take 3)).handles.get 0 =
      (Memory.init.run (testCompare.take 3)).handles.get 1 ∧
    (Memory.init.run (testCompare.take 3)).handles.get 0 ≠
      (Memory.init.run (testCompare.take 3)).handles.get 2 ∧
    (Memory.init.run (testCompare.take 3)).handles.get 1 ≠
      (Memory.init.run (testCompare.take 3)).handles.get 2 ∧
    (Memory.init.run (testCompare.take 5)).handles.get 0 ≠
      (Memory.init.run (testCompare.take 5)).handles.get 1 ∧
    (Memory.init.run (testCompare.take 5)).handles.get 0 ≠
      (Memory.init.run (testCompare.take 5)).handles.get 2 ∧
    (Memory.init.run (testCompare.take 5)).handles.get 1 =
      (Memory.init.run (testCompare.take 5)).handles.get 2 ∧
    (Memory.init.run (testCompare.take 5)).read 0 =
      (Memory.init.run (testCompare.take 5)).read 1 ∧
    (Memory.init.run (testCompare.take 5)).read 1 =
      (Memory.init.run (testCompare.take 5)).read 2 ∧
    (Memory.init.run testCompare).read 0 = some 2 ∧
    (Memory.init.run testCompare).read 1 = some 5 ∧
    (Memory.init.run testCompare).read 2 = some 5 := by
  decide

theorem Memory.getRefCount_of_get (m : Memory) (v : Var) (p : Ptr)
    (h : Handles.get m.handles v = some { m_ptr := some p }) :
    m.getRefCount v = m.refCount p := by
  simp only [Memory.getRefCount, h]

theorem Memory.getRefCount_of_empty (m : Memory) (v : Var)
    (h : Handles.get m.handles v = some { m_ptr := none }) :
    m.getRefCount v = 0 := by
  simp only [Memory.getRefCount, h]

theorem Memory.lt_next_of_get (m : Memory) (hinv : m.Inv) (v : Var) (p : Ptr)
    (h : Handles.get m.handles v = some { m_ptr := some p }) : p < m.next := by
  by_contra hcon
  have h0 := hinv.2.1 p (Nat.le_of_not_lt hcon)
  have h1 := Handles.sharers_pos_of_get _ _ _ p h rfl
  omega

theorem Memory.construct_effect (m : Memory) (a : Var) (x : Int)
    (ha : Handles.get m.handles a = none) :
    Handles.get (m.construct a x).handles a = some { m_ptr := some m.next } ∧
    (m.construct a x).getRefCount a = 1 ∧
    (m.construct a x).read a = some x ∧
    (∀ w, w ≠ a → Handles.get (m.construct a x).handles w = Handles.get m.handles w) := by
  have hm : m.construct a x =
      { value := Function.update m.value m.next x
        refCount := Function.update (Function.update m.refCount m.next 0) m.next 1
        deleted := m.deleted
        next := m.next + 1
        handles := (a, { m_ptr := some m.next }) :: m.handles } := by
    simp [Memory.construct, ha, Memory.ref]
  have hg : Handles.get (m.construct a x).handles a = some { m_ptr := some m.next } := by
    rw [hm]
    simp [Handles.get]
  refine ⟨hg, ?_, ?_, ?_⟩
  · rw [Memory.getRefCount_of_get _ _ _ hg, hm]
    simp
  · simp only [Memory.read, hg]
    rw [hm]
    simp
  · intro w hw
    rw [hm]
    have hne : ¬ a = w := fun h => hw h.symm
    simp [Handles.get, hne]

theorem Memory.copy_effect (m : Memory) (a v : Var) (h : SharedPtr)
    (ha : Handles.get m.handles a = none) (hv : Handles.get m.handles v = some h) :
    Handles.get (m.copy a v).handles a = some h ∧
    Handles.get (m.copy a v).handles v = some h ∧
    (∀ p, (m.copy a v).refCount p = m.refCount p + (if h.m_ptr = some p then 1 else 0)) := by
  have hne : ¬ a = v := by
    intro heq
    rw [heq, hv] at ha
    cases ha
  have hm : m.copy a v = Memory.ref { m with handles := (a, h) :: m.handles } h := by
    simp only [Memory.copy, ha, hv]
  rw [hm]
  refine ⟨?_, ?_, ?_⟩
  · rw [(Memory.ref_frame _ _).1]
    simp [Handles.get]
  · rw [(Memory.ref_frame _ _).1]
    simp [Handles.get, hne, hv]
  · intro p
    rw [Memory.ref_refCount]

theorem Memory.assign_effect (m : Memory) (a v : Var) (ha hv : SharedPtr)
    (hga : Handles.get m.handles a = some ha) (hgv : Handles.get m.handles v = some hv)
    (hne : ha.m_ptr ≠ hv.m_ptr) :
    Handles.get (m.assign a v).handles a = some hv ∧
    (∀ w, w ≠ a → Handles.get (m.assign a v).handles w = Handles.get m.handles w) ∧
    (∀ p, (m.assign a v).refCount p =
      m.refCount p - (if ha.m_ptr = some p then 1 else 0) +
        (if hv.m_ptr = some p then 1 else 0)) := by
  have hm : m.assign a v =
      Memory.ref { m.unref ha with handles := Handles.set (m.unref ha).handles a hv } hv := by
    simp only [Memory.assign, hga, hgv, hne, if_false]
  rw [hm]
  refine ⟨?_, ?_, ?_⟩
  · rw [(Memory.ref_frame _ _).1]
    simp only [(Memory.unref_frame m ha).1]
    exact Handles.get_set_self _ _ _ _ hga
  · intro w hw
    rw [(Memory.ref_frame _ _).1]
    simp only [(Memory.unref_frame m ha).1]
    exact Handles.get_set_other _ _ _ _ hw
  · intro p
    rw [Memory.ref_refCount]
    simp only [Memory.unref_refCount]

theorem Memory.reset_effect (m : Memory) (a : Var) (ha : SharedPtr)
    (hga : Handles.get m.handles a = some ha) :
    Handles.get (m.reset a).handles a = some { m_ptr := none } ∧
    (m.reset a).getRefCount a = 0 ∧
    (∀ w, w ≠ a → Handles.get (m.reset a).handles w = Handles.get m.handles w) ∧
    (∀ p, (m.reset a).refCount p = m.refCount p - (if ha.m_ptr = some p then 1 else 0)) ∧
    (∀ p, Handles.sharers (m.reset a).handles p + (if ha.m_ptr = some p then 1 else 0) =
      Handles.sharers m.handles p) := by
  have hm : m.reset a =
      { m.unref ha with
        handles := Handles.set (m.unref ha).handles a { m_ptr := none } } := by
    simp only [Memory.reset, hga]
  have hg : Handles.get (m.reset a).handles a = some { m_ptr := none } := by
    rw [hm]
    simp only [(Memory.unref_frame m ha).1]
    exact Handles.get_set_self _ _ _ _ hga
  refine ⟨hg, Memory.getRefCount_of_empty _ _ hg, ?_, ?_, ?_⟩
  · intro w hw
    rw [hm]
    simp only [(Memory.unref_frame m ha).1]
    exact Handles.get_set_other _ _ _ _ hw
  · intro p
    rw [hm]
    simp only [Memory.unref_refCount]
  · intro p
    rw [hm]
    simp only [(Memory.unref_frame m ha).1]
    have := Handles.sharers_set m.handles a ha { m_ptr := none } p hga
    simpa using this

theorem Memory.destroy_effect (m : Memory) (a : Var) (ha : SharedPtr)
    (hga : Handles.get m.handles a = some ha) :
    (∀ w, w ≠ a → Handles.get (m.destroy a).handles w = Handles.get m.handles w) ∧
    (∀ p, (m.destroy a).refCount p = m.refCount p - (if ha.m_ptr = some p then 1 else 0)) ∧
    (∀ p, Handles.sharers (m.destroy a).handles p + (if ha.m_ptr = some p then 1 else 0) =
      Handles.sharers m.handles p) := by
  have hm : m.destroy a =
      { m.unref ha with handles := Handles.remove (m.unref ha).handles a } := by
    simp only [Memory.destroy, hga]
  refine ⟨?_, ?_, ?_⟩
  · intro w hw
    rw [hm]
    simp only [(Memory.unref_frame m ha).1]
    exact Handles.get_remove_other _ _ _ hw
  · intro p
    rw [hm]
    simp only [Memory.unref_refCount]
  · intro p
    rw [hm]
    simp only [(Memory.unref_frame m ha).1]
    exact Handles.sharers_remove m.handles a ha p hga

theorem Memory.Inv_of_reachable (m : Memory) (h : m.Reachable) : m.Inv := by
  obtain ⟨ops, rfl⟩ := h
  exact Memory.Inv_run ops _ Memory.Inv_init

theorem Memory.reset_deleted (m : Memory) (a : Var) (ha : SharedPtr) (p : Ptr)
    (hga : Handles.get m.handles a = some ha) :
    p ∈ (m.reset a).deleted ↔
      p ∈ m.deleted ∨ (ha.m_ptr = some p ∧ m.refCount p - 1 = 0) := by
  have hm : (m.reset a).deleted = (m.unref ha).deleted := by
    simp only [Memory.reset, hga]
  rw [hm]
  exact Memory.unref_deleted m ha p

theorem Memory.destroy_deleted (m : Memory) (a : Var) (ha : SharedPtr) (p : Ptr)
    (hga : Handles.get m.handles a = some ha) :
    p ∈ (m.destroy a).deleted ↔
      p ∈ m.deleted ∨ (ha.m_ptr = some p ∧ m.refCount p - 1 = 0) := by
  have hm : (m.destroy a).deleted = (m.unref ha).deleted := by
    simp only [Memory.destroy, hga]
  rw [hm]
  exact Memory.unref_deleted m ha p

/-! ## `SharedPtr`: the claims -/

/-- C15: reference-count invariant.  In every memory a program can reach, `getRefCount()` on
a handle managing an object is the number of live handles managing that object, so all
handles sharing it report the same count.  The count is 1 right after construction from a
new object; it grows by 1 with each copy-construction from a sharing handle and with each
assignment from a sharing handle to a handle not yet sharing; it drops by 1 when another
sharing handle is reset or goes out of scope. -/
theorem Memory.getRefCount_counts_sharing_handles (m : Memory) (hreach : m.Reachable)
    (v : Var) (p : Ptr) (hv : Handles.get m.handles v = some { m_ptr := some p }) :
    m.getRefCount v = Handles.sharers m.handles p ∧
    (∀ w, Handles.get m.handles w = some { m_ptr := some p } →
      m.getRefCount w = m.getRefCount v) ∧
    (∀ a x, Handles.get m.handles a = none → (m.construct a x).getRefCount a = 1) ∧
    (∀ a, Handles.get m.handles a = none →
      (m.copy a v).getRefCount v = m.getRefCount v + 1 ∧
      (m.copy a v).getRefCount a = m.getRefCount v + 1) ∧
    (∀ a ha, Handles.get m.handles a = some ha → ha.m_ptr ≠ some p →
      (m.assign a v).getRefCount v = m.getRefCount v + 1 ∧
      (m.assign a v).getRefCount a = m.getRefCount v + 1) ∧
    (∀ a, a ≠ v → Handles.get m.handles a = some { m_ptr := some p } →
      (m.reset a).getRefCount v + 1 = m.getRefCount v ∧
      (m.destroy a).getRefCount v + 1 = m.getRefCount v) := by
  have hinv := Memory.Inv_of_reachable m hreach
  have hrc : m.getRefCount v = m.refCount p := Memory.getRefCount_of_get m v p hv
  have hpos : 1 ≤ Handles.sharers m.handles p := Handles.sharers_pos_of_get _ _ _ p hv rfl
  have h1 := hinv.1 p
  refine ⟨by rw [hrc, h1], ?_, ?_, ?_, ?_, ?_⟩
  · intro w hw
    rw [hrc, Memory.getRefCount_of_get m w p hw]
  · intro a x ha
    exact (Memory.construct_effect m a x ha).2.1
  · intro a ha
    obtain ⟨e1, e2, e3⟩ := Memory.copy_effect m a v _ ha hv
    rw [Memory.getRefCount_of_get _ v p e2, Memory.getRefCount_of_get _ a p e1, e3 p, hrc]
    simp
  · intro a ha hga hne
    have hav : a ≠ v := by
      intro heq
      rw [heq, hv] at hga
      cases hga
      exact hne rfl
    have hne2 : ha.m_ptr ≠ ({ m_ptr := some p } : SharedPtr).m_ptr := hne
    obtain ⟨e1, e2, e3⟩ := Memory.assign_effect m a v ha _ hga hv hne2
    have ev : Handles.get (m.assign a v).handles v = some { m_ptr := some p } := by
      rw [e2 v (Ne.symm hav), hv]
    rw [Memory.getRefCount_of_get _ v p ev, Memory.getRefCount_of_get _ a p e1, e3 p, hrc]
    simp [hne]
  · intro a hav hga
    obtain ⟨-, -, r3, r4, -⟩ := Memory.reset_effect m a _ hga
    obtain ⟨d1, d2, -⟩ := Memory.destroy_effect m a _ hga
    have ev1 : Handles.get (m.reset a).handles v = some { m_ptr := some p } := by
      rw [r3 v (Ne.symm hav), hv]
    have ev2 : Handles.get (m.destroy a).handles v = some { m_ptr := some p } := by
      rw [d1 v (Ne.symm hav), hv]
    rw [Memory.getRefCount_of_get _ v p ev1, Memory.getRefCount_of_get _ v p ev2, r4 p, d2 p,
      hrc]
    simp only [if_true]
    omega

/-- Witness for C15: after `SharedPtr<int> b(new int(5)); SharedPtr<int> c(b);` of the
RefCount test (preceded by the construction and reset of `a`), `b` manages object 1. -/
theorem Memory.getRefCount_counts_sharing_handles_witness :
    ((Memory.init.run (testRefCount.take 4)).Reachable ∧
      Handles.get (Memory.init.run (testRefCount.take 4)).handles 1 =
        some { m_ptr := some 1 }) ∧
    (Memory.init.run (testRefCount.take 4)).getRefCount 1 =
      Handles.sharers (Memory.init.run (testRefCount.take 4)).handles 1 ∧
    (Memory.init.run (testRefCount.take 4)).getRefCount 1 = 2 :=
  ⟨⟨⟨testRefCount.take 4, rfl⟩, by decide⟩,
    (Memory.getRefCount_counts_sharing_handles _ ⟨testRefCount.take 4, rfl⟩ 1 1
      (by decide)).1,
    by decide⟩

/-- C16: in every memory a program can reach, an allocated object has been deleted exactly
when no live handle manages it, and no object is deleted twice.  While a handle manages an
object the object is not deleted; resetting or destroying the only handle managing it deletes
it, and with two or more sharing handles resetting or destroying one of them does not. -/
theorem Memory.deleted_iff_no_sharing_handle (m : Memory) (hreach : m.Reachable) (p : Ptr) :
    (p ∈ m.deleted ↔ p < m.next ∧ Handles.sharers m.handles p = 0) ∧
    m.deleted.Nodup ∧
    (∀ a, Handles.get m.handles a = some { m_ptr := some p } →
      p ∉ m.deleted ∧
      (Handles.sharers m.handles p = 1 →
        p ∈ (m.destroy a).deleted ∧ p ∈ (m.reset a).deleted ∧
        (m.destroy a).deleted.Nodup ∧ (m.reset a).deleted.Nodup) ∧
      (2 ≤ Handles.sharers m.handles p →
        p ∉ (m.destroy a).deleted ∧ p ∉ (m.reset a).deleted)) := by
  have hinv := Memory.Inv_of_reachable m hreach
  have h1 := hinv.1 p
  refine ⟨?_, hinv.2.2.2, ?_⟩
  · rw [hinv.2.2.1 p, h1]
  · intro a hga
    have hnd := Memory.not_deleted_of_get m hinv a _ p hga rfl
    refine ⟨hnd, ?_, ?_⟩
    · intro hone
      have hz : m.refCount p - 1 = 0 := by omega
      exact ⟨(Memory.destroy_deleted m a _ p hga).2 (Or.inr ⟨rfl, hz⟩),
        (Memory.reset_deleted m a _ p hga).2 (Or.inr ⟨rfl, hz⟩),
        (Memory.Inv_destroy m hinv a).2.2.2, (Memory.Inv_reset m hinv a).2.2.2⟩
    · intro htwo
      have hz : ¬ m.refCount p - 1 = 0 := by omega
      refine ⟨?_, ?_⟩
      · intro hmem
        rcases (Memory.destroy_deleted m a _ p hga).1 hmem with h | ⟨_, h⟩
        · exact hnd h
        · exact hz h
      · intro hmem
        rcases (Memory.reset_deleted m a _ p hga).1 hmem with h | ⟨_, h⟩
        · exact hnd h
        · exact hz h

/-- Witness for C16: in the DeleteIsCalled test the object 0 is managed by the single handle
`a`; it is not deleted before the end of the scope and deleted once after it. -/
theorem Memory.deleted_iff_no_sharing_handle_witness :
    ((Memory.init.run (testDeleteIsCalled.take 1)).Reachable ∧
      Handles.get (Memory.init.run (testDeleteIsCalled.take 1)).handles 0 =
        some { m_ptr := some 0 } ∧
      Handles.sharers (Memory.init.run (testDeleteIsCalled.take 1)).handles 0 = 1) ∧
    (0 ∉ (Memory.init.run (testDeleteIsCalled.take 1)).deleted ∧
      0 ∈ ((Memory.init.run (testDeleteIsCalled.take 1)).destroy 0).deleted ∧
      ((Memory.init.run (testDeleteIsCalled.take 1)).destroy 0).deleted.Nodup) :=
  ⟨⟨⟨testDeleteIsCalled.take 1, rfl⟩, by decide, by decide⟩,
    ((Memory.deleted_iff_no_sharing_handle _ ⟨testDeleteIsCalled.take 1, rfl⟩ 0).2.2 0
      (by decide)).1,
    (((Memory.deleted_iff_no_sharing_handle _ ⟨testDeleteIsCalled.take 1, rfl⟩ 0).2.2 0
      (by decide)).2.1 (by decide)).1,
    (((Memory.deleted_iff_no_sharing_handle _ ⟨testDeleteIsCalled.take 1, rfl⟩ 0).2.2 0
      (by decide)).2.1 (by decide)).2.2.1⟩

/-- C17: in every memory a program can reach, after `a.reset()` the handle `a` is empty and
`a.getRefCount()` is 0 whatever `a` managed before; every other handle is bound as before,
and for the other handles that shared the object of `a` the count is exactly one less than
before the reset. -/
theorem Memory.reset_empties_and_decrements (m : Memory) (hreach : m.Reachable) (a : Var)
    (ha : SharedPtr) (hga : Handles.get m.handles a = some ha) :
    Handles.get (m.reset a).handles a = some { m_ptr := none } ∧
    (m.reset a).getRefCount a = 0 ∧
    (∀ b, b ≠ a → Handles.get (m.reset a).handles b = Handles.get m.handles b) ∧
    (∀ b p, b ≠ a → ha.m_ptr = some p →
      Handles.get m.handles b = some { m_ptr := some p } →
      (m.reset a).getRefCount b + 1 = m.getRefCount b) := by
  have hinv := Memory.Inv_of_reachable m hreach
  obtain ⟨r1, r2, r3, r4, -⟩ := Memory.reset_effect m a ha hga
  refine ⟨r1, r2, r3, ?_⟩
  intro b p hba hp hgb
  have eb : Handles.get (m.reset a).handles b = some { m_ptr := some p } := by
    rw [r3 b hba, hgb]
  have hpos : 1 ≤ Handles.sharers m.handles p := Handles.sharers_pos_of_get _ _ _ p hgb rfl
  have h1 := hinv.1 p
  rw [Memory.getRefCount_of_get _ b p eb, Memory.getRefCount_of_get _ b p hgb, r4 p]
  simp only [hp, if_true]
  omega

/-- Witness for C17: in the RefCount test, after `a = c` the three handles share object 1
with count 3; `a.reset()` leaves `a` empty with count 0 and `b` with count 2. -/
theorem Memory.reset_empties_and_decrements_witness :
    ((Memory.init.run (testRefCount.take 5)).Reachable ∧
      Handles.get (Memory.init.run (testRefCount.take 5)).handles 0 =
        some { m_ptr := some 1 } ∧
      Handles.get (Memory.init.run (testRefCount.take 5)).handles 1 =
        some { m_ptr := some 1 }) ∧
    ((Memory.init.run (testRefCount.take 5)).reset 0).getRefCount 0 = 0 ∧
    ((Memory.init.run (testRefCount.take 5)).reset 0).getRefCount 1 + 1 =
      (Memory.init.run (testRefCount.take 5)).getRefCount 1 ∧
    (Memory.init.run (testRefCount.take 5)).getRefCount 1 = 3 :=
  ⟨⟨⟨testRefCount.take 5, rfl⟩, by decide, by decide⟩,
    (Memory.reset_empties_and_decrements _ ⟨testRefCount.take 5, rfl⟩ 0
      { m_ptr := some 1 } (by decide)).2.1,
    (Memory.reset_empties_and_decrements _ ⟨testRefCount.take 5, rfl⟩ 0
      { m_ptr := some 1 } (by decide)).2.2.2 1 1 (by decide) rfl (by decide),
    by decide⟩

/-- C18: handle equality compares pointers, not pointed-to values: `a == b` holds exactly
when both handles manage the same pointer and `a != b` is its negation; in every memory a
program can reach, a copy of a handle and a handle assigned from it compare equal to it, and
a handle constructed from a new object compares unequal to every other live handle, whatever
the values the objects hold. -/
theorem SharedPtr.eq_compares_pointers (m : Memory) (hreach : m.Reachable) :
    (∀ x y : SharedPtr, (x.eq y = true ↔ x.m_ptr = y.m_ptr) ∧ x.ne y = !(x.eq y)) ∧
    (∀ a v hv, Handles.get m.handles a = none → Handles.get m.handles v = some hv →
      ∃ x y, Handles.get (m.copy a v).handles a = some x ∧
        Handles.get (m.copy a v).handles v = some y ∧ x.eq y = true) ∧
    (∀ a v ha hv, Handles.get m.handles a = some ha → Handles.get m.handles v = some hv →
      ∃ x y, Handles.get (m.assign a v).handles a = some x ∧
        Handles.get (m.assign a v).handles v = some y ∧ x.eq y = true) ∧
    (∀ a w hw value, Handles.get m.handles a = none → Handles.get m.handles w = some hw →
      ∃ x y, Handles.get (m.construct a value).handles a = some x ∧
        Handles.get (m.construct a value).handles w = some y ∧
        (m.construct a value).read a = some value ∧
        x.ne y = true ∧ x.eq y = false) := by
  have hinv := Memory.Inv_of_reachable m hreach
  refine ⟨?_, ?_, ?_, ?_⟩
  · intro x y
    refine ⟨?_, rfl⟩
    simp [SharedPtr.eq]
  · intro a v hv ha hgv
    obtain ⟨e1, e2, -⟩ := Memory.copy_effect m a v hv ha hgv
    exact ⟨hv, hv, e1, e2, by simp [SharedPtr.eq]⟩
  · intro a v ha hv hga hgv
    by_cases heq : ha.m_ptr = hv.m_ptr
    · have hm : m.assign a v = m := by
        simp only [Memory.assign, hga, hgv, heq, if_true]
      rw [hm]
      exact ⟨ha, hv, hga, hgv, by simp [SharedPtr.eq, heq]⟩
    · obtain ⟨e1, e2, -⟩ := Memory.assign_effect m a v ha hv hga hgv heq
      have hav : v ≠ a := by
        intro h
        rw [h, hga] at hgv
        cases hgv
        exact heq rfl
      exact ⟨hv, hv, e1, by rw [e2 v hav, hgv], by simp [SharedPtr.eq]⟩
  · intro a w hw value ha hgw
    obtain ⟨e1, -, e3, e4⟩ := Memory.construct_effect m a value ha
    have hwa : w ≠ a := by
      intro h
      rw [h, ha] at hgw
      cases hgw
    have hne : (some m.next : Option Ptr) ≠ hw.m_ptr := by
      intro h
      have hgw2 : Handles.get m.handles w = some { m_ptr := some m.next } := by
        rw [hgw, h]
      exact absurd (Memory.lt_next_of_get m hinv w m.next hgw2) (Nat.lt_irrefl _)
    refine ⟨{ m_ptr := some m.next }, hw, e1, by rw [e4 w hwa, hgw], e3, ?_, ?_⟩
    · simp [SharedPtr.ne, SharedPtr.eq, hne]
    · simp [SharedPtr.eq, hne]

/-- Witness for C18: in the Compare test, `c` is constructed from a new object holding the
same value 0 as the object of `a` and `b`, and compares unequal to `a`. -/
theorem SharedPtr.eq_compares_pointers_witness :
    ((Memory.init.run (testCompare.take 2)).Reachable ∧
      Handles.get (Memory.init.run (testCompare.take 2)).handles 2 = none ∧
      Handles.get (Memory.init.run (testCompare.take 2)).handles 0 =
        some { m_ptr := some 0 }) ∧
    ∃ x y, Handles.get ((Memory.init.run (testCompare.take 2)).construct 2 0).handles 2 =
        some x ∧
      Handles.get ((Memory.init.run (testCompare.take 2)).construct 2 0).handles 0 = some y ∧
      ((Memory.init.run (testCompare.take 2)).construct 2 0).read 2 = some 0 ∧
      x.ne y = true ∧ x.eq y = false :=
  ⟨⟨⟨testCompare.take 2, rfl⟩, by decide, by decide⟩,
    (SharedPtr.eq_compares_pointers _ ⟨testCompare.take 2, rfl⟩).2.2.2 2 0
      { m_ptr := some 0 } 0 (by decide) (by decide)⟩

/-- C19: handles that share an object alias it: after `*v = x` through a handle managing the
object `p`, every handle managing `p` reads `x`, every handle managing another object reads
what it read before, and no handle is rebound.  In the Compare test, after `a = c; c = b;
*a = 2; *b = 5`, `*a` is 2 and `*b` and `*c` are both 5. -/
theorem Memory.write_aliases_sharing_handles (m : Memory) (v : Var) (p : Ptr) (x : Int)
    (hv : Handles.get m.handles v = some { m_ptr := some p }) :
    (m.write v x).handles = m.handles ∧
    (m.write v x).read v = some x ∧
    (∀ w, Handles.get m.handles w = some { m_ptr := some p } →
      (m.write v x).read w = some x) ∧
    (∀ w q, q ≠ p → Handles.get m.handles w = some { m_ptr := some q } →
      (m.write v x).read w = m.read w) ∧
    ((Memory.init.run testCompare).read 0 = some 2 ∧
      (Memory.init.run testCompare).read 1 = some 5 ∧
      (Memory.init.run testCompare).read 2 = some 5) := by
  have hm : m.write v x = { m with value := Function.update m.value p x } := by
    simp only [Memory.write, hv]
  rw [hm]
  refine ⟨rfl, ?_, ?_, ?_, by decide⟩
  · simp [Memory.read, hv]
  · intro w hw
    simp [Memory.read, hw]
  · intro w q hq hw
    simp [Memory.read, hw, Function.update, hq]

/-- Witness for C19: in the Compare test, before the writes, `b` and `c` manage object 0 and
`a` manages object 1; `*b = 5` is read through `c` and not through `a`. -/
theorem Memory.write_aliases_sharing_handles_witness :
    Handles.get (Memory.init.run (testCompare.take 5)).handles 1 = some { m_ptr := some 0 } ∧
    ((Memory.init.run (testCompare.take 5)).write 1 5).read 2 = some 5 ∧
    ((Memory.init.run (testCompare.take 5)).write 1 5).read 0 =
      (Memory.init.run (testCompare.take 5)).read 0 :=
  ⟨by decide,
    (Memory.write_aliases_sharing_handles _ 1 0 5 (by decide)).2.2.1 2 (by decide),
    (Memory.write_aliases_sharing_handles _ 1 0 5 (by decide)).2.2.2.1 0 1 (by decide)
      (by decide)⟩

/-! ## General settings, scrolling and grid snapping -/

/-- C21: the code does not do what the claim says.  `UISettingsImpl::setBgColor(color)` calls
`setFgColor` on the colour bar: afterwards `getBgColor()` still returns the old background
colour and `getFgColor()` returns `color`; on the sample colour bar (foreground 1,
background 2) `setBgColor(3)` leaves the background at 2 and turns the foreground into 3. -/
theorem UISettingsImpl.setBgColor_sets_foreground (color : app.Color) (bar : ColorBar) :
    UISettingsImpl.setBgColor color bar = UISettingsImpl.setFgColor color bar ∧
    UISettingsImpl.getBgColor (UISettingsImpl.setBgColor color bar) =
      UISettingsImpl.getBgColor bar ∧
    UISettingsImpl.getFgColor (UISettingsImpl.setBgColor color bar) = color ∧
    UISettingsImpl.getBgColor (UISettingsImpl.setBgColor 3 sampleColorBar) = 2 ∧
    UISettingsImpl.getBgColor (UISettingsImpl.setBgColor 3 sampleColorBar) ≠ 3 ∧
    UISettingsImpl.getFgColor (UISettingsImpl.setBgColor 3 sampleColorBar) = 3 ∧
    UISettingsImpl.getFgColor (UISettingsImpl.setBgColor 3 sampleColorBar) ≠
      UISettingsImpl.getFgColor sampleColorBar :=
  ⟨rfl, rfl, rfl, by decide, by decide, by decide, by decide⟩

theorem MAX_eq_max (x y : Int) : MAX x y = max x y := by
  unfold MAX
  split <;> omega

theorem MIN_eq_min (x y : Int) : MIN x y = min x y := by
  unfold MIN
  split <;> omega

theorem MID_eq_max_min (x y z : Int) : MID x y z = max x (min y z) := by
  rw [MID, MAX_eq_max, MIN_eq_min]

theorem wrapInt_of_isInt (x : Int) (h : isInt x) : wrapInt x = x := by
  unfold isInt INT_MIN INT_MAX at h
  unfold wrapInt
  omega

theorem isInt_wrapInt (x : Int) : isInt (wrapInt x) := by
  unfold isInt INT_MIN INT_MAX wrapInt
  omega

theorem View.getViewScroll_setViewScroll (v : View) (pt : Point) :
    (v.setViewScroll pt).getViewScroll =
      { x := MID 0 pt.x (MAX 0 (wrapInt (v.getScrollableSize.w - v.getVisibleSize.w)))
        y := MID 0 pt.y (MAX 0 (wrapInt (v.getScrollableSize.h - v.getVisibleSize.h))) } := by
  unfold View.setViewScroll
  simp only
  split
  · rename_i h
    exact h.symm
  · rfl

/-- C22 as stated fails when the subtraction overflows: with a scrollable width of `INT_MAX`
and a visible width of -4 the `int` difference wraps to a negative value, the upper limit
becomes 0 and `setViewScroll` of the point (50, 60) establishes x = 0, whereas
`max(0, min(50, max(0, scrollableWidth - visibleWidth)))` is 50 and the point is in range. -/
theorem View.setViewScroll_overflow_clamps_to_zero :
    sampleWideView.getScrollableSize.w = 2147483647 ∧
    sampleWideView.getVisibleSize.w = -4 ∧
    (sampleWideView.setViewScroll { x := 50, y := 60 }).getViewScroll = { x := 0, y := 60 } ∧
    max 0 (min 50 (max 0
      (sampleWideView.getScrollableSize.w - sampleWideView.getVisibleSize.w))) = 50 ∧
    (sampleWideView.setViewScroll { x := 50, y := 60 }).getViewScroll ≠
      { x := max 0 (min 50 (max 0
          (sampleWideView.getScrollableSize.w - sampleWideView.getVisibleSize.w)))
        y := max 0 (min 60 (max 0
          (sampleWideView.getScrollableSize.h - sampleWideView.getVisibleSize.h))) } := by
  decide

/-- C22, amended: when the differences `scrollableWidth - visibleWidth` and
`scrollableHeight - visibleHeight` are representable as `int`, `View::setViewScroll(pt)`
clamps each coordinate on its own: the scroll it establishes is
`max(0, min(pt.x, max(0, scrollableWidth - visibleWidth)))` and the same for `y`; the scroll
therefore lies in `[0, max(0, scrollable - visible)]` on each axis, a point already in that
range is adopted unchanged, and when the clamped point is the current scroll the view is not
modified at all (no scroll bar write, no viewport layout, no invalidation).  The scrollable
and the visible size are never changed. -/
theorem View.setViewScroll_clamps (v : View) (pt : Point)
    (hw : isInt (v.getScrollableSize.w - v.getVisibleSize.w))
    (hh : isInt (v.getScrollableSize.h - v.getVisibleSize.h)) :
    (v.setViewScroll pt).getViewScroll =
      { x := max 0 (min pt.x (max 0 (v.getScrollableSize.w - v.getVisibleSize.w)))
        y := max 0 (min pt.y (max 0 (v.getScrollableSize.h - v.getVisibleSize.h))) } ∧
    (0 ≤ (v.setViewScroll pt).getViewScroll.x ∧
      (v.setViewScroll pt).getViewScroll.x ≤
        max 0 (v.getScrollableSize.w - v.getVisibleSize.w)) ∧
    (0 ≤ (v.setViewScroll pt).getViewScroll.y ∧
      (v.setViewScroll pt).getViewScroll.y ≤
        max 0 (v.getScrollableSize.h - v.getVisibleSize.h)) ∧
    (0 ≤ pt.x ∧ pt.x ≤ max 0 (v.getScrollableSize.w - v.getVisibleSize.w) ∧
      0 ≤ pt.y ∧ pt.y ≤ max 0 (v.getScrollableSize.h - v.getVisibleSize.h) →
      (v.setViewScroll pt).getViewScroll = pt) ∧
    (({ x := max 0 (min pt.x (max 0 (v.getScrollableSize.w - v.getVisibleSize.w)))
        y := max 0 (min pt.y (max 0 (v.getScrollableSize.h - v.getVisibleSize.h))) } : Point) =
        v.getViewScroll →
      v.setViewScroll pt = v) ∧
    (v.setViewScroll pt).getScrollableSize = v.getScrollableSize ∧
    (v.setViewScroll pt).getVisibleSize = v.getVisibleSize := by
  have hs := View.getViewScroll_setViewScroll v pt
  simp only [MID_eq_max_min, MAX_eq_max, wrapInt_of_isInt _ hw, wrapInt_of_isInt _ hh] at hs
  refine ⟨hs, ?_, ?_, ?_, ?_, ?_, ?_⟩
  · rw [hs]
    simp only
    omega
  · rw [hs]
    simp only
    omega
  · rintro ⟨h1, h2, h3, h4⟩
    rw [hs]
    cases pt with
    | mk px py =>
      simp only at h1 h2 h3 h4
      simp only [Point.mk.injEq]
      omega
  · intro h
    unfold View.setViewScroll
    simp only [MID_eq_max_min, MAX_eq_max, wrapInt_of_isInt _ hw, wrapInt_of_isInt _ hh, h,
      if_true]
  · unfold View.setViewScroll
    simp only
    split <;> rfl
  · unfold View.setViewScroll
    simp only
    split <;> rfl

/-- Witness for C22 (amended) on the sample view (100 x 80 visible of 300 x 400, scrolled to
(10, 20)): the differences 200 and 320 are representable, the in-range point (50, 60) is
adopted and the current scroll (10, 20) modifies nothing. -/
theorem View.setViewScroll_clamps_witness :
    (isInt (sampleView.getScrollableSize.w - sampleView.getVisibleSize.w) ∧
      isInt (sampleView.getScrollableSize.h - sampleView.getVisibleSize.h) ∧
      (0 : Int) ≤ 50 ∧
      (50 : Int) ≤ max 0 (sampleView.getScrollableSize.w - sampleView.getVisibleSize.w) ∧
      (0 : Int) ≤ 60 ∧
      (60 : Int) ≤ max 0 (sampleView.getScrollableSize.h - sampleView.getVisibleSize.h)) ∧
    (sampleView.setViewScroll { x := 50, y := 60 }).getViewScroll = { x := 50, y := 60 } ∧
    sampleView.setViewScroll { x := 10, y := 20 } = sampleView ∧
    (sampleView.setViewScroll { x := 500, y := -3 }).getViewScroll = { x := 200, y := 0 } :=
  ⟨by decide,
    (View.setViewScroll_clamps sampleView { x := 50, y := 60 } (by decide)
      (by decide)).2.2.2.1 (by decide),
    (View.setViewScroll_clamps sampleView { x := 10, y := 20 } (by decide)
      (by decide)).2.2.2.2.1 (by decide),
    by decide⟩

theorem UIDocumentSettingsImpl.snapToGrid_eq_snapAxis (s : UIDocumentSettingsImpl)
    (point : Point) (snapBehavior : SnapBehavior) :
    s.snapToGrid point snapBehavior =
      { x := snapAxis s.m_gridBounds.x s.m_gridBounds.w
          (if snapBehavior &&& SnapInRightBottom ≠ 0 then 1 else 0) point.x
        y := snapAxis s.m_gridBounds.y s.m_gridBounds.h
          (if snapBehavior &&& SnapInRightBottom ≠ 0 then 1 else 0) point.y } := rfl

theorem snapAxis_eq_exact (origin cell p : Int) (h : snapAxis.NoOverflow origin cell p) :
    snapAxis origin cell 0 p = snapAxisExact origin cell p := by
  obtain ⟨hc, h1, h2, h3, h4⟩ := h
  unfold snapAxis snapAxisExact div
  simp only [Int.sub_zero, wrapInt_of_isInt _ hc, wrapInt_of_isInt _ h1,
    wrapInt_of_isInt _ h2, wrapInt_of_isInt _ h3, wrapInt_of_isInt _ h4]

theorem snapAxisExact_form (origin cell p : Int) :
    ∃ k : Int, snapAxisExact origin cell p = origin.tmod cell + k * cell := by
  unfold snapAxisExact
  split
  · refine ⟨(p - origin.tmod cell).tdiv cell + 1, ?_⟩
    rw [Int.add_mul, Int.one_mul, Int.add_assoc]
  · refine ⟨(p - origin.tmod cell).tdiv cell, ?_⟩
    rw [Int.add_zero]

theorem snapAxisExact_dvd (origin cell p : Int) :
    cell ∣ snapAxisExact origin cell p - origin := by
  obtain ⟨k, hk⟩ := snapAxisExact_form origin cell p
  have ho : cell * origin.tdiv cell + origin.tmod cell = origin := Int.tdiv_add_tmod origin cell
  refine ⟨k - origin.tdiv cell, ?_⟩
  rw [hk]
  linear_combination ho

theorem snapAxisExact_fixed (origin cell k : Int) (hcell : 0 < cell) :
    snapAxisExact origin cell (origin.tmod cell + k * cell) = origin.tmod cell + k * cell := by
  have hne : cell ≠ 0 := Int.ne_of_gt hcell
  have hhalf : 0 ≤ cell.tdiv 2 := Int.tdiv_nonneg (Int.le_of_lt hcell) (by decide)
  have hsub : origin.tmod cell + k * cell - origin.tmod cell = k * cell := by omega
  unfold snapAxisExact
  simp only [hsub, Int.mul_tdiv_cancel k hne, Int.mul_tmod_left]
  have hnot : ¬ (0 > cell.tdiv 2) := by omega
  simp only [hnot, if_false, Int.add_zero]

theorem snapAxisExact_idempotent (origin cell p : Int) (hcell : 0 < cell) :
    snapAxisExact origin cell (snapAxisExact origin cell p) = snapAxisExact origin cell p := by
  obtain ⟨k, hk⟩ := snapAxisExact_form origin cell p
  rw [hk]
  exact snapAxisExact_fixed origin cell k hcell

theorem snapAxisExact_near_of_nonneg (origin cell p : Int) (hcell : 0 < cell)
    (hp : origin.tmod cell ≤ p) :
    -(cell.tdiv 2) ≤ snapAxisExact origin cell p - p ∧
    snapAxisExact origin cell p - p ≤ cell.tdiv 2 := by
  have hn : 0 ≤ p - origin.tmod cell := by omega
  have hr0 : 0 ≤ (p - origin.tmod cell).tmod cell := Int.tmod_nonneg cell hn
  have hr1 : (p - origin.tmod cell).tmod cell < cell := Int.tmod_lt_of_pos _ hcell
  have hsum := Int.tmod_add_tdiv' (p - origin.tmod cell) cell
  have hhalf : cell.tdiv 2 = cell / 2 :=
    Int.tdiv_eq_ediv (Int.le_of_lt hcell) (by decide)
  unfold snapAxisExact
  generalize (p - origin.tmod cell).tdiv cell * cell = t at hsum ⊢
  generalize (p - origin.tmod cell).tmod cell = r at hsum hr0 hr1 ⊢
  rw [hhalf]
  split <;> omega

theorem SnapBehavior.adjust_eq_zero (snapBehavior : SnapBehavior)
    (h : snapBehavior &&& SnapInRightBottom = 0) :
    (if snapBehavior &&& SnapInRightBottom ≠ 0 then (1 : Int) else 0) = 0 := by
  simp [h]

/-- C23: the code does not keep the bound for a point left of or above the grid origin.  On
the default grid `Rect(0, 0, 16, 16)` with `NormalSnap` the point (-15, -15) is snapped to
(0, 0), at distance 15 on each axis, more than 16/2 = 8 (the nearest grid line, -16, is at
distance 1): `div` truncates toward zero, the remainder is -15, and the test `d.rem > w/2`
never holds for a negative remainder. -/
theorem UIDocumentSettingsImpl.snapToGrid_negative_point_far :
    NormalSnap &&& SnapInRightBottom = 0 ∧
    sampleGridSettings.snapToGrid { x := -15, y := -15 } NormalSnap = { x := 0, y := 0 } ∧
    (div (-15 - (div 0 16).rem) 16).rem = -15 ∧
    Int.natAbs ((sampleGridSettings.snapToGrid { x := -15, y := -15 } NormalSnap).x - (-15)) =
      15 ∧
    ¬ ((sampleGridSettings.snapToGrid { x := -15, y := -15 } NormalSnap).x - (-15) ≤
      sampleGridSettings.m_gridBounds.w.tdiv 2) ∧
    ¬ ((sampleGridSettings.snapToGrid { x := -15, y := -15 } NormalSnap).y - (-15) ≤
      sampleGridSettings.m_gridBounds.h.tdiv 2) := by
  decide

/-- The bound of C23 holds for the points at or beyond the grid offset on both axes, when no
`int` operation overflows: there the remainder of `div` is not negative and the point moves
by at most half a cell. -/
theorem UIDocumentSettingsImpl.snapToGrid_near_of_nonneg (s : UIDocumentSettingsImpl)
    (point : Point) (snapBehavior : SnapBehavior)
    (hw : 0 < s.m_gridBounds.w) (hh : 0 < s.m_gridBounds.h)
    (hsnap : snapBehavior &&& SnapInRightBottom = 0)
    (hox : snapAxis.NoOverflow s.m_gridBounds.x s.m_gridBounds.w point.x)
    (hoy : snapAxis.NoOverflow s.m_gridBounds.y s.m_gridBounds.h point.y)
    (hx : s.m_gridBounds.x.tmod s.m_gridBounds.w ≤ point.x)
    (hy : s.m_gridBounds.y.tmod s.m_gridBounds.h ≤ point.y) :
    (-(s.m_gridBounds.w.tdiv 2) ≤ (s.snapToGrid point snapBehavior).x - point.x ∧
      (s.snapToGrid point snapBehavior).x - point.x ≤ s.m_gridBounds.w.tdiv 2) ∧
    (-(s.m_gridBounds.h.tdiv 2) ≤ (s.snapToGrid point snapBehavior).y - point.y ∧
      (s.snapToGrid point snapBehavior).y - point.y ≤ s.m_gridBounds.h.tdiv 2) := by
  rw [UIDocumentSettingsImpl.snapToGrid_eq_snapAxis, SnapBehavior.adjust_eq_zero _ hsnap]
  simp only [snapAxis_eq_exact _ _ _ hox, snapAxis_eq_exact _ _ _ hoy]
  exact ⟨snapAxisExact_near_of_nonneg _ _ _ hw hx, snapAxisExact_near_of_nonneg _ _ _ hh hy⟩

/-- C24 as stated fails when the computation overflows: on the grid `Rect(0, 0, 10, 10)` with
`NormalSnap` the point with x = `INT_MAX` = 2147483647 has quotient 214748364 and remainder
7 > 5, the `int` sum 2147483640 + 10 wraps to -2147483646, which 10 does not divide, and
snapping that point again gives -2147483640, another point. -/
theorem UIDocumentSettingsImpl.snapToGrid_overflow_off_grid :
    (0 : Int) < sampleTenGridSettings.m_gridBounds.w ∧
    (0 : Int) < sampleTenGridSettings.m_gridBounds.h ∧
    NormalSnap &&& SnapInRightBottom = 0 ∧
    sampleTenGridSettings.snapToGrid { x := 2147483647, y := 0 } NormalSnap =
      { x := -2147483646, y := 0 } ∧
    ¬ (sampleTenGridSettings.m_gridBounds.w ∣
      (sampleTenGridSettings.snapToGrid { x := 2147483647, y := 0 } NormalSnap).x -
        sampleTenGridSettings.m_gridBounds.x) ∧
    sampleTenGridSettings.snapToGrid
        (sampleTenGridSettings.snapToGrid { x := 2147483647, y := 0 } NormalSnap) NormalSnap ≠
      sampleTenGridSettings.snapToGrid { x := 2147483647, y := 0 } NormalSnap := by
  decide

/-- C24, amended: `snapToGrid` lands on the grid whenever its `int` arithmetic does not
overflow.  For a grid with width `w > 0` and height `h > 0`, every snap behaviour without
`SnapInRightBottom` and every point (negative coordinates included) for which no `int`
operation of the computation overflows, `w` divides the distance of the snapped `x` from
`gridBounds.x` and `h` divides the distance of the snapped `y` from `gridBounds.y`; and
snapping the snapped point again, when that computation does not overflow either, leaves it
unchanged. -/
theorem UIDocumentSettingsImpl.snapToGrid_lands_on_grid (s : UIDocumentSettingsImpl)
    (point : Point) (snapBehavior : SnapBehavior)
    (hw : 0 < s.m_gridBounds.w) (hh : 0 < s.m_gridBounds.h)
    (hsnap : snapBehavior &&& SnapInRightBottom = 0)
    (hox : snapAxis.NoOverflow s.m_gridBounds.x s.m_gridBounds.w point.x)
    (hoy : snapAxis.NoOverflow s.m_gridBounds.y s.m_gridBounds.h point.y) :
    s.m_gridBounds.w ∣ (s.snapToGrid point snapBehavior).x - s.m_gridBounds.x ∧
    s.m_gridBounds.h ∣ (s.snapToGrid point snapBehavior).y - s.m_gridBounds.y ∧
    (snapAxis.NoOverflow s.m_gridBounds.x s.m_gridBounds.w
        (s.snapToGrid point snapBehavior).x →
      snapAxis.NoOverflow s.m_gridBounds.y s.m_gridBounds.h
        (s.snapToGrid point snapBehavior).y →
      s.snapToGrid (s.snapToGrid point snapBehavior) snapBehavior =
        s.snapToGrid point snapBehavior) := by
  simp only [UIDocumentSettingsImpl.snapToGrid_eq_snapAxis,
    SnapBehavior.adjust_eq_zero _ hsnap, snapAxis_eq_exact _ _ _ hox,
    snapAxis_eq_exact _ _ _ hoy]
  refine ⟨snapAxisExact_dvd _ _ _, snapAxisExact_dvd _ _ _, ?_⟩
  intro h2x h2y
  rw [snapAxis_eq_exact _ _ _ h2x, snapAxis_eq_exact _ _ _ h2y,
    snapAxisExact_idempotent _ _ _ hw, snapAxisExact_idempotent _ _ _ hh]

/-- Witness for C24 (amended) on the grid of origin (3, -5) with cells of 16 x 8 and the
point (-15, 30): nothing overflows, the point is snapped to (-13, 27), 16 divides -16 and
8 divides 32, and snapping again changes nothing. -/
theorem UIDocumentSettingsImpl.snapToGrid_lands_on_grid_witness :
    ((0 : Int) < sampleOffsetGridSettings.m_gridBounds.w ∧
      (0 : Int) < sampleOffsetGridSettings.m_gridBounds.h ∧
      NormalSnap &&& SnapInRightBottom = 0 ∧
      snapAxis.NoOverflow sampleOffsetGridSettings.m_gridBounds.x
        sampleOffsetGridSettings.m_gridBounds.w (-15) ∧
      snapAxis.NoOverflow sampleOffsetGridSettings.m_gridBounds.y
        sampleOffsetGridSettings.m_gridBounds.h 30 ∧
      snapAxis.NoOverflow sampleOffsetGridSettings.m_gridBounds.x
        sampleOffsetGridSettings.m_gridBounds.w (-13) ∧
      snapAxis.NoOverflow sampleOffsetGridSettings.m_gridBounds.y
        sampleOffsetGridSettings.m_gridBounds.h 27) ∧
    sampleOffsetGridSettings.snapToGrid { x := -15, y := 30 } NormalSnap =
      { x := -13, y := 27 } ∧
    sampleOffsetGridSettings.m_gridBounds.w ∣
      (sampleOffsetGridSettings.snapToGrid { x := -15, y := 30 } NormalSnap).x -
        sampleOffsetGridSettings.m_gridBounds.x ∧
    sampleOffsetGridSettings.m_gridBounds.h ∣
      (sampleOffsetGridSettings.snapToGrid { x := -15, y := 30 } NormalSnap).y -
        sampleOffsetGridSettings.m_gridBounds.y ∧
    sampleOffsetGridSettings.snapToGrid
        (sampleOffsetGridSettings.snapToGrid { x := -15, y := 30 } NormalSnap) NormalSnap =
      sampleOffsetGridSettings.snapToGrid { x := -15, y := 30 } NormalSnap :=
  ⟨by decide, by decide,
    (UIDocumentSettingsImpl.snapToGrid_lands_on_grid sampleOffsetGridSettings
      { x := -15, y := 30 } NormalSnap (by decide) (by decide) (by decide) (by decide)
      (by decide)).1,
    (UIDocumentSettingsImpl.snapToGrid_lands_on_grid sampleOffsetGridSettings
      { x := -15, y := 30 } NormalSnap (by decide) (by decide) (by decide) (by decide)
      (by decide)).2.1,
    (UIDocumentSettingsImpl.snapToGrid_lands_on_grid sampleOffsetGridSettings
      { x := -15, y := 30 } NormalSnap (by decide) (by decide) (by decide) (by decide)
      (by decide)).2.2 (by decide) (by decide)⟩

end Aseprite
